import Mathlib

/-! Linscribe: audio pipeline core.

A shallow embedding of the audio helpers, the 44100→16000 resampler, the
realtime-transcription WebSocket handlers, the capture callback, the dictation
text queue, the WAV reader and writer, and the recording, playback and
dictation controls of `src/main.cpp`, followed by theorems about them.

Conventions of the embedding

* `int16_t` samples are `Int`s; `Int16Block` says a block holds only values of
  the 16-bit range. Narrowing conversions are written out (`wrap_int16`,
  `to_int16`).
* `double` arithmetic is taken as exact and carried out in `ℚ`.
* Undefined behaviour of the C++ (a float-to-integer conversion whose result is
  not representable, a read past the end of a block) is the result
  `Except.error Fault.undefined_behaviour`.
* Calls into GLib, GTK, libsoup, PulseAudio and the typing tools are recorded
  as a list of `Effect`s returned next to the new state.
-/

namespace Linscribe

deriving instance DecidableEq for Except

/-! ## Constants (main.cpp 21-25) -/

def SAMPLE_RATE : Nat := 44100
def NUM_CHANNELS : Nat := 1
def BITS_PER_SAMPLE : Nat := 16
def DECAY_FACTOR : ℚ := 85 / 100
def WS_SAMPLE_RATE : Nat := 16000

/-- Ways in which the model of a C++ function can fail to give a result. -/
inductive Fault where
  | undefined_behaviour
  | out_of_fuel
  deriving DecidableEq, Repr

/-- Membership of the `int16_t` range. -/
def is_int16 (x : Int) : Prop := -32768 ≤ x ∧ x ≤ 32767

instance (x : Int) : Decidable (is_int16 x) :=
  inferInstanceAs (Decidable (-32768 ≤ x ∧ x ≤ 32767))

/-- A block all of whose samples are `int16_t` values. -/
def Int16Block (block : List Int) : Prop := ∀ x ∈ block, is_int16 x

instance (block : List Int) : Decidable (Int16Block block) :=
  inferInstanceAs (Decidable (∀ x ∈ block, is_int16 x))

/-- Integer narrowing `static_cast<int16_t>(int)`: reduction modulo 2^16 into
the signed range. -/
def wrap_int16 (x : Int) : Int := (x + 32768) % 65536 - 32768

/-- Truncation toward zero, the rounding of a C++ floating-to-integer
conversion. -/
def trunc (x : ℚ) : Int := if 0 ≤ x then ⌊x⌋ else ⌈x⌉

/-- Conversion `static_cast<size_t>(double)`: the truncated value when it is
not negative, undefined otherwise. (The upper end of `size_t` cannot be reached
from the resampler, whose argument is below a `size_t` count.) -/
def to_size_t (x : ℚ) : Option Nat :=
  if 0 ≤ trunc x then some (trunc x).toNat else none

/-- Conversion `static_cast<int16_t>(double)`: the truncated value when it is
representable, undefined otherwise. -/
def to_int16 (x : ℚ) : Option Int :=
  if -32768 ≤ trunc x ∧ trunc x ≤ 32767 then some (trunc x) else none

/-! ## Level meter (main.cpp 303-312) -/

/-- One iteration of the loop of `calculate_peak_level`. -/
def peak_step (peak : Int) (sample : Int) : Int :=
  let abs_val := wrap_int16 |sample|
  if abs_val > peak then abs_val else peak

/-- Peak of a block: `calculate_peak_level` of main.cpp. -/
def calculate_peak_level (data : List Int) : ℚ :=
  ((data.foldl peak_step 0 : Int) : ℚ) / 32768

/-! ## Resampler (main.cpp 430-450) -/

/-- Ratio of the capture rate to the transcription rate. -/
def STEP : ℚ := (SAMPLE_RATE : ℚ) / (WS_SAMPLE_RATE : ℚ)

/-- The `while` loop of `resample_44100_to_16000`. `fuel` bounds the number of
iterations; the result is the output vector and the value stored to `*phase`.
Positions, weights and interpolated values are exact rationals: the rounding of
each `double` operation is not modelled. With IEEE doubles the step is a little
above 441/160, so a value that is an integer here can be computed just below
it and be cut one lower (on `[0, 0, 160, 0]` from phase 0 the code returns
`[0, 38]`, this loop `[0, 39]`), and the number of iterations can differ by one
where a position meets `count - 1` exactly. -/
def resample_loop (input : List Int) : Nat → ℚ → List Int → Except Fault (List Int × ℚ)
  | fuel, pos, output =>
    if pos < (input.length : ℚ) - 1 then
      match fuel with
      | 0 => .error .out_of_fuel
      | fuel + 1 =>
        match to_size_t pos with
        | none => .error .undefined_behaviour
        | some idx =>
          let frac := pos - (idx : ℚ)
          match input[idx]?, input[idx + 1]? with
          | some a, some b =>
            let sample := (a : ℚ) * (1 - frac) + (b : ℚ) * frac
            match to_int16 sample with
            | none => .error .undefined_behaviour
            | some v => resample_loop input fuel (pos + STEP) (output ++ [v])
          | _, _ => .error .undefined_behaviour
    else .ok (output, pos - (input.length : ℚ))

/-- Resampler `resample_44100_to_16000(input, count, phase)`: the output block
and the new phase. The fuel `count + 1` is never used up (see
`resample_never_out_of_fuel`). -/
def resample_44100_to_16000 (input : List Int) (phase : ℚ) : Except Fault (List Int × ℚ) :=
  resample_loop input (input.length + 1) phase []

/-- Linear interpolation of `input` at the real position `pos`, in the words of
the specification: between the samples at `floor(pos)` and `floor(pos)+1`,
with weight `pos - floor(pos)`. -/
def lerp_at (input : List Int) (pos : ℚ) : ℚ :=
  (input.getD ⌊pos⌋.toNat 0 : ℚ) * (1 - (pos - ⌊pos⌋)) +
    (input.getD (⌊pos⌋.toNat + 1) 0 : ℚ) * (pos - ⌊pos⌋)

/-! ## Application state (main.cpp 27-101) -/

inductive TypingTool where
  | NONE | XDO | WTYPE | YDOTOOL | XDOTOOL
  deriving DecidableEq, Repr

/-- State of a libsoup WebSocket connection, as `soup_websocket_connection_get_state`
reports it. -/
inductive SoupWebsocketState where
  | OPEN | CLOSING | CLOSED
  deriving DecidableEq, Repr

/-- A saved note: `struct VoiceNote` of main.cpp. -/
structure VoiceNote where
  filepath : String
  display_name : String
  duration_seconds : ℚ := 0
  transcription : String := ""
  transcribing : Bool := false
  deriving DecidableEq

/-- The fields of `AppState` that the audio core reads or writes. Pointers are
options: `none` is `nullptr`; a stream or handle is named by a number. -/
structure AppState where
  notes : List VoiceNote := []
  stream : Option Nat := none
  playback_stream : Option Nat := none
  playing : Bool := false
  playback_buffer : List Int := []
  playback_offset : Nat := 0
  playing_note_index : Int := -1
  recording : Bool := false
  pa_ready : Bool := false
  current_level : ℚ := 0
  audio_buffer : List Int := []
  transcription_available : Bool := false
  ws_conn : Option SoupWebsocketState := none
  ws_ready : Bool := false
  live_transcription : String := ""
  live_transcription_label : Option Nat := none
  resample_phase : ℚ := 0
  dictating : Bool := false
  xdo : Option Nat := none
  typing_tool : TypingTool := TypingTool.NONE
  dictation_buffer : String := ""
  dictation_flush_id : Nat := 0
  deriving DecidableEq

/-- Calls made to the outside world. -/
inductive Effect where
  /-- Text frame given to `soup_websocket_connection_send_text` on `ws_conn`. -/
  | ws_send_text (frame : String)
  /-- Call `soup_websocket_connection_close(ws_conn, SOUP_WEBSOCKET_CLOSE_NORMAL, nullptr)`. -/
  | ws_close
  /-- Call `g_warning` with the formatted text. -/
  | g_warning (text : String)
  /-- Call `gtk_label_set_text` on `live_transcription_label`. -/
  | set_live_transcription_label (text : String)
  /-- Call `gtk_level_bar_set_value` on `level_bar`. -/
  | gtk_level_bar_set_value (value : ℚ)
  /-- Call `g_idle_add(flush_dictation_buffer, state)`, which returned `id`. -/
  | g_idle_add (id : Nat)
  /-- Call `xdo_enter_text_window(xdo, CURRENTWINDOW, text, 12000)`. -/
  | xdo_enter_text_window (text : String)
  /-- Call `g_spawn_sync` with the argument vector `argv`. -/
  | g_spawn_sync (argv : List String)
  /-- Call `g_source_remove(id)`. -/
  | g_source_remove (id : Nat)
  /-- Call `pa_stream_new(pa_ctx, name, &spec, nullptr)`. -/
  | pa_stream_new (name : String)
  /-- Call `pa_stream_connect_record` on the stream `handle`. -/
  | pa_stream_connect_record (handle : Nat)
  /-- Call `pa_stream_disconnect` on the stream `handle`. -/
  | pa_stream_disconnect (handle : Nat)
  /-- Call `pa_stream_unref` on the stream `handle`. -/
  | pa_stream_unref (handle : Nat)
  /-- Call `xdo_free` on the handle. -/
  | xdo_free (handle : Nat)
  /-- Call `soup_session_websocket_connect_async` for the realtime endpoint. -/
  | soup_session_websocket_connect_async
  /-- Call `pa_stream_connect_playback` on the stream `handle`. -/
  | pa_stream_connect_playback (handle : Nat)
  /-- Call `pa_stream_write` with these samples of `playback_buffer`. -/
  | pa_stream_write (samples : List Int)
  /-- Call `pa_stream_drain` with `on_playback_drain_complete` as its callback. -/
  | pa_stream_drain
  /-- Call `gtk_label_set_text` on the status label `label`. -/
  | gtk_label_set_text (text : String)
  /-- Call `gtk_label_set_text` on the status label `label` with the C string
  that these bytes make up. -/
  | gtk_label_set_c_string (bytes : List Nat)
  /-- Call `refresh_notes_list`. -/
  | refresh_notes_list
  /-- Call `g_object_unref` on `ws_conn`. -/
  | g_object_unref_ws_conn
  /-- Call `gtk_button_set_label` on `record_button`. -/
  | gtk_button_set_label (text : String)
  /-- Call `gtk_label_set_text` on `label` with the text that `g_snprintf` makes of
  `"Recorded %.1f seconds - save?"` and `seconds`. -/
  | gtk_label_set_recorded (seconds : ℚ)
  /-- Call `gtk_widget_show` on the widget of `AppState` with this field name. -/
  | gtk_widget_show (widget : String)
  /-- Call `gtk_widget_show_all` on the widget with this field name. -/
  | gtk_widget_show_all (widget : String)
  /-- Call `gtk_widget_hide` on the widget with this field name. -/
  | gtk_widget_hide (widget : String)
  /-- Call `gtk_widget_set_no_show_all` on the widget with this field name. -/
  | gtk_widget_set_no_show_all (widget : String) (value : Bool)
  deriving DecidableEq

/-! ## Dictation text queue (main.cpp 1385-1446) -/

/-- Idle callback `flush_dictation_buffer`. -/
def flush_dictation_buffer (s : AppState) : AppState × List Effect :=
  let s1 := { s with dictation_flush_id := 0 }
  if s1.dictation_buffer = "" ∨ s1.dictating = false then (s1, [])
  else
    let text := s1.dictation_buffer
    let s2 := { s1 with dictation_buffer := "" }
    match s2.typing_tool with
    | .XDO =>
      match s2.xdo with
      | some _ => (s2, [.xdo_enter_text_window text])
      | none => (s2, [])
    | .WTYPE => (s2, [.g_spawn_sync ["wtype", "--", text]])
    | .YDOTOOL => (s2, [.g_spawn_sync ["ydotool", "type", "--", text]])
    | .XDOTOOL => (s2, [.g_spawn_sync ["xdotool", "type", "--clearmodifiers", "--", text]])
    | .NONE => (s2, [])

/-- Function `type_text(state, text)`; `text = none` is a null pointer and
`idle_id` the source id that `g_idle_add` returns if it is called (GLib ids are
positive). -/
def type_text (s : AppState) (text : Option String) (idle_id : ℕ+) : AppState × List Effect :=
  match text with
  | none => (s, [])
  | some t =>
    if t = "" then (s, [])
    else
      let s1 := { s with dictation_buffer := s.dictation_buffer ++ t }
      if s1.dictation_flush_id = 0 then
        ({ s1 with dictation_flush_id := idle_id }, [.g_idle_add idle_id])
      else (s1, [])

/-! ## Realtime transcription session (main.cpp 454-603) -/

/-- The 64 digits of the base64 alphabet. -/
def base64_alphabet : List Char :=
  "ABCDEFGHIJKLMNOPQRSTUVWXYZabcdefghijklmnopqrstuvwxyz0123456789+/".toList

/-- Digit of a 6-bit value. -/
def base64_digit (n : Nat) : Char := base64_alphabet.getD n '='

/-- GLib function `g_base64_encode` on a byte sequence: standard alphabet, padded,
no line breaks. -/
def g_base64_encode : List Nat → List Char
  | [] => []
  | [a] => [base64_digit (a / 4), base64_digit (a % 4 * 16), '=', '=']
  | [a, b] =>
    [base64_digit (a / 4), base64_digit (a % 4 * 16 + b / 16), base64_digit (b % 16 * 4), '=']
  | a :: b :: c :: rest =>
    [base64_digit (a / 4), base64_digit (a % 4 * 16 + b / 16),
      base64_digit (b % 16 * 4 + c / 64), base64_digit (c % 64)] ++ g_base64_encode rest

/-- The two bytes of an `int16_t` in memory, low byte first. -/
def int16_bytes (x : Int) : List Nat :=
  let u := (x % 65536).toNat
  [u % 256, u / 256]

/-- Bytes of `resampled.data()`, `resampled.size() * sizeof(int16_t)` of them. -/
def pcm_bytes (samples : List Int) : List Nat := samples.flatMap int16_bytes

/-- The `session.update` text frame of `on_ws_message`. -/
def session_update : String :=
  "\x7b\"type\":\"session.update\",\"session\":" ++
  "\x7b\"audio_format\":\x7b\"encoding\":\"pcm_s16le\"," ++
  "\"sample_rate\":16000\x7d\x7d\x7d"

/-- The `input_audio.append` text frame built by `ws_send_audio` around the
base64 text `b64`. -/
def input_audio_append (b64 : String) : String :=
  "\x7b\"type\":\"input_audio.append\",\"audio\":\"" ++ b64 ++ "\"\x7d"

/-- Function `ws_disconnect`. A close request on an open connection leaves it
closing. -/
def ws_disconnect (s : AppState) : AppState × List Effect :=
  let s1 := { s with ws_ready := false }
  match s1.ws_conn with
  | some .OPEN => ({ s1 with ws_conn := some .CLOSING }, [.ws_close])
  | _ => (s1, [])

/-- Function `ws_send_audio(state, samples, count)`. -/
def ws_send_audio (s : AppState) (samples : List Int) : Except Fault (AppState × List Effect) :=
  if s.ws_ready = false ∨ s.ws_conn = none then .ok (s, [])
  else
    match resample_44100_to_16000 samples s.resample_phase with
    | .error e => .error e
    | .ok (resampled, phase) =>
      let s1 := { s with resample_phase := phase }
      if resampled = [] then .ok (s1, [])
      else
        let b64 := String.mk (g_base64_encode (pcm_bytes resampled))
        .ok (s1, [.ws_send_text (input_audio_append b64)])

/-- A parsed inbound message: the root object as `on_ws_message` queries it.
`msg_type` is `json_object_get_string_member(obj, "type")`; `text` and
`message` are `none` when the member is absent and `some none` when it is
present without a string value. -/
structure JsonObject where
  msg_type : Option String := none
  text : Option (Option String) := none
  message : Option (Option String) := none
  deriving DecidableEq

/-- Signal handler `on_ws_message`. `message = none` is a payload that
`json_parser_load_from_data` rejects; `idle_id` is as in `type_text`. -/
def on_ws_message (s : AppState) (message : Option JsonObject) (idle_id : ℕ+) :
    AppState × List Effect :=
  match message with
  | none => (s, [])
  | some obj =>
    if obj.msg_type = some "session.created" then
      (s, [.ws_send_text session_update])
    else if obj.msg_type = some "session.updated" then
      ({ s with ws_ready := true }, [])
    else if obj.msg_type = some "transcription.text.delta" then
      match obj.text with
      | some (some text) =>
        if s.dictating then type_text s (some text) idle_id
        else
          let s1 := { s with live_transcription := s.live_transcription ++ text }
          match s1.live_transcription_label with
          | some _ => (s1, [.set_live_transcription_label s1.live_transcription])
          | none => (s1, [])
      | _ => (s, [])
    else if obj.msg_type = some "error" then
      let detail := match obj.message with
        | some (some m) => m
        | some none => "(null)"
        | none => ""
      let r := ws_disconnect s
      (r.1, .g_warning ("WebSocket transcription error: " ++ detail) :: r.2)
    else (s, [])

/-! ## Capture callback (main.cpp 607-634) -/

/-- Body of the loop of `on_stream_read` for one fragment returned by
`pa_stream_peek`; `data = none` is a hole (`data == nullptr`). -/
def on_stream_read_fragment (s : AppState) (data : Option (List Int)) :
    Except Fault (AppState × List Effect) :=
  match data with
  | none => .ok (s, [])
  | some samples =>
    let s1 := { s with audio_buffer := s.audio_buffer ++ samples }
    match ws_send_audio s1 samples with
    | .error e => .error e
    | .ok (s2, sent) =>
      let peak := calculate_peak_level samples
      let s3 :=
        if peak ≥ s2.current_level then { s2 with current_level := peak }
        else { s2 with current_level := s2.current_level * DECAY_FACTOR + peak * (1 - DECAY_FACTOR) }
      .ok (s3, sent ++ [.gtk_level_bar_set_value s3.current_level])

/-- Callback `on_stream_read` over the fragments readable when it is called. -/
def on_stream_read (s : AppState) : List (Option (List Int)) → Except Fault (AppState × List Effect)
  | [] => .ok (s, [])
  | data :: rest =>
    match on_stream_read_fragment s data with
    | .error e => .error e
    | .ok (s1, fx) =>
      match on_stream_read s1 rest with
      | .error e => .error e
      | .ok (s2, fx2) => .ok (s2, fx ++ fx2)

/-! ## Dictation activity (main.cpp 1317-1382, 1475-1585) -/

/-- Results of the calls into the environment that `start_dictation` can make. -/
structure DictationEnv where
  /-- Result of `is_wayland_session()`. -/
  wayland : Bool
  /-- Whether the probe `wtype ""` was spawned and exited with status 0. -/
  wtype_ok : Bool
  /-- Whether the probe `ydotool type ""` was spawned and exited with status 0. -/
  ydotool_ok : Bool
  /-- Whether the probe `xdotool type ""` was spawned and exited with status 0. -/
  xdotool_ok : Bool
  /-- Result of `xdo_new(nullptr)`. -/
  xdo_new : Option Nat
  /-- Result of `pa_stream_new` for the dictation stream. -/
  pa_stream_new : Option Nat
  /-- Whether `pa_stream_connect_record` returned a value that is not negative. -/
  connect_record_ok : Bool
  deriving DecidableEq

/-- Function `detect_typing_tool`. -/
def detect_typing_tool (env : DictationEnv) : TypingTool :=
  if env.wayland = false then .XDO
  else if env.wtype_ok then .WTYPE
  else if env.ydotool_ok then .YDOTOOL
  else if env.xdotool_ok then .XDOTOOL
  else .NONE

/-- Function `ws_connect`. The connection itself arrives later, in
`on_ws_connect_complete`. -/
def ws_connect (s : AppState) : AppState × List Effect :=
  if s.transcription_available = false then (s, [])
  else if s.ws_conn ≠ none then (s, [])
  else
    ({ s with resample_phase := 0, live_transcription := "", ws_ready := false },
      [.soup_session_websocket_connect_async])

/-- Function `stop_dictation`. -/
def stop_dictation (s : AppState) : AppState × List Effect :=
  if s.dictating = false then (s, [])
  else
    let s1 := { s with dictating := false }
    let cancel : List Effect :=
      if s1.dictation_flush_id ≠ 0 then [.g_source_remove s1.dictation_flush_id] else []
    let s2 := { s1 with dictation_flush_id := 0, dictation_buffer := "" }
    let release : List Effect :=
      match s2.stream with
      | some handle => [.pa_stream_disconnect handle, .pa_stream_unref handle]
      | none => []
    let s3 := { s2 with stream := none }
    let r := ws_disconnect s3
    let free : List Effect :=
      match r.1.xdo with
      | some handle => [.xdo_free handle]
      | none => []
    ({ r.1 with xdo := none }, cancel ++ release ++ r.2 ++ free)

/-- Function `start_dictation`. -/
def start_dictation (s : AppState) (env : DictationEnv) : AppState × List Effect :=
  if s.transcription_available = false ∨ s.dictating = true then (s, [])
  else if s.pa_ready = false then (s, [])
  else if s.recording = true then (s, [])
  else
    let s1 := { s with typing_tool := detect_typing_tool env }
    if s1.typing_tool = .NONE then
      (s1, [.g_warning "No working typing tool found — cannot start dictation"])
    else if s1.typing_tool = .XDO ∧ env.xdo_new = none then
      ({ s1 with xdo := none, typing_tool := .NONE }, [.g_warning "Failed to create xdo handle"])
    else
      let s2 := if s1.typing_tool = .XDO then { s1 with xdo := env.xdo_new } else s1
      let s3 := { s2 with dictating := true }
      match env.pa_stream_new with
      | none =>
        let r := stop_dictation { s3 with stream := none }
        (r.1, [.pa_stream_new "linscribe-dictation",
          .g_warning "Failed to create dictation stream"] ++ r.2)
      | some handle =>
        let s4 := { s3 with stream := some handle }
        if env.connect_record_ok = false then
          let r := stop_dictation { s4 with stream := none }
          (r.1, [.pa_stream_new "linscribe-dictation", .pa_stream_connect_record handle,
            .g_warning "Failed to connect dictation stream", .pa_stream_unref handle] ++ r.2)
        else
          let r := ws_connect { s4 with live_transcription := "", resample_phase := 0 }
          (r.1, [.pa_stream_new "linscribe-dictation", .pa_stream_connect_record handle] ++ r.2)

/-- What `start_dictation` guarantees of a state in which dictation is active: a
typing backend is selected, and the xdo handle exists when the backend is XDO. -/
def DictationReady (s : AppState) : Prop :=
  s.dictating = true → s.typing_tool ≠ .NONE ∧ (s.typing_tool = .XDO → s.xdo ≠ none)

/-- An event of the dictation queue: a call of `type_text`, or a run of the idle
callback `flush_dictation_buffer`. -/
inductive DictationEvent where
  | type_text (text : Option String) (idle_id : ℕ+)
  | flush
  deriving DecidableEq

/-- One event applied to the state. -/
def dictation_step (s : AppState) : DictationEvent → AppState × List Effect
  | .type_text text idle_id => type_text s text idle_id
  | .flush => flush_dictation_buffer s

/-- A sequence of events applied in order, with all effects in order. -/
def dictation_run (s : AppState) : List DictationEvent → AppState × List Effect
  | [] => (s, [])
  | e :: rest =>
    ((dictation_run (dictation_step s e).1 rest).1,
      (dictation_step s e).2 ++ (dictation_run (dictation_step s e).1 rest).2)

/-- The text an effect hands to a typing backend, if it is an injection: the
text of `xdo_enter_text_window`, or the last argument of a spawned tool. -/
def injected_text : Effect → Option String
  | .xdo_enter_text_window text => some text
  | .g_spawn_sync argv => argv.getLast?
  | _ => none

/-- The injected texts of a list of effects, in order. -/
def injections (fx : List Effect) : List String := fx.filterMap injected_text

/-- Concatenation of texts in order. -/
def concat_texts : List String → String
  | [] => ""
  | t :: rest => t ++ concat_texts rest

/-- In the words of the specification: the batches that the flushes of an event
sequence must inject, each the concatenation in arrival order of the texts
enqueued since the previous flush (`pending` at the start); a flush with
nothing enqueued injects nothing. -/
def flush_batches : String → List DictationEvent → List String
  | _, [] => []
  | pending, .type_text text _ :: rest => flush_batches (pending ++ text.getD "") rest
  | pending, .flush :: rest =>
    if pending = "" then flush_batches "" rest else pending :: flush_batches "" rest

/-- In the words of the specification: the text still enqueued after an event
sequence. -/
def pending_text : String → List DictationEvent → String
  | pending, [] => pending
  | pending, .type_text text _ :: rest => pending_text (pending ++ text.getD "") rest
  | _, .flush :: rest => pending_text "" rest

/-- The texts passed to `type_text` by an event sequence, in arrival order. -/
def enqueued_texts : List DictationEvent → List String
  | [] => []
  | .type_text text _ :: rest => text.getD "" :: enqueued_texts rest
  | .flush :: rest => enqueued_texts rest

/-! ## Playback (main.cpp 316-426) -/

/-- Function `stop_playback`. The calls made when a playback was active (status
label `Ready`, `refresh_notes_list`) are how its end is signalled. -/
def stop_playback (s : AppState) : AppState × List Effect :=
  let release : List Effect :=
    match s.playback_stream with
    | some handle => [.pa_stream_disconnect handle, .pa_stream_unref handle]
    | none => []
  let was_playing := s.playing
  let s1 := { s with playback_stream := none, playing := false, playing_note_index := -1,
                     playback_buffer := [], playback_offset := 0 }
  (s1, release ++ if was_playing then [.gtk_label_set_text "Ready", .refresh_notes_list] else [])

/-- Callback `on_playback_drain_complete`. -/
def on_playback_drain_complete (s : AppState) : AppState × List Effect :=
  stop_playback s

/-- Callback `on_playback_write(s, nbytes, userdata)`. -/
def on_playback_write (s : AppState) (nbytes : Nat) : AppState × List Effect :=
  if s.playback_offset ≥ s.playback_buffer.length then (s, [.pa_stream_drain])
  else
    let remaining_samples := s.playback_buffer.length - s.playback_offset
    let max_samples := nbytes / 2
    let to_write := min remaining_samples max_samples
    ({ s with playback_offset := s.playback_offset + to_write },
      [.pa_stream_write ((s.playback_buffer.drop s.playback_offset).take to_write)])

/-- The output side as the device sees it: the application state, the samples
handed to `pa_stream_write` so far, the drain operations requested and not yet
confirmed, and the number of times the end of a playback was signalled. -/
structure PlaybackWorld where
  app : AppState
  delivered : List Int := []
  drains_pending : Nat := 0
  finished : Nat := 0
  deriving DecidableEq

/-- An event of the output stream: a write opportunity of `nbytes` bytes, or the
confirmation of a drain. -/
inductive PlaybackEvent where
  | write (nbytes : Nat)
  | drain_complete
  deriving DecidableEq

/-- The samples that a list of effects hands to `pa_stream_write`, in order. -/
def written_samples : List Effect → List Int
  | [] => []
  | .pa_stream_write samples :: rest => samples ++ written_samples rest
  | _ :: rest => written_samples rest

/-- One event of the output stream. The device confirms only a drain that was
requested: a confirmation with none pending does not occur. -/
def playback_step (w : PlaybackWorld) : PlaybackEvent → PlaybackWorld
  | .write nbytes =>
    let r := on_playback_write w.app nbytes
    { w with app := r.1, delivered := w.delivered ++ written_samples r.2,
             drains_pending := w.drains_pending + r.2.count .pa_stream_drain }
  | .drain_complete =>
    if w.drains_pending = 0 then w
    else
      let r := on_playback_drain_complete w.app
      { w with app := r.1, drains_pending := w.drains_pending - 1,
               finished := w.finished + r.2.count .refresh_notes_list }

/-- A sequence of events of the output stream, in order. -/
def playback_run (w : PlaybackWorld) : List PlaybackEvent → PlaybackWorld
  | [] => w
  | e :: rest => playback_run (playback_step w e) rest

/-- State of the output side during and after the playback of the buffer
`buffer` that `start_playback` loaded: while `playing`, the samples delivered
are the part of `buffer` before `playback_offset` and no end was signalled;
once stopped, everything was delivered, the session is released and the end was
signalled once; a drain is pending only after everything was delivered. -/
def PlaybackInv (buffer : List Int) (w : PlaybackWorld) : Prop :=
  (w.app.playing = true →
    w.app.playback_buffer = buffer ∧ w.app.playback_offset ≤ buffer.length ∧
    w.delivered = buffer.take w.app.playback_offset ∧ w.finished = 0) ∧
  (w.app.playing = false →
    w.app.playback_buffer = [] ∧ w.app.playback_offset = 0 ∧ w.app.playback_stream = none ∧
    w.app.playing_note_index = -1 ∧ w.delivered = buffer ∧ w.finished = 1) ∧
  (0 < w.drains_pending → w.delivered = buffer)

/-! ## Dictation queue and the main loop -/

/-- The dictation queue as the GLib main loop sees it: the application state
and the ids of the idle sources that were registered with `g_idle_add` and
have neither run nor been removed. -/
structure DictationWorld where
  app : AppState := {}
  idle_sources : List Nat := []
  deriving DecidableEq

/-- The idle sources left by a list of calls: `g_idle_add` registers one,
`g_source_remove` removes one. -/
def idle_sources_after (sources : List Nat) : List Effect → List Nat
  | [] => sources
  | .g_idle_add id :: rest => idle_sources_after (sources ++ [id]) rest
  | .g_source_remove id :: rest => idle_sources_after (sources.erase id) rest
  | _ :: rest => idle_sources_after sources rest

/-- An event in the life of the dictation queue. `text_delta` is an inbound
`transcription.text.delta` message with a text, handled by `on_ws_message`,
which holds the only call of `type_text`; `idle` is the main loop running the
idle source `id`. -/
inductive QueueEvent where
  | start_dictation (env : DictationEnv)
  | text_delta (text : String) (idle_id : ℕ+)
  | idle (id : Nat)
  | stop_dictation
  deriving DecidableEq

/-- Whether an event brings new text to the queue. -/
def brings_text : QueueEvent → Bool
  | .text_delta _ _ => true
  | _ => false

/-- One event: the new world and the calls made. An idle source runs only
while it is registered, and is removed when its callback has returned
(`G_SOURCE_REMOVE`). -/
def queue_step (w : DictationWorld) : QueueEvent → DictationWorld × List Effect
  | .start_dictation env =>
    ({ app := (start_dictation w.app env).1,
       idle_sources := idle_sources_after w.idle_sources (start_dictation w.app env).2 },
      (start_dictation w.app env).2)
  | .text_delta text idle_id =>
    let r := on_ws_message w.app
      (some { msg_type := some "transcription.text.delta", text := some (some text) }) idle_id
    ({ app := r.1, idle_sources := idle_sources_after w.idle_sources r.2 }, r.2)
  | .idle id =>
    if id ∈ w.idle_sources then
      ({ app := (flush_dictation_buffer w.app).1,
         idle_sources := idle_sources_after (w.idle_sources.erase id) (flush_dictation_buffer w.app).2 },
        (flush_dictation_buffer w.app).2)
    else (w, [])
  | .stop_dictation =>
    ({ app := (stop_dictation w.app).1,
       idle_sources := idle_sources_after w.idle_sources (stop_dictation w.app).2 },
      (stop_dictation w.app).2)

/-- A sequence of events, with all calls in order. -/
def queue_run (w : DictationWorld) : List QueueEvent → DictationWorld × List Effect
  | [] => (w, [])
  | e :: rest =>
    ((queue_run (queue_step w e).1 rest).1, (queue_step w e).2 ++ (queue_run (queue_step w e).1 rest).2)

/-- Invariant of the dictation queue: the registered idle sources are exactly
the one named by `dictation_flush_id`, or none when that is 0; text is pending
only with a flush scheduled; and outside a dictation nothing is pending. -/
def QueueInv (w : DictationWorld) : Prop :=
  w.idle_sources = (if w.app.dictation_flush_id = 0 then [] else [w.app.dictation_flush_id]) ∧
  (w.app.dictation_buffer ≠ "" → w.app.dictation_flush_id ≠ 0) ∧
  (w.app.dictating = false → w.app.dictation_buffer = "" ∧ w.app.dictation_flush_id = 0)

/-- No dictation is active and nothing is queued, as when the program starts. -/
def QueueIdle (s : AppState) : Prop :=
  s.dictating = false ∧ s.dictation_buffer = "" ∧ s.dictation_flush_id = 0

instance (s : AppState) : Decidable (QueueIdle s) :=
  inferInstanceAs (Decidable (s.dictating = false ∧ s.dictation_buffer = "" ∧
    s.dictation_flush_id = 0))

/-! ## WAV files (main.cpp 129-241) -/

/-- The bytes of an ASCII tag such as `RIFF`. -/
def tag_bytes (tag : String) : List Nat := tag.toList.map Char.toNat

/-- The two bytes of a `uint16_t` in memory, low byte first. -/
def u16_bytes (v : Nat) : List Nat := [v % 256, v / 256 % 256]

/-- The four bytes of a `uint32_t` in memory, low byte first. -/
def u32_bytes (v : Nat) : List Nat :=
  [v % 256, v / 256 % 256, v / 65536 % 256, v / 16777216 % 256]

/-- The unsigned integer that bytes in memory stand for, low byte first. -/
def le_uint : List Nat → Nat
  | [] => 0
  | b :: rest => b + 256 * le_uint rest

/-- The `int16_t` samples that sample bytes in memory stand for. -/
def decode_samples : List Nat → List Int
  | b0 :: b1 :: rest =>
    (if b0 + 256 * b1 ≥ 32768 then ((b0 + 256 * b1 : Nat) : Int) - 65536
      else ((b0 + 256 * b1 : Nat) : Int)) :: decode_samples rest
  | _ => []

/-- The bytes that `write_wav_file` writes to the file of a note; it returns
true when the file could be opened and every write succeeded. -/
def write_wav_file (samples : List Int) : List Nat :=
  let data_size := samples.length * 2 % 2 ^ 32
  let file_size := (36 + data_size) % 2 ^ 32
  let block_align := NUM_CHANNELS * BITS_PER_SAMPLE / 8 % 2 ^ 16
  let byte_rate := SAMPLE_RATE * block_align % 2 ^ 32
  tag_bytes "RIFF" ++ u32_bytes file_size ++ tag_bytes "WAVE" ++
    tag_bytes "fmt " ++ u32_bytes 16 ++ u16_bytes 1 ++ u16_bytes NUM_CHANNELS ++
    u32_bytes SAMPLE_RATE ++ u32_bytes byte_rate ++ u16_bytes block_align ++
    u16_bytes BITS_PER_SAMPLE ++
    tag_bytes "data" ++ u32_bytes data_size ++ (pcm_bytes samples).take data_size

/-- A `std::ifstream` that is read forward only: the bytes from the read
position to the end of the file, and whether the stream is still good. -/
structure IfStream where
  rest : List Nat
  good : Bool
  deriving DecidableEq

/-- Call `in.read(buf, n)` on a buffer that held `old`: the buffer afterwards
and the stream. A stream that is not good extracts nothing; a read past the
end of the file extracts what is left and leaves the stream failed. -/
def ifstream_read (st : IfStream) (n : Nat) (old : List Nat) : List Nat × IfStream :=
  if st.good = false then (old, st)
  else if n ≤ st.rest.length then (st.rest.take n, { rest := st.rest.drop n, good := true })
  else (st.rest ++ old.drop st.rest.length, { rest := [], good := false })

/-- Call `in.seekg(off, std::ios::cur)` with `off` not negative. -/
def ifstream_seekg_cur (st : IfStream) (off : Nat) : IfStream :=
  if st.good = false then st else { rest := st.rest.drop off, good := true }

/-- The contents, before anything is read into them, of the locals of
`read_wav_file` that it compares or computes with. They are not initialised
in the source, so they are arbitrary here. -/
structure WavLocals where
  riff : List Nat := []
  wave : List Nat := []
  fmt_id : List Nat := []
  data_id : List Nat := []
  fmt_size : List Nat := []
  data_size : List Nat := []
  deriving DecidableEq

/-- Function `read_wav_file(path, samples)` on the content of the file (`none`
when it cannot be opened). `.ok none` is the result false, `.ok (some v)` the
result true with `samples` holding `v`. With an odd `data_size` that the file
can supply, the read writes one byte past the vector, which is undefined.
Allocation in `samples.resize` is taken to succeed. -/
def read_wav_file (file : Option (List Nat)) (locals : WavLocals) :
    Except Fault (Option (List Int)) :=
  match file with
  | none => .ok none
  | some bytes =>
    let riff := ifstream_read { rest := bytes, good := true } 4 locals.riff
    let file_size := ifstream_read riff.2 4 []
    let wave := ifstream_read file_size.2 4 locals.wave
    if riff.1 ≠ tag_bytes "RIFF" ∨ wave.1 ≠ tag_bytes "WAVE" then .ok none
    else
      let fmt_id := ifstream_read wave.2 4 locals.fmt_id
      let fmt_size := ifstream_read fmt_id.2 4 locals.fmt_size
      if fmt_id.1 ≠ tag_bytes "fmt " then .ok none
      else
        let audio_format := ifstream_read fmt_size.2 2 []
        let channels := ifstream_read audio_format.2 2 []
        let sample_rate := ifstream_read channels.2 4 []
        let byte_rate := ifstream_read sample_rate.2 4 []
        let block_align := ifstream_read byte_rate.2 2 []
        let bits_per_sample := ifstream_read block_align.2 2 []
        let skipped :=
          if le_uint fmt_size.1 > 16 then
            ifstream_seekg_cur bits_per_sample.2 (le_uint fmt_size.1 - 16)
          else bits_per_sample.2
        let data_id := ifstream_read skipped 4 locals.data_id
        let data_size := ifstream_read data_id.2 4 locals.data_size
        if data_id.1 ≠ tag_bytes "data" then .ok none
        else
          let num_samples := le_uint data_size.1 / 2
          let data := ifstream_read data_size.2 (le_uint data_size.1)
            (List.replicate (2 * num_samples) 0)
          if data.2.good then
            if le_uint data_size.1 % 2 = 1 then .error .undefined_behaviour
            else .ok (some (decode_samples data.1))
          else .ok none

/-- Function `get_wav_duration(path)` on the content of the file (`none` when it
cannot be opened). The product `channels * bits_per_sample` is computed in
`int`, where a value of 2^31 or more is an overflow, which is undefined. -/
def get_wav_duration (file : Option (List Nat)) : Except Fault ℚ :=
  match file with
  | none => .ok 0
  | some bytes =>
    let header := ifstream_read { rest := bytes, good := true } 44 []
    if header.2.good = false then .ok 0
    else
      let sample_rate := le_uint ((header.1.drop 24).take 4)
      let channels := le_uint ((header.1.drop 22).take 2)
      let bits_per_sample := le_uint ((header.1.drop 34).take 2)
      let data_size := le_uint ((header.1.drop 40).take 4)
      if sample_rate = 0 ∨ channels = 0 ∨ bits_per_sample = 0 then .ok 0
      else if channels * bits_per_sample ≥ 2 ^ 31 then .error .undefined_behaviour
      else
        let bytes_per_sample := channels * bits_per_sample / 8
        if bytes_per_sample = 0 then .ok 0
        else
          let total_samples := data_size / bytes_per_sample
          .ok ((total_samples : ℚ) / (sample_rate : ℚ))

/-- In the words of the specification: the canonical 44-byte header of a PCM
file, mono, 16 bits, 44100 Hz, with the given RIFF size and data size. -/
def canonical_wav_header (file_size data_size : Nat) : List Nat :=
  tag_bytes "RIFF" ++ u32_bytes file_size ++ tag_bytes "WAVE" ++
    tag_bytes "fmt " ++ u32_bytes 16 ++ u16_bytes 1 ++ u16_bytes 1 ++ u32_bytes 44100 ++
    u32_bytes 88200 ++ u16_bytes 2 ++ u16_bytes 16 ++
    tag_bytes "data" ++ u32_bytes data_size

/-! ## Starting a playback (main.cpp 352-407) -/

/-- Conversion `static_cast<int>` of a `size_t`. -/
def to_int (n : Nat) : Int :=
  if n % 2 ^ 32 ≥ 2 ^ 31 then ((n % 2 ^ 32 : Nat) : Int) - 2 ^ 32 else ((n % 2 ^ 32 : Nat) : Int)

/-- What `start_playback` meets outside the state. -/
structure PlaybackEnv where
  /-- Content of the file at `note.filepath`, `none` when it cannot be opened. -/
  file : Option (List Nat)
  /-- What the locals of `read_wav_file` hold before they are read into. -/
  locals : WavLocals
  /-- What `read_wav_file` leaves in `playback_buffer` when it returns false. -/
  failed_read_buffer : List Int
  /-- Handle returned by `pa_stream_new`, `none` for a null pointer. -/
  new_stream : Option Nat
  /-- Whether `pa_stream_connect_playback` returned a value that is not negative. -/
  connect_playback_ok : Bool
  deriving DecidableEq

/-- Bytes of the C string that `g_snprintf(buf, sizeof(buf), "Playing: %s", ...)`
leaves in the 128-byte `buf`: the first 127 bytes of the text at most. -/
def playing_label (display_name : String) : List Nat :=
  (("Playing: " ++ display_name).toList.flatMap
    (fun c => (String.utf8EncodeChar c).map UInt8.toNat)).take 127

/-- Function `start_playback(state, note_index)`. -/
def start_playback (s : AppState) (note_index : Int) (env : PlaybackEnv) :
    Except Fault (AppState × List Effect) :=
  if note_index < 0 ∨ note_index ≥ to_int s.notes.length then .ok (s, [])
  else if s.pa_ready = false then .ok (s, [])
  else
    let stopped := if s.playing then stop_playback s else (s, [])
    let note := s.notes.getD note_index.toNat { filepath := "", display_name := "" }
    match read_wav_file env.file env.locals with
    | .error e => .error e
    | .ok none =>
      .ok ({ stopped.1 with playback_buffer := env.failed_read_buffer },
        stopped.2 ++ [.gtk_label_set_text "Failed to read WAV file"])
    | .ok (some samples) =>
      let s1 := { stopped.1 with playback_buffer := samples, playback_offset := 0 }
      match env.new_stream with
      | none =>
        .ok ({ s1 with playback_stream := none },
          stopped.2 ++ [.pa_stream_new "linscribe-playback",
            .gtk_label_set_text "Failed to create playback stream"])
      | some handle =>
        if env.connect_playback_ok = false then
          .ok ({ s1 with playback_stream := none },
            stopped.2 ++ [.pa_stream_new "linscribe-playback", .pa_stream_connect_playback handle,
              .gtk_label_set_text "Failed to connect playback", .pa_stream_unref handle])
        else
          .ok ({ s1 with playback_stream := some handle, playing := true,
                         playing_note_index := note_index },
            stopped.2 ++ [.pa_stream_new "linscribe-playback", .pa_stream_connect_playback handle,
              .gtk_label_set_c_string (playing_label note.display_name), .refresh_notes_list])

/-! ## Socket closure and connection result (main.cpp 513-548) -/

/-- Signal handler `on_ws_closed`. -/
def on_ws_closed (s : AppState) : AppState × List Effect :=
  let unref : List Effect :=
    match s.ws_conn with
    | some _ => [.g_object_unref_ws_conn]
    | none => []
  let s1 := { s with ws_conn := none, ws_ready := false }
  if s1.dictating then
    let r := stop_dictation s1
    (r.1, unref ++ r.2)
  else (s1, unref)

/-- Callback `on_ws_connect_complete`. `error` is the message of the `GError`
that `soup_session_websocket_connect_finish` sets, `none` when it sets none; a
connection that is handed over is open. -/
def on_ws_connect_complete (s : AppState) (error : Option String) : AppState × List Effect :=
  match error with
  | some message =>
    let stopped := if s.dictating then stop_dictation s else (s, [])
    (stopped.1, .g_warning ("WebSocket connect failed: " ++ message) :: stopped.2)
  | none => ({ s with ws_conn := some .OPEN }, [])

/-! ## Recording control and device failure (main.cpp 636-727, 1110-1132) -/

/-- Callback `on_stream_state` of the record stream. `failed` is
`pa_stream_get_state(s) == PA_STREAM_FAILED` and `error` the text of
`pa_strerror(pa_context_errno(state->pa_ctx))`. -/
def on_stream_state (s : AppState) (failed : Bool) (error : String) : AppState × List Effect :=
  if failed then
    ({ s with recording := false, current_level := 0 },
      [.g_warning ("PulseAudio stream failed: " ++ error), .gtk_button_set_label "Record",
        .gtk_label_set_text "Stream error", .gtk_level_bar_set_value 0])
  else (s, [])

/-- What `on_record_toggled` and `start_recording` meet outside the state. -/
structure RecordEnv where
  /-- Result of `gtk_widget_get_visible(state->save_discard_box)`. -/
  save_discard_visible : Bool
  /-- Result of `pa_stream_new` for the record stream. -/
  pa_stream_new : Option Nat
  /-- Whether `pa_stream_connect_record` returned a value that is not negative. -/
  connect_record_ok : Bool
  deriving DecidableEq

/-- Function `start_recording`. -/
def start_recording (s : AppState) (env : RecordEnv) : AppState × List Effect :=
  match env.pa_stream_new with
  | none =>
    ({ s with stream := none },
      [.pa_stream_new "linscribe-record", .gtk_label_set_text "Failed to create stream"])
  | some handle =>
    if env.connect_record_ok = false then
      ({ s with stream := none },
        [.pa_stream_new "linscribe-record", .pa_stream_connect_record handle,
          .gtk_label_set_text "Failed to connect stream", .pa_stream_unref handle])
    else
      let s1 := { s with stream := some handle, audio_buffer := [], current_level := 0,
                         recording := true }
      let s2 := { s1 with live_transcription := "", resample_phase := 0 }
      let show_label : List Effect :=
        match s2.live_transcription_label with
        | some _ =>
          [.set_live_transcription_label "",
            .gtk_widget_set_no_show_all "live_transcription_label" false,
            .gtk_widget_show "live_transcription_label"]
        | none => []
      let r := ws_connect s2
      (r.1, [.pa_stream_new "linscribe-record", .pa_stream_connect_record handle,
        .gtk_button_set_label "Stop", .gtk_label_set_text "Recording..."] ++ show_label ++ r.2)

/-- Function `stop_recording`. -/
def stop_recording (s : AppState) : AppState × List Effect :=
  let release : List Effect :=
    match s.stream with
    | some handle => [.pa_stream_disconnect handle, .pa_stream_unref handle]
    | none => []
  let s1 := { s with stream := none }
  let r := ws_disconnect s1
  let s2 := { r.1 with recording := false, current_level := 0 }
  (s2, release ++ r.2 ++
    [.gtk_level_bar_set_value 0, .gtk_button_set_label "Record",
      .gtk_label_set_recorded ((s2.audio_buffer.length : ℚ) / (SAMPLE_RATE : ℚ)),
      .gtk_widget_set_no_show_all "save_discard_box" false,
      .gtk_widget_show_all "save_discard_box"])

/-- Signal handler `on_record_toggled`. -/
def on_record_toggled (s : AppState) (env : RecordEnv) : AppState × List Effect :=
  if s.recording then stop_recording s
  else
    let stopped := if s.playing then stop_playback s else (s, [])
    let discarded : AppState × List Effect :=
      if env.save_discard_visible then
        ({ stopped.1 with audio_buffer := [], live_transcription := "" },
          (match stopped.1.live_transcription_label with
            | some _ =>
              [.gtk_widget_hide "live_transcription_label",
                .gtk_widget_set_no_show_all "live_transcription_label" true]
            | none => []) ++
          [.gtk_widget_hide "save_discard_box",
            .gtk_widget_set_no_show_all "save_discard_box" true])
      else (stopped.1, [])
    let r := start_recording discarded.1 env
    (r.1, stopped.2 ++ discarded.2 ++ r.2)

/-! ## Playback control (main.cpp 343-350, 786-801) -/

/-- Callback `on_playback_stream_state`; `failed` and `error` as in
`on_stream_state`. -/
def on_playback_stream_state (s : AppState) (failed : Bool) (error : String) :
    AppState × List Effect :=
  if failed then
    let r := stop_playback s
    (r.1, .g_warning ("Playback stream failed: " ++ error) :: r.2)
  else (s, [])

/-- Signal handler `on_play_clicked`; `note_index` is the number stored on the
button that was clicked. -/
def on_play_clicked (s : AppState) (note_index : Int) (env : PlaybackEnv) :
    Except Fault (AppState × List Effect) :=
  if s.recording then .ok (s, [])
  else if s.playing = true ∧ s.playing_note_index = note_index then .ok (stop_playback s)
  else start_playback s note_index env

/-! ## Dictation callbacks (main.cpp 1448-1473, 1587-1594) -/

/-- Callback `on_dictation_stream_read` over the fragments readable when it is
called; `none` is a hole. -/
def on_dictation_stream_read (s : AppState) :
    List (Option (List Int)) → Except Fault (AppState × List Effect)
  | [] => .ok (s, [])
  | none :: rest => on_dictation_stream_read s rest
  | some samples :: rest =>
    match ws_send_audio s samples with
    | .error e => .error e
    | .ok (s1, fx) =>
      match on_dictation_stream_read s1 rest with
      | .error e => .error e
      | .ok (s2, fx2) => .ok (s2, fx ++ fx2)

/-- Callback `on_dictation_stream_state`; `failed` and `error` as in
`on_stream_state`. -/
def on_dictation_stream_state (s : AppState) (failed : Bool) (error : String) :
    AppState × List Effect :=
  if failed then
    let r := stop_dictation s
    (r.1, .g_warning ("Dictation PulseAudio stream failed: " ++ error) :: r.2)
  else (s, [])

/-- Handler `on_hotkey_pressed`, which `on_menu_dictation` repeats. -/
def on_hotkey_pressed (s : AppState) (env : DictationEnv) : AppState × List Effect :=
  if s.dictating then stop_dictation s else start_dictation s env

/-! ## The application as a transition system -/

/-- An event that the main loop dispatches to a handler of the audio core,
with what the handler meets outside the state. -/
inductive AppEvent where
  | record_toggled (env : RecordEnv)
  | play_clicked (note_index : Int) (env : PlaybackEnv)
  | playback_write (nbytes : Nat)
  | playback_drain_complete
  | playback_stream_state (failed : Bool) (error : String)
  | stream_read (fragments : List (Option (List Int)))
  | stream_state (failed : Bool) (error : String)
  | hotkey_pressed (env : DictationEnv)
  | dictation_stream_read (fragments : List (Option (List Int)))
  | dictation_stream_state (failed : Bool) (error : String)
  | ws_connect_complete (error : Option String)
  | ws_message (message : Option JsonObject) (idle_id : ℕ+)
  | ws_closed
  | idle_flush
  deriving DecidableEq

/-- The handler of an event, run on a state. -/
def app_step (s : AppState) : AppEvent → Except Fault (AppState × List Effect)
  | .record_toggled env => .ok (on_record_toggled s env)
  | .play_clicked note_index env => on_play_clicked s note_index env
  | .playback_write nbytes => .ok (on_playback_write s nbytes)
  | .playback_drain_complete => .ok (on_playback_drain_complete s)
  | .playback_stream_state failed error => .ok (on_playback_stream_state s failed error)
  | .stream_read fragments => on_stream_read s fragments
  | .stream_state failed error => .ok (on_stream_state s failed error)
  | .hotkey_pressed env => .ok (on_hotkey_pressed s env)
  | .dictation_stream_read fragments => on_dictation_stream_read s fragments
  | .dictation_stream_state failed error => .ok (on_dictation_stream_state s failed error)
  | .ws_connect_complete error => .ok (on_ws_connect_complete s error)
  | .ws_message message idle_id => .ok (on_ws_message s message idle_id)
  | .ws_closed => .ok (on_ws_closed s)
  | .idle_flush => .ok (flush_dictation_buffer s)

/-- A sequence of events handled in order, with all calls in order. -/
def app_run (s : AppState) : List AppEvent → Except Fault (AppState × List Effect)
  | [] => .ok (s, [])
  | e :: rest =>
    match app_step s e with
    | .error f => .error f
    | .ok (s1, fx) =>
      match app_run s1 rest with
      | .error f => .error f
      | .ok (s2, fx2) => .ok (s2, fx ++ fx2)

/-- The samples of the fragments of one callback that are not holes, in order. -/
def delivered_samples (fragments : List (Option (List Int))) : List Int :=
  (fragments.filterMap id).flatten

/-- The capture callback run once for each entry of `calls`, in order. -/
def capture_run (s : AppState) :
    List (List (Option (List Int))) → Except Fault (AppState × List Effect)
  | [] => .ok (s, [])
  | fragments :: rest =>
    match on_stream_read s fragments with
    | .error e => .error e
    | .ok (s1, fx) =>
      match capture_run s1 rest with
      | .error e => .error e
      | .ok (s2, fx2) => .ok (s2, fx ++ fx2)

/-- In the words of the specification: the first usable backend of a list in
priority order, `NONE` when none is usable. -/
def first_usable : List (TypingTool × Bool) → TypingTool
  | [] => .NONE
  | (tool, usable) :: rest => if usable then tool else first_usable rest

/-! # Theorems -/

/-! ## Conversions -/

theorem trunc_of_nonneg {x : ℚ} (h : 0 ≤ x) : trunc x = ⌊x⌋ := by
  simp [trunc, h]

theorem trunc_bounds {x : ℚ} (lo hi : Int) (h1 : (lo : ℚ) ≤ x) (h2 : x ≤ (hi : ℚ)) :
    lo ≤ trunc x ∧ trunc x ≤ hi := by
  unfold trunc
  split
  · exact ⟨Int.le_floor.mpr h1, Int.cast_le.mp ((Int.floor_le x).trans h2)⟩
  · exact ⟨Int.cast_le.mp (h1.trans (Int.le_ceil x)), Int.ceil_le.mpr h2⟩

theorem to_size_t_of_nonneg {x : ℚ} (h : 0 ≤ x) : to_size_t x = some ⌊x⌋.toNat := by
  have h0 : 0 ≤ ⌊x⌋ := Int.floor_nonneg.mpr h
  simp [to_size_t, trunc_of_nonneg h, h0]

theorem to_int16_of_bounds {x : ℚ} (h1 : (-32768 : ℚ) ≤ x) (h2 : x ≤ 32767) :
    to_int16 x = some (trunc x) := by
  have hb := trunc_bounds (-32768) 32767 (by exact_mod_cast h1 : ((-32768 : ℤ) : ℚ) ≤ x)
    (by exact_mod_cast h2 : x ≤ ((32767 : ℤ) : ℚ))
  simp [to_int16, hb.1, hb.2]

theorem STEP_eq : STEP = 441 / 160 := by
  norm_num [STEP, SAMPLE_RATE, WS_SAMPLE_RATE]

theorem STEP_pos : 0 < STEP := by
  rw [STEP_eq]; norm_num

/-! ## Resampler loop -/

/-- From a position that is not negative and with fuel for the rest of the
block, the loop ends normally after some number `n` of iterations, having
appended the truncated interpolation at `pos`, `pos + STEP`, ... -/
theorem resample_loop_spec (input : List Int) (hin : Int16Block input) :
    ∀ (fuel : Nat) (pos : ℚ) (output : List Int), 0 ≤ pos →
      (input.length : ℚ) - 1 ≤ pos + fuel * STEP →
      ∃ n : Nat,
        resample_loop input fuel pos output =
          .ok (output ++ (List.range n).map (fun j : Nat => trunc (lerp_at input (pos + (j : ℚ) * STEP))),
            pos + n * STEP - input.length) ∧
        (input.length : ℚ) - 1 ≤ pos + n * STEP ∧
        ∀ j : Nat, j < n → pos + j * STEP < (input.length : ℚ) - 1 := by
  intro fuel
  induction fuel with
  | zero =>
    intro pos output _ hfuel
    have hge : ¬ pos < (input.length : ℚ) - 1 := by
      simp only [Nat.cast_zero, zero_mul, add_zero] at hfuel
      exact not_lt.mpr hfuel
    refine ⟨0, ?_, by simpa using not_lt.mp hge, by intro j hj; omega⟩
    rw [resample_loop]
    simp [hge]
  | succ fuel ih =>
    intro pos output hpos hfuel
    by_cases hlt : pos < (input.length : ℚ) - 1
    · -- one iteration, then the induction hypothesis
      have hf0 : 0 ≤ ⌊pos⌋ := Int.floor_nonneg.mpr hpos
      have hcast : ((⌊pos⌋.toNat : ℕ) : ℚ) = (⌊pos⌋ : ℚ) := by
        have : ((⌊pos⌋.toNat : ℕ) : ℤ) = ⌊pos⌋ := Int.toNat_of_nonneg hf0
        exact_mod_cast congrArg (fun z : ℤ => (z : ℚ)) this
      have hfl : (⌊pos⌋ : ℚ) ≤ pos := Int.floor_le pos
      have hfr : pos < (⌊pos⌋ : ℚ) + 1 := Int.lt_floor_add_one pos
      have hidx : ⌊pos⌋.toNat + 1 < input.length := by
        have : ((⌊pos⌋.toNat : ℕ) : ℚ) + 1 < (input.length : ℚ) := by
          rw [hcast]; linarith
        exact_mod_cast this
      have hidx0 : ⌊pos⌋.toNat < input.length := by omega
      have ha := hin _ (List.getElem_mem hidx0)
      have hb := hin _ (List.getElem_mem hidx)
      obtain ⟨ha1, ha2⟩ := ha
      obtain ⟨hb1, hb2⟩ := hb
      have ha1q : (-32768 : ℚ) ≤ (input[⌊pos⌋.toNat] : ℚ) := by exact_mod_cast ha1
      have ha2q : (input[⌊pos⌋.toNat] : ℚ) ≤ 32767 := by exact_mod_cast ha2
      have hb1q : (-32768 : ℚ) ≤ (input[⌊pos⌋.toNat + 1] : ℚ) := by exact_mod_cast hb1
      have hb2q : (input[⌊pos⌋.toNat + 1] : ℚ) ≤ 32767 := by exact_mod_cast hb2
      have hw0 : 0 ≤ pos - (⌊pos⌋ : ℚ) := by linarith
      have hw1 : 0 ≤ 1 - (pos - (⌊pos⌋ : ℚ)) := by linarith
      have hs1 : (-32768 : ℚ) ≤ (input[⌊pos⌋.toNat] : ℚ) * (1 - (pos - (⌊pos⌋ : ℚ))) +
          (input[⌊pos⌋.toNat + 1] : ℚ) * (pos - (⌊pos⌋ : ℚ)) := by
        nlinarith [mul_nonneg (sub_nonneg.mpr ha1q) hw1, mul_nonneg (sub_nonneg.mpr hb1q) hw0]
      have hs2 : (input[⌊pos⌋.toNat] : ℚ) * (1 - (pos - (⌊pos⌋ : ℚ))) +
          (input[⌊pos⌋.toNat + 1] : ℚ) * (pos - (⌊pos⌋ : ℚ)) ≤ 32767 := by
        nlinarith [mul_nonneg (sub_nonneg.mpr ha2q) hw1, mul_nonneg (sub_nonneg.mpr hb2q) hw0]
      have hlerp : lerp_at input pos = (input[⌊pos⌋.toNat] : ℚ) * (1 - (pos - (⌊pos⌋ : ℚ))) +
          (input[⌊pos⌋.toNat + 1] : ℚ) * (pos - (⌊pos⌋ : ℚ)) := by
        simp [lerp_at, List.getD_eq_getElem?_getD, List.getElem?_eq_getElem hidx0,
          List.getElem?_eq_getElem hidx]
      obtain ⟨n, hrun, hend, hbelow⟩ := ih (pos + STEP)
        (output ++ [trunc (lerp_at input pos)]) (by linarith [STEP_pos])
        (by push_cast at hfuel ⊢; linarith)
      refine ⟨n + 1, ?_, ?_, ?_⟩
      · rw [resample_loop]
        simp only [hlt, if_true, to_size_t_of_nonneg hpos, List.getElem?_eq_getElem hidx0,
          List.getElem?_eq_getElem hidx, hcast, to_int16_of_bounds hs1 hs2]
        rw [← hlerp, hrun, List.range_succ_eq_map, List.map_cons, List.map_map]
        simp only [List.append_assoc, List.singleton_append, Nat.cast_zero, zero_mul, add_zero]
        have hmap : List.map (fun j : Nat => trunc (lerp_at input (pos + STEP + (j : ℚ) * STEP)))
              (List.range n) =
            List.map ((fun j : Nat => trunc (lerp_at input (pos + (j : ℚ) * STEP))) ∘ Nat.succ)
              (List.range n) := by
          apply List.map_congr_left
          intro j _
          simp only [Function.comp, Nat.cast_succ]
          congr 2; ring
        have hph : pos + STEP + (n : ℚ) * STEP - (input.length : ℚ) =
            pos + ((n + 1 : ℕ) : ℚ) * STEP - (input.length : ℚ) := by
          push_cast; ring
        rw [hmap, hph]
      · push_cast at hend ⊢; linarith
      · intro j hj
        cases j with
        | zero => simpa using hlt
        | succ j =>
          have := hbelow j (by omega)
          push_cast; linarith
    · refine ⟨0, ?_, by simpa using not_lt.mp hlt, by intro j hj; omega⟩
      rw [resample_loop]
      simp [hlt]

theorem to_size_t_some_gt {x : ℚ} {idx : Nat} (h : to_size_t x = some idx) : -1 < x := by
  unfold to_size_t at h
  split at h
  · rename_i h0
    unfold trunc at h0
    split at h0
    · linarith
    · have : (-1 : ℤ) < ⌈x⌉ := by omega
      have := Int.lt_ceil.mp this
      simpa using this
  · cases h

theorem one_le_STEP : 1 ≤ STEP := by
  rw [STEP_eq]; norm_num

/-- The loop never stops for lack of fuel when the fuel covers the rest of the
block, or when the first iteration already converts a position at or below -1. -/
theorem resample_loop_fuel (input : List Int) :
    ∀ (fuel : Nat) (pos : ℚ) (output : List Int),
      ((input.length : ℚ) - 1 ≤ pos + fuel * STEP ∨ (pos ≤ -1 ∧ 0 < fuel)) →
      resample_loop input fuel pos output ≠ .error .out_of_fuel := by
  intro fuel
  induction fuel with
  | zero =>
    intro pos output h
    have hge : ¬ pos < (input.length : ℚ) - 1 := by
      rcases h with h | h
      · simp only [Nat.cast_zero, zero_mul, add_zero] at h
        exact not_lt.mpr h
      · exact absurd h.2 (lt_irrefl 0)
    rw [resample_loop]
    simp [hge]
  | succ fuel ih =>
    intro pos output h
    rw [resample_loop]
    by_cases hlt : pos < (input.length : ℚ) - 1
    · simp only [hlt, if_true]
      cases hidx : to_size_t pos with
      | none => simp
      | some idx =>
        have hgt := to_size_t_some_gt hidx
        have hfuel : (input.length : ℚ) - 1 ≤ pos + STEP + fuel * STEP := by
          rcases h with h | h
          · push_cast at h; linarith
          · linarith [h.1]
        cases ha : input[idx]? with
        | none => simp [ha]
        | some a =>
          cases hb : input[idx + 1]? with
          | none => simp [ha, hb]
          | some b =>
            cases hv : to_int16 ((a : ℚ) * (1 - (pos - (idx : ℚ))) + (b : ℚ) * (pos - (idx : ℚ))) with
            | none => simp [ha, hb, hv]
            | some v =>
              simp only [ha, hb, hv]
              exact ih _ _ (Or.inl hfuel)
    · simp [hlt]

/-- The resampler is total up to undefined behaviour: its fuel never runs out. -/
theorem resample_never_out_of_fuel (input : List Int) (phase : ℚ) :
    resample_44100_to_16000 input phase ≠ .error .out_of_fuel := by
  unfold resample_44100_to_16000
  apply resample_loop_fuel
  by_cases h : phase ≤ -1
  · exact Or.inr ⟨h, Nat.succ_pos _⟩
  · left
    have h1 := one_le_STEP
    have hn : (0 : ℚ) ≤ (input.length : ℚ) := Nat.cast_nonneg _
    push_cast
    nlinarith [mul_nonneg hn (sub_nonneg.mpr h1)]

/-- Result of the resampler on a block of 16-bit samples from a phase that is
not negative. -/
theorem resample_of_nonneg (input : List Int) (phase : ℚ) (hin : Int16Block input)
    (hphase : 0 ≤ phase) :
    ∃ n : Nat,
      resample_44100_to_16000 input phase =
        .ok ((List.range n).map (fun j : Nat => trunc (lerp_at input (phase + (j : ℚ) * STEP))),
          phase + n * STEP - input.length) ∧
      (input.length : ℚ) - 1 ≤ phase + n * STEP ∧
      ∀ j : Nat, j < n → phase + j * STEP < (input.length : ℚ) - 1 := by
  have h1 := one_le_STEP
  have hn : (0 : ℚ) ≤ (input.length : ℚ) := Nat.cast_nonneg _
  obtain ⟨n, hrun, hend, hbelow⟩ := resample_loop_spec input hin (input.length + 1) phase []
    hphase (by push_cast; nlinarith [mul_nonneg hn (sub_nonneg.mpr h1)])
  exact ⟨n, by simpa [resample_44100_to_16000] using hrun, hend, hbelow⟩

/-- A block of at most one sample read from a phase that is not negative gives
no output and the phase minus the block length. -/
theorem resample_short_block_of_nonneg (input : List Int) (phase : ℚ)
    (hlen : input.length ≤ 1) (hphase : 0 ≤ phase) :
    resample_44100_to_16000 input phase = .ok ([], phase - input.length) := by
  have hge : ¬ phase < (input.length : ℚ) - 1 := by
    have : (input.length : ℚ) ≤ 1 := by exact_mod_cast hlen
    linarith
  unfold resample_44100_to_16000
  rw [resample_loop]
  simp [hge]

/-! ## Claims about the resampler -/

/-- C1 (resampler continuity), evaluated on the code. From phase 0 the block
`[0, 0, 0]` gives `[0]` and leaves the phase `-39/160`; the next block
`[100, 0]` is then read at position `-39/160` with index 0 and the negative
weight `-39/160`, which gives `124`. One call on `[0, 0, 0, 100, 0]` gives
`[0, 75]`: the two calls do not concatenate to the single call. -/
theorem resample_split_differs :
    resample_44100_to_16000 [0, 0, 0] 0 = .ok ([0], -39 / 160) ∧
    resample_44100_to_16000 [100, 0] (-39 / 160) = .ok ([124], 41 / 80) ∧
    resample_44100_to_16000 ([0, 0, 0] ++ [100, 0]) 0 = .ok ([0, 75], 41 / 80) ∧
    ([0] ++ [124] : List Int) ≠ [0, 75] := by
  decide!

/-- C4 (short block), evaluated on the code. The phase `-39/160` is what a
call on `[0, 0, 0]` from phase 0 leaves. The next call on the one-sample block
`[5]` enters the loop, since `-39/160 < 1 - 1`, and reads `input[1]` past the
end of the block: the call has no defined result, where the claim has an empty
output and the phase `-39/160 - 1`. Likewise the one-sample block `[5]` from
phase 0 leaves the phase `-1`, and a second one-sample block `[7]` then
converts the position `-1` to `size_t`, which is undefined. -/
theorem resample_short_block_reads_past_end :
    resample_44100_to_16000 [0, 0, 0] 0 = .ok ([0], -39 / 160) ∧
    resample_44100_to_16000 [5] (-39 / 160) = .error .undefined_behaviour ∧
    resample_44100_to_16000 [5] (-39 / 160) ≠ .ok ([], -39 / 160 - 1) ∧
    resample_44100_to_16000 [5] 0 = .ok ([], -1) ∧
    resample_44100_to_16000 [7] (-1) = .error .undefined_behaviour := by
  decide!

/-! ## Level meter -/

theorem wrap_int16_of_int16 {x : Int} (h : is_int16 x) : wrap_int16 x = x := by
  obtain ⟨h1, h2⟩ := h
  unfold wrap_int16
  omega

/-- On a block without the sample -32768 the loop of `calculate_peak_level`
computes the largest absolute value seen so far. -/
theorem foldl_peak_step (data : List Int) :
    ∀ peak : Int, 0 ≤ peak → peak ≤ 32767 → (∀ x ∈ data, -32767 ≤ x ∧ x ≤ 32767) →
      data.foldl peak_step peak = data.foldl (fun p x => max p |x|) peak ∧
      0 ≤ data.foldl peak_step peak ∧ data.foldl peak_step peak ≤ 32767 := by
  induction data with
  | nil => intro peak h0 h1 _; exact ⟨rfl, h0, h1⟩
  | cons x rest ih =>
    intro peak h0 h1 hall
    have hx := hall x (List.mem_cons_self _ _)
    have habs : 0 ≤ |x| ∧ |x| ≤ 32767 := ⟨abs_nonneg x, abs_le.mpr hx⟩
    have hwrap : wrap_int16 |x| = |x| := wrap_int16_of_int16 ⟨by omega, habs.2⟩
    have hstep : peak_step peak x = max peak |x| := by
      unfold peak_step
      simp only [hwrap]
      split
      · rw [max_eq_right]; omega
      · rw [max_eq_left]; omega
    simp only [List.foldl_cons, hstep]
    exact ih (max peak |x|) (le_max_of_le_left h0) (max_le h1 habs.2)
      (fun y hy => hall y (List.mem_cons_of_mem _ hy))

/-- Away from the sample -32768, `calculate_peak_level` is the largest absolute
sample value divided by 32768, a value in `[0, 1)`. -/
theorem calculate_peak_level_without_min (data : List Int)
    (hall : ∀ x ∈ data, -32767 ≤ x ∧ x ≤ 32767) :
    calculate_peak_level data = ((data.foldl (fun p x => max p |x|) 0 : Int) : ℚ) / 32768 ∧
    0 ≤ calculate_peak_level data ∧ calculate_peak_level data < 1 := by
  obtain ⟨heq, h0, h1⟩ := foldl_peak_step data 0 le_rfl (by norm_num) hall
  unfold calculate_peak_level
  have h0q : (0 : ℚ) ≤ ((data.foldl peak_step 0 : Int) : ℚ) := by exact_mod_cast h0
  have h1q : ((data.foldl peak_step 0 : Int) : ℚ) ≤ 32767 := by exact_mod_cast h1
  refine ⟨by rw [heq], by positivity, ?_⟩
  rw [div_lt_one (by norm_num)]
  linarith

/-- C5 (level meter peak), evaluated on the code. The block `[-32768]` holds a
16-bit sample of absolute value 32768, so the claim gives the peak
32768 / 32768 = 1; the code narrows `std::abs(-32768) = 32768` to `int16_t`,
which is -32768 again and never exceeds the running peak 0, and returns 0. -/
theorem peak_level_full_scale_negative :
    Int16Block [-32768] ∧
    calculate_peak_level [-32768] = 0 ∧
    ((|(-32768 : Int)| : Int) : ℚ) / 32768 = 1 ∧
    wrap_int16 |(-32768 : Int)| = -32768 := by
  decide!

/-! ## Transcription session and capture callback -/

/-- A call of `ws_send_audio` that returns changes at most the resampler phase. -/
theorem ws_send_audio_frame_condition (s s' : AppState) (samples : List Int) (fx : List Effect)
    (h : ws_send_audio s samples = .ok (s', fx)) :
    s' = { s with resample_phase := s'.resample_phase } := by
  unfold ws_send_audio at h
  split at h
  · cases h; rfl
  · split at h
    · cases h
    · split at h <;> (cases h; rfl)

theorem ws_send_audio_never_out_of_fuel (s : AppState) (samples : List Int) :
    ws_send_audio s samples ≠ .error .out_of_fuel := by
  unfold ws_send_audio
  split
  · simp
  · split
    · rename_i e he
      intro h
      cases h
      exact resample_never_out_of_fuel _ _ he
    · split <;> simp

/-- C6 (level meter attack and decay). Whenever the capture callback returns
for a fragment, the level it stores is the new peak when the peak is at least
the current level, and `current * 0.85 + peak * 0.15` when the peak is below
it. The callback returns whenever the transcription session is not ready, or
the carried resampler phase is not negative and the fragment holds 16-bit
samples; it never stops for lack of fuel. -/
theorem on_stream_read_level (s : AppState) (samples : List Int) :
    (∀ (s' : AppState) (fx : List Effect),
      on_stream_read_fragment s (some samples) = .ok (s', fx) →
        (s.current_level ≤ calculate_peak_level samples →
          s'.current_level = calculate_peak_level samples) ∧
        (calculate_peak_level samples < s.current_level →
          s'.current_level = s.current_level * 0.85 + calculate_peak_level samples * 0.15)) ∧
    (s.ws_ready = false ∨ s.ws_conn = none ∨ (0 ≤ s.resample_phase ∧ Int16Block samples) →
      ∃ (s' : AppState) (fx : List Effect),
        on_stream_read_fragment s (some samples) = .ok (s', fx)) ∧
    on_stream_read_fragment s (some samples) ≠ .error .out_of_fuel := by
  refine ⟨?_, ?_, ?_⟩
  · intro s' fx h
    unfold on_stream_read_fragment at h
    simp only at h
    split at h
    · cases h
    · rename_i s2 sent hsend
      have hframe := ws_send_audio_frame_condition _ _ _ _ hsend
      have hlevel : s2.current_level = s.current_level := by rw [hframe]
      simp only [Except.ok.injEq, Prod.mk.injEq] at h
      obtain ⟨hs, _⟩ := h
      subst hs
      rw [hlevel]
      constructor
      · intro hle
        simp [ge_iff_le, hle]
      · intro hlt
        have : ¬ s.current_level ≤ calculate_peak_level samples := not_le.mpr hlt
        simp only [ge_iff_le, this, if_false]
        norm_num [DECAY_FACTOR]
  · intro h
    unfold on_stream_read_fragment
    simp only
    have hok : ∃ s2 sent, ws_send_audio { s with audio_buffer := s.audio_buffer ++ samples }
        samples = .ok (s2, sent) := by
      unfold ws_send_audio
      rcases h with h | h | ⟨hp, hb⟩
      · simp [h]
      · simp [h]
      · obtain ⟨n, hrun, _, _⟩ := resample_of_nonneg samples s.resample_phase hb hp
        simp only [hrun]
        split
        · exact ⟨_, _, rfl⟩
        · split <;> exact ⟨_, _, rfl⟩
    obtain ⟨s2, sent, hsend⟩ := hok
    rw [hsend]
    exact ⟨_, _, rfl⟩
  · unfold on_stream_read_fragment
    simp only
    split
    · rename_i e he
      intro h
      cases h
      exact ws_send_audio_never_out_of_fuel _ _ he
    · simp

/-- Witness of `on_stream_read_level`: from level 1 a silent one-sample
fragment decays the level to 0.85; from level 0 the fragment `[16384]` raises
it to 0.5 at once. -/
theorem on_stream_read_level_witness :
    (∃ (s' : AppState) (fx : List Effect),
      on_stream_read_fragment { current_level := 1 } (some [0]) = .ok (s', fx) ∧
      s'.current_level = 0.85) ∧
    (∃ (s' : AppState) (fx : List Effect),
      on_stream_read_fragment { current_level := 0 } (some [16384]) = .ok (s', fx) ∧
      s'.current_level = 0.5) := by
  constructor
  · obtain ⟨s', fx, h⟩ := (on_stream_read_level { current_level := 1 } [0]).2.1 (Or.inl rfl)
    refine ⟨s', fx, h, ?_⟩
    have hpeak : calculate_peak_level [0] = 0 := by decide!
    have := ((on_stream_read_level { current_level := 1 } [0]).1 s' fx h).2
      (by rw [hpeak]; norm_num)
    rw [this, hpeak]; norm_num
  · obtain ⟨s', fx, h⟩ := (on_stream_read_level { current_level := 0 } [16384]).2.1 (Or.inl rfl)
    refine ⟨s', fx, h, ?_⟩
    have hpeak : calculate_peak_level [16384] = 1 / 2 := by decide!
    have := ((on_stream_read_level { current_level := 0 } [16384]).1 s' fx h).1
      (by rw [hpeak]; norm_num)
    rw [this, hpeak]; norm_num

/-- C7 as stated fails: with the readiness flag set but no connection
(`ws_conn == nullptr`) the block `[0, 0, 0]` resamples to the non-empty block
`[0]`, and `ws_send_audio` sends no frame. -/
theorem ws_send_audio_ready_without_connection :
    ({ ws_ready := true, ws_conn := none } : AppState).ws_ready = true ∧
    resample_44100_to_16000 [0, 0, 0]
      ({ ws_ready := true, ws_conn := none } : AppState).resample_phase = .ok ([0], -39 / 160) ∧
    ws_send_audio { ws_ready := true, ws_conn := none } [0, 0, 0] =
      .ok ({ ws_ready := true, ws_conn := none }, []) := by
  decide!

/-- C7 amended (session gating). `ws_send_audio` sends a frame only while the
readiness flag is set and a connection exists. When `ws_ready` is false, or
`ws_conn` is null, it sends nothing and leaves the whole state unchanged, the
resampler phase included. When ready with a connection, and the resampler
returns, the only change of state is the new phase, and it sends exactly one
`input_audio.append` frame carrying the base64 text of the resampled block if
that block is not empty, and no frame if it is empty. -/
theorem ws_send_audio_gating (s : AppState) (samples : List Int) :
    (s.ws_ready = false → ws_send_audio s samples = .ok (s, [])) ∧
    (s.ws_conn = none → ws_send_audio s samples = .ok (s, [])) ∧
    (∀ (conn : SoupWebsocketState) (resampled : List Int) (phase : ℚ),
      s.ws_ready = true → s.ws_conn = some conn →
      resample_44100_to_16000 samples s.resample_phase = .ok (resampled, phase) →
      ws_send_audio s samples = .ok ({ s with resample_phase := phase },
        if resampled = [] then []
        else [.ws_send_text ("\x7b\"type\":\"input_audio.append\",\"audio\":\"" ++
          String.mk (g_base64_encode (pcm_bytes resampled)) ++ "\"\x7d")])) ∧
    (∀ (s' : AppState) (fx : List Effect), ws_send_audio s samples = .ok (s', fx) →
      fx ≠ [] → s.ws_ready = true ∧ s.ws_conn ≠ none) := by
  refine ⟨?_, ?_, ?_, ?_⟩
  · intro h
    simp [ws_send_audio, h]
  · intro h
    simp [ws_send_audio, h]
  · intro conn resampled phase hr hc hres
    unfold ws_send_audio
    simp only [hr, hc, hres]
    by_cases hempty : resampled = []
    · simp [hempty]
    · simp [hempty, input_audio_append]
  · intro s' fx h hfx
    by_cases hg : s.ws_ready = false ∨ s.ws_conn = none
    · unfold ws_send_audio at h
      simp only [hg, if_true, Except.ok.injEq, Prod.mk.injEq] at h
      exact absurd h.2.symm hfx
    · push_neg at hg
      exact ⟨by simpa using hg.1, hg.2⟩

/-- Witness of `ws_send_audio_gating`: a ready session with an open connection
resamples `[0, 0, 0, 100, 0]` to `[0, 75]`, whose four bytes `00 00 4B 00` are
`AABLAA==` in base64, and sends that one frame; the same call before the
session is ready sends nothing and changes nothing. -/
theorem ws_send_audio_gating_witness :
    ws_send_audio { ws_ready := true, ws_conn := some .OPEN } [0, 0, 0, 100, 0] =
      .ok ({ ws_ready := true, ws_conn := some .OPEN, resample_phase := 41 / 80 },
        [.ws_send_text "\x7b\"type\":\"input_audio.append\",\"audio\":\"AABLAA==\"\x7d"]) ∧
    ws_send_audio { ws_ready := false, ws_conn := some .OPEN } [0, 0, 0, 100, 0] =
      .ok ({ ws_ready := false, ws_conn := some .OPEN }, []) :=
  ⟨(ws_send_audio_gating { ws_ready := true, ws_conn := some .OPEN } [0, 0, 0, 100, 0]).2.2.1
      .OPEN [0, 75] (41 / 80) rfl rfl (by decide!),
    (ws_send_audio_gating { ws_ready := false, ws_conn := some .OPEN } [0, 0, 0, 100, 0]).1 rfl⟩

/-- C8 (handshake). On `session.created` the handler sends exactly one frame,
the `session.update` text declaring encoding `pcm_s16le` and sample rate 16000,
and changes nothing in the state, the readiness flag included. On
`session.updated` the flag is set. Over all inbound payloads the flag is set
after the handler only if it was set before or the message is
`session.updated`. -/
theorem on_ws_message_handshake (s : AppState) (message : Option JsonObject) (idle_id : ℕ+) :
    (∀ obj : JsonObject, message = some obj → obj.msg_type = some "session.created" →
      on_ws_message s message idle_id =
        (s, [.ws_send_text ("\x7b\"type\":\"session.update\",\"session\":" ++
          "\x7b\"audio_format\":\x7b\"encoding\":\"pcm_s16le\",\"sample_rate\":16000\x7d\x7d\x7d")])) ∧
    (∀ obj : JsonObject, message = some obj → obj.msg_type = some "session.updated" →
      on_ws_message s message idle_id = ({ s with ws_ready := true }, [])) ∧
    ((on_ws_message s message idle_id).1.ws_ready = true →
      s.ws_ready = true ∨
        ∃ obj : JsonObject, message = some obj ∧ obj.msg_type = some "session.updated") := by
  refine ⟨?_, ?_, ?_⟩
  · intro obj hm ht
    subst hm
    simp [on_ws_message, ht, session_update]
  · intro obj hm ht
    subst hm
    simp [on_ws_message, ht]
  · intro h
    cases message with
    | none => left; simpa [on_ws_message] using h
    | some obj =>
      by_cases h2 : obj.msg_type = some "session.updated"
      · exact Or.inr ⟨obj, rfl, h2⟩
      · left
        unfold on_ws_message at h
        simp only [h2, if_false] at h
        split at h
        · exact h
        · split at h
          · split at h
            · split at h
              · unfold type_text at h
                simp only at h
                split at h
                · exact h
                · split at h <;> exact h
              · split at h <;> exact h
            · exact h
          · split at h
            · simp only [ws_disconnect] at h
              split at h <;> simp at h
            · exact h

/-- Witness of `on_ws_message_handshake`: a session that is not ready stays
so on `session.created`, where one `session.update` frame leaves, and becomes
ready on `session.updated`. -/
theorem on_ws_message_handshake_witness :
    on_ws_message { ws_conn := some .OPEN } (some { msg_type := some "session.created" }) 1 =
      ({ ws_conn := some .OPEN },
        [.ws_send_text ("\x7b\"type\":\"session.update\",\"session\":" ++
          "\x7b\"audio_format\":\x7b\"encoding\":\"pcm_s16le\",\"sample_rate\":16000\x7d\x7d\x7d")]) ∧
    on_ws_message { ws_conn := some .OPEN } (some { msg_type := some "session.updated" }) 1 =
      ({ ws_conn := some .OPEN, ws_ready := true }, []) :=
  ⟨(on_ws_message_handshake { ws_conn := some .OPEN }
      (some { msg_type := some "session.created" }) 1).1 _ rfl rfl,
    (on_ws_message_handshake { ws_conn := some .OPEN }
      (some { msg_type := some "session.updated" }) 1).2.1 _ rfl rfl⟩

/-- C9 as stated fails: while dictating, a `transcription.text.delta` message
with text `"hi"` leaves `live_transcription` as it was (here empty); the text
goes to the dictation buffer only. -/
theorem text_delta_while_dictating_not_appended :
    (on_ws_message { dictating := true, live_transcription := "" }
      (some { msg_type := some "transcription.text.delta", text := some (some "hi") }) 1).1.live_transcription
      = "" ∧
    ("" ++ "hi" : String) ≠ "" ∧
    (on_ws_message { dictating := true, live_transcription := "" }
      (some { msg_type := some "transcription.text.delta", text := some (some "hi") }) 1).1.dictation_buffer
      = "hi" := by
  decide

/-- C9 amended (incremental text). For a `transcription.text.delta` message
carrying the string `text`: when no dictation is active the handler appends the
text to the live transcript (after = before ++ text), changes nothing else and
shows the new transcript in the live-caption label if there is one; when
dictating it does exactly what `type_text` does with the text, which leaves
the live transcript unchanged and appends a non-empty text to the dictation
buffer. -/
theorem on_ws_message_text_delta (s : AppState) (obj : JsonObject) (text : String) (idle_id : ℕ+)
    (htype : obj.msg_type = some "transcription.text.delta")
    (htext : obj.text = some (some text)) :
    (s.dictating = false →
      on_ws_message s (some obj) idle_id =
        ({ s with live_transcription := s.live_transcription ++ text },
          match s.live_transcription_label with
          | some _ => [.set_live_transcription_label (s.live_transcription ++ text)]
          | none => [])) ∧
    (s.dictating = true →
      on_ws_message s (some obj) idle_id = type_text s (some text) idle_id ∧
      (on_ws_message s (some obj) idle_id).1.live_transcription = s.live_transcription ∧
      (on_ws_message s (some obj) idle_id).1.dictation_buffer = s.dictation_buffer ++ text) := by
  have hon : on_ws_message s (some obj) idle_id =
      if s.dictating then type_text s (some text) idle_id
      else
        match s.live_transcription_label with
        | some _ => ({ s with live_transcription := s.live_transcription ++ text },
            [.set_live_transcription_label (s.live_transcription ++ text)])
        | none => ({ s with live_transcription := s.live_transcription ++ text }, []) := by
    unfold on_ws_message
    simp only [htype, htext]
    simp
  constructor
  · intro hd
    rw [hon]
    simp only [hd]
    cases s.live_transcription_label <;> simp
  · intro hd
    rw [hon]
    simp only [hd, if_true, true_and]
    unfold type_text
    simp only
    by_cases he : text = ""
    · simp [he]
    · simp only [he, if_false]
      split <;> simp

/-- Witness of `on_ws_message_text_delta`: the message `"lo"` arriving after
`"hel"` in a note recording with a caption label, and in a dictation. -/
theorem on_ws_message_text_delta_witness :
    on_ws_message { live_transcription := "hel", live_transcription_label := some 0 }
        (some { msg_type := some "transcription.text.delta", text := some (some "lo") }) 1 =
      ({ live_transcription := "hello", live_transcription_label := some 0 },
        [.set_live_transcription_label "hello"]) ∧
    (on_ws_message { dictating := true, dictation_buffer := "hel" }
        (some { msg_type := some "transcription.text.delta", text := some (some "lo") })
        1).1.dictation_buffer = "hello" :=
  ⟨(on_ws_message_text_delta { live_transcription := "hel", live_transcription_label := some 0 }
      { msg_type := some "transcription.text.delta", text := some (some "lo") } "lo" 1
      rfl rfl).1 rfl,
    ((on_ws_message_text_delta { dictating := true, dictation_buffer := "hel" }
      { msg_type := some "transcription.text.delta", text := some (some "lo") } "lo" 1
      rfl rfl).2 rfl).2.2⟩

/-! ## Dictation queue -/

theorem ws_disconnect_dictation_fields (s : AppState) :
    (ws_disconnect s).1.dictating = s.dictating ∧
    (ws_disconnect s).1.typing_tool = s.typing_tool ∧
    (ws_disconnect s).1.xdo = s.xdo ∧
    (ws_disconnect s).1.dictation_buffer = s.dictation_buffer := by
  unfold ws_disconnect
  simp only
  split <;> simp

theorem ws_connect_dictation_fields (s : AppState) :
    (ws_connect s).1.dictating = s.dictating ∧
    (ws_connect s).1.typing_tool = s.typing_tool ∧
    (ws_connect s).1.xdo = s.xdo := by
  unfold ws_connect
  split
  · simp
  · split <;> simp

theorem stop_dictation_not_dictating (s : AppState) : (stop_dictation s).1.dictating = false := by
  unfold stop_dictation
  by_cases h : s.dictating = false
  · simp [h]
  · simp only [h, if_false]
    exact (ws_disconnect_dictation_fields _).1

/-- The initial state is `DictationReady`. -/
theorem dictationReady_init : DictationReady {} := by
  intro h; cases h

/-- After `stop_dictation` the state is `DictationReady`. -/
theorem dictationReady_stop_dictation (s : AppState) : DictationReady (stop_dictation s).1 := by
  intro h
  rw [stop_dictation_not_dictating] at h
  cases h

/-- Function `start_dictation` keeps `DictationReady`: it sets `dictating` only
with a backend selected and, for XDO, the handle created. -/
theorem dictationReady_start_dictation (s : AppState) (env : DictationEnv)
    (h : DictationReady s) : DictationReady (start_dictation s env).1 := by
  unfold start_dictation
  split
  · exact h
  rename_i h1
  have hnd : s.dictating = false := by
    cases hd : s.dictating with
    | false => rfl
    | true => exact absurd (Or.inr hd) h1
  split
  · exact h
  split
  · exact h
  simp only
  split
  · intro hd
    simp only [hnd] at hd
    cases hd
  rename_i h4
  split
  · intro hd
    simp only [hnd] at hd
    cases hd
  rename_i h5
  split
  · exact dictationReady_stop_dictation _
  · split
    · exact dictationReady_stop_dictation _
    · intro _
      rw [(ws_connect_dictation_fields _).2.1, (ws_connect_dictation_fields _).2.2]
      by_cases hx : detect_typing_tool env = .XDO
      · have hxn : env.xdo_new ≠ none := fun hn => h5 ⟨hx, hn⟩
        simp [hx, hxn]
      · simp [hx, h4]

/-- What `type_text` does to the dictation fields: the text (nothing for a null
or empty text) is appended to the buffer, and nothing is injected. -/
theorem type_text_spec (s : AppState) (text : Option String) (idle_id : ℕ+) :
    (type_text s text idle_id).1.dictation_buffer = s.dictation_buffer ++ text.getD "" ∧
    (type_text s text idle_id).1.dictating = s.dictating ∧
    (type_text s text idle_id).1.typing_tool = s.typing_tool ∧
    (type_text s text idle_id).1.xdo = s.xdo ∧
    injections (type_text s text idle_id).2 = [] := by
  unfold type_text
  cases text with
  | none => simp [injections]
  | some t =>
    by_cases ht : t = ""
    · simp [ht, injections]
    · simp only [ht, if_false, Option.getD_some]
      split <;> simp [injections, injected_text]

/-- What `flush_dictation_buffer` does during a dictation: it empties the
buffer and injects the whole buffer as one text, or nothing if it was empty. -/
theorem flush_dictation_buffer_spec (s : AppState) (hdict : s.dictating = true)
    (hready : DictationReady s) :
    (flush_dictation_buffer s).1.dictation_buffer = "" ∧
    (flush_dictation_buffer s).1.dictating = s.dictating ∧
    (flush_dictation_buffer s).1.typing_tool = s.typing_tool ∧
    (flush_dictation_buffer s).1.xdo = s.xdo ∧
    injections (flush_dictation_buffer s).2 =
      if s.dictation_buffer = "" then [] else [s.dictation_buffer] := by
  obtain ⟨htool, hxdo⟩ := hready hdict
  unfold flush_dictation_buffer
  by_cases hb : s.dictation_buffer = ""
  · simp [hb, injections]
  · simp only [hb, hdict, Bool.true_eq_false, or_self, if_false]
    cases ht : s.typing_tool with
    | NONE => exact absurd ht htool
    | XDO =>
      cases hx : s.xdo with
      | none => exact absurd hx (hxdo ht)
      | some handle => simp [injections, injected_text]
    | WTYPE => simp [injections, injected_text]
    | YDOTOOL => simp [injections, injected_text]
    | XDOTOOL => simp [injections, injected_text]

theorem injections_append (fx gx : List Effect) :
    injections (fx ++ gx) = injections fx ++ injections gx := by
  simp [injections, List.filterMap_append]

theorem concat_texts_append (xs ys : List String) :
    concat_texts (xs ++ ys) = concat_texts xs ++ concat_texts ys := by
  induction xs with
  | nil => simp [concat_texts]
  | cons x rest ih => simp [concat_texts, ih, String.append_assoc]

/-- During a dictation, the injections of an event sequence are the batches of
the specification, the buffer left is the text enqueued since the last flush,
and injected and pending text together are the enqueued text in order. -/
theorem dictation_run_spec (events : List DictationEvent) :
    ∀ s : AppState, s.dictating = true → DictationReady s →
      injections (dictation_run s events).2 = flush_batches s.dictation_buffer events ∧
      (dictation_run s events).1.dictation_buffer = pending_text s.dictation_buffer events ∧
      concat_texts (injections (dictation_run s events).2) ++
          (dictation_run s events).1.dictation_buffer =
        s.dictation_buffer ++ concat_texts (enqueued_texts events) := by
  induction events with
  | nil =>
    intro s _ _
    simp [dictation_run, injections, flush_batches, pending_text, enqueued_texts, concat_texts]
  | cons e rest ih =>
    intro s hdict hready
    cases e with
    | type_text text idle_id =>
      obtain ⟨hbuf, hd, ht, hx, hinj⟩ := type_text_spec s text idle_id
      have hready1 : DictationReady (type_text s text idle_id).1 := by
        intro _
        rw [ht, hx]
        exact hready hdict
      obtain ⟨ih1, ih2, ih3⟩ := ih (type_text s text idle_id).1 (by rw [hd]; exact hdict) hready1
      simp only [dictation_run, dictation_step, injections_append, hinj, List.nil_append,
        flush_batches, pending_text, enqueued_texts, concat_texts]
      rw [hbuf] at ih1 ih2 ih3
      refine ⟨ih1, ih2, ?_⟩
      rw [ih3, String.append_assoc]
    | flush =>
      obtain ⟨hbuf, hd, ht, hx, hinj⟩ := flush_dictation_buffer_spec s hdict hready
      have hready1 : DictationReady (flush_dictation_buffer s).1 := by
        intro _
        rw [ht, hx]
        exact hready hdict
      obtain ⟨ih1, ih2, ih3⟩ := ih (flush_dictation_buffer s).1 (by rw [hd]; exact hdict) hready1
      simp only [dictation_run, dictation_step, injections_append, hinj,
        flush_batches, pending_text, enqueued_texts, concat_texts_append]
      rw [hbuf] at ih1 ih2 ih3
      refine ⟨?_, ih2, ?_⟩
      · by_cases hb : s.dictation_buffer = ""
        · simp [hb, ih1]
        · simp [hb, ih1]
      · rw [String.append_assoc, ih3]
        by_cases hb : s.dictation_buffer = ""
        · simp [hb, concat_texts]
        · simp [hb, concat_texts]

/-- C10 (dictation content per flush). In a dictation started by
`start_dictation` (`dictating` set, hence `DictationReady`), for every
interleaving of `type_text` calls and runs of `flush_dictation_buffer`: the
texts injected are, flush by flush, the concatenation in arrival order of the
texts enqueued since the previous flush (`flush_batches`); the buffer left
holds the texts enqueued since the last flush; injected and pending text
together are exactly the enqueued text, nothing lost, duplicated or reordered;
and one flush injects the whole buffer as one text and leaves it empty. -/
theorem dictation_flush_content (s : AppState) (events : List DictationEvent)
    (hdict : s.dictating = true) (hready : DictationReady s) :
    injections (dictation_run s events).2 = flush_batches s.dictation_buffer events ∧
    (dictation_run s events).1.dictation_buffer = pending_text s.dictation_buffer events ∧
    concat_texts (injections (dictation_run s events).2) ++
        (dictation_run s events).1.dictation_buffer =
      s.dictation_buffer ++ concat_texts (enqueued_texts events) ∧
    (flush_dictation_buffer s).1.dictation_buffer = "" ∧
    injections (flush_dictation_buffer s).2 =
      if s.dictation_buffer = "" then [] else [s.dictation_buffer] := by
  obtain ⟨h1, h2, h3⟩ := dictation_run_spec events s hdict hready
  obtain ⟨h4, _, _, _, h5⟩ := flush_dictation_buffer_spec s hdict hready
  exact ⟨h1, h2, h3, h4, h5⟩

/-- Witness of `dictation_flush_content`, in a dictation that types with wtype:
`"a"` then `"b"` then one flush inject the single text `"ab"`; `"hel"`, flush,
`"lo"`, flush inject `"hel"` then `"lo"`. Both leave the buffer empty. -/
theorem dictation_flush_content_witness :
    ({ dictating := true, typing_tool := .WTYPE } : AppState).dictating = true ∧
    DictationReady { dictating := true, typing_tool := .WTYPE } ∧
    injections (dictation_run { dictating := true, typing_tool := .WTYPE }
      [.type_text (some "a") 1, .type_text (some "b") 2, .flush]).2 = ["ab"] ∧
    injections (dictation_run { dictating := true, typing_tool := .WTYPE }
      [.type_text (some "hel") 1, .flush, .type_text (some "lo") 2, .flush]).2 = ["hel", "lo"] ∧
    (dictation_run { dictating := true, typing_tool := .WTYPE }
      [.type_text (some "hel") 1, .flush, .type_text (some "lo") 2, .flush]).1.dictation_buffer
      = "" :=
  ⟨rfl, fun _ => ⟨by decide, by decide⟩,
    (dictation_flush_content { dictating := true, typing_tool := .WTYPE }
      [.type_text (some "a") 1, .type_text (some "b") 2, .flush] rfl
      (fun _ => ⟨by decide, by decide⟩)).1.trans (by decide),
    (dictation_flush_content { dictating := true, typing_tool := .WTYPE }
      [.type_text (some "hel") 1, .flush, .type_text (some "lo") 2, .flush] rfl
      (fun _ => ⟨by decide, by decide⟩)).1.trans (by decide),
    (dictation_flush_content { dictating := true, typing_tool := .WTYPE }
      [.type_text (some "hel") 1, .flush, .type_text (some "lo") 2, .flush] rfl
      (fun _ => ⟨by decide, by decide⟩)).2.1.trans (by decide)⟩

/-! ## Playback -/

theorem written_samples_append (fx gx : List Effect) :
    written_samples (fx ++ gx) = written_samples fx ++ written_samples gx := by
  induction fx with
  | nil => rfl
  | cons e rest ih => cases e <;> simp [written_samples, ih]

/-- What `on_playback_write` does before the end of the buffer. -/
theorem on_playback_write_of_lt (s : AppState) (nbytes : Nat)
    (h : s.playback_offset < s.playback_buffer.length) :
    on_playback_write s nbytes =
      ({ s with playback_offset :=
            (s.playback_offset + min (s.playback_buffer.length - s.playback_offset) (nbytes / 2)) },
        [.pa_stream_write ((s.playback_buffer.drop s.playback_offset).take
            (min (s.playback_buffer.length - s.playback_offset) (nbytes / 2)))]) := by
  unfold on_playback_write
  simp [not_le.mpr h]

/-- What `on_playback_write` does at the end of the buffer. -/
theorem on_playback_write_of_ge (s : AppState) (nbytes : Nat)
    (h : s.playback_buffer.length ≤ s.playback_offset) :
    on_playback_write s nbytes = (s, [.pa_stream_drain]) := by
  unfold on_playback_write
  simp [h]

/-- A write opportunity keeps the delivered samples equal to the part of the
buffer before `playback_offset`. -/
theorem playback_step_write_prefix (w : PlaybackWorld) (nbytes : Nat)
    (hoff : w.app.playback_offset ≤ w.app.playback_buffer.length)
    (hdel : w.delivered = w.app.playback_buffer.take w.app.playback_offset) :
    (playback_step w (.write nbytes)).app.playback_buffer = w.app.playback_buffer ∧
    (playback_step w (.write nbytes)).app.playing = w.app.playing ∧
    (playback_step w (.write nbytes)).app.playback_stream = w.app.playback_stream ∧
    (playback_step w (.write nbytes)).finished = w.finished ∧
    w.app.playback_offset ≤ (playback_step w (.write nbytes)).app.playback_offset ∧
    (playback_step w (.write nbytes)).app.playback_offset ≤ w.app.playback_buffer.length ∧
    (playback_step w (.write nbytes)).delivered =
      w.app.playback_buffer.take (playback_step w (.write nbytes)).app.playback_offset := by
  by_cases h : w.app.playback_offset < w.app.playback_buffer.length
  · simp only [playback_step, on_playback_write_of_lt _ _ h, written_samples, List.append_nil]
    refine ⟨trivial, trivial, trivial, trivial, Nat.le_add_right _ _, ?_, ?_⟩
    · have := Nat.min_le_left (w.app.playback_buffer.length - w.app.playback_offset) (nbytes / 2)
      omega
    · rw [hdel, List.take_add]
  · have hge : w.app.playback_buffer.length ≤ w.app.playback_offset := not_lt.mp h
    simp only [playback_step, on_playback_write_of_ge _ _ hge, written_samples, List.append_nil]
    exact ⟨trivial, trivial, trivial, trivial, le_rfl, hoff, hdel⟩

/-- Over a sequence of write opportunities the delivered samples stay the part
of the buffer before `playback_offset`, which never passes the end. -/
theorem playback_run_writes_prefix (sizes : List Nat) :
    ∀ w : PlaybackWorld, w.app.playback_offset ≤ w.app.playback_buffer.length →
      w.delivered = w.app.playback_buffer.take w.app.playback_offset →
      (playback_run w (sizes.map .write)).app.playback_buffer = w.app.playback_buffer ∧
      w.app.playback_offset ≤ (playback_run w (sizes.map .write)).app.playback_offset ∧
      (playback_run w (sizes.map .write)).app.playback_offset ≤ w.app.playback_buffer.length ∧
      (playback_run w (sizes.map .write)).delivered =
        w.app.playback_buffer.take (playback_run w (sizes.map .write)).app.playback_offset := by
  induction sizes with
  | nil => intro w hoff hdel; exact ⟨rfl, le_rfl, hoff, hdel⟩
  | cons n rest ih =>
    intro w hoff hdel
    obtain ⟨hb, _, _, _, hle, hoff1, hdel1⟩ := playback_step_write_prefix w n hoff hdel
    obtain ⟨ib, ile, ioff, idel⟩ := ih (playback_step w (.write n)) (by rw [hb]; exact hoff1)
      (by rw [hb]; exact hdel1)
    simp only [List.map_cons, playback_run]
    rw [hb] at ib ioff idel
    exact ⟨ib, le_trans hle ile, ioff, idel⟩

/-- C13 (playback delivery). Before the end of the buffer a write opportunity
of `nbytes` bytes writes exactly `min (length - offset) (nbytes / 2)` samples,
those of the buffer from `playback_offset` on, and advances the offset by that
number. Hence after any further sequence of write opportunities the samples
delivered since the start are the first `playback_offset` samples of the
buffer, a prefix of it, and the offset does not pass the buffer length. -/
theorem playback_delivery (s : AppState) (nbytes : Nat) (sizes : List Nat)
    (h : s.playback_offset < s.playback_buffer.length) :
    on_playback_write s nbytes =
      ({ s with playback_offset :=
            (s.playback_offset + min (s.playback_buffer.length - s.playback_offset) (nbytes / 2)) },
        [.pa_stream_write ((s.playback_buffer.drop s.playback_offset).take
            (min (s.playback_buffer.length - s.playback_offset) (nbytes / 2)))]) ∧
    ((s.playback_buffer.drop s.playback_offset).take
        (min (s.playback_buffer.length - s.playback_offset) (nbytes / 2))).length =
      min (s.playback_buffer.length - s.playback_offset) (nbytes / 2) ∧
    (playback_run { app := s, delivered := s.playback_buffer.take s.playback_offset }
        (sizes.map .write)).delivered =
      s.playback_buffer.take
        (playback_run { app := s, delivered := s.playback_buffer.take s.playback_offset }
          (sizes.map .write)).app.playback_offset ∧
    (playback_run { app := s, delivered := s.playback_buffer.take s.playback_offset }
        (sizes.map .write)).delivered <+: s.playback_buffer ∧
    (playback_run { app := s, delivered := s.playback_buffer.take s.playback_offset }
        (sizes.map .write)).app.playback_offset ≤ s.playback_buffer.length := by
  obtain ⟨_, _, hoff, hdel⟩ := playback_run_writes_prefix sizes
    { app := s, delivered := s.playback_buffer.take s.playback_offset } (le_of_lt h) rfl
  refine ⟨on_playback_write_of_lt s nbytes h, ?_, hdel, ?_, hoff⟩
  · simp [List.length_take, List.length_drop]
  · rw [hdel]; exact List.take_prefix _ _

/-- Witness of `playback_delivery`: a buffer of five samples played from the
start with opportunities of 4, 5 and 100 bytes delivers 2, 2 and 1 samples. -/
theorem playback_delivery_witness :
    on_playback_write { playback_buffer := [1, 2, 3, 4, 5] } 4 =
      ({ playback_buffer := [1, 2, 3, 4, 5], playback_offset := 2 }, [.pa_stream_write [1, 2]]) ∧
    (playback_run { app := { playback_buffer := [1, 2, 3, 4, 5] } }
      [.write 4, .write 5, .write 100]).delivered = [1, 2, 3, 4, 5] :=
  ⟨(playback_delivery { playback_buffer := [1, 2, 3, 4, 5] } 4 [] (by decide)).1,
    (playback_delivery { playback_buffer := [1, 2, 3, 4, 5] } 4 [4, 5, 100] (by decide)).2.2.1⟩

theorem stop_playback_state (s : AppState) :
    (stop_playback s).1 =
      { s with playback_stream := none, playing := false, playing_note_index := -1,
               playback_buffer := [], playback_offset := 0 } ∧
    (stop_playback s).2.count .refresh_notes_list = (if s.playing then 1 else 0) ∧
    (stop_playback s).2.count (.gtk_label_set_text "Ready") = (if s.playing then 1 else 0) := by
  unfold stop_playback
  cases hs : s.playback_stream <;> cases hp : s.playing <;> simp [List.count_cons]

/-- Every event of the output stream keeps `PlaybackInv`. -/
theorem playbackInv_step (buffer : List Int) (w : PlaybackWorld) (e : PlaybackEvent)
    (h : PlaybackInv buffer w) : PlaybackInv buffer (playback_step w e) := by
  obtain ⟨hplay, hstop, hpend⟩ := h
  cases e with
  | write nbytes =>
    cases hp : w.app.playing with
    | true =>
      obtain ⟨hb, hoff, hdel, hfin⟩ := hplay hp
      have hoff' : w.app.playback_offset ≤ w.app.playback_buffer.length := by rw [hb]; exact hoff
      have hdel' : w.delivered = w.app.playback_buffer.take w.app.playback_offset := by
        rw [hb]; exact hdel
      obtain ⟨sb, sp, _, sf, _, soff, sdel⟩ := playback_step_write_prefix w nbytes hoff' hdel'
      refine ⟨fun _ => ⟨by rw [sb, hb], by rw [← hb]; exact soff, by rw [sdel, hb],
        by rw [sf, hfin]⟩, fun hnp => ?_, fun hpos => ?_⟩
      · rw [sp, hp] at hnp; cases hnp
      · by_cases hlt : w.app.playback_offset < w.app.playback_buffer.length
        · -- data was written, no drain was requested: one was pending before
          have hsame : (playback_step w (.write nbytes)).drains_pending = w.drains_pending := by
            simp [playback_step, on_playback_write_of_lt _ _ hlt, List.count_cons]
          rw [hsame] at hpos
          have hall := hpend hpos
          have hlen : w.delivered.length = buffer.length := by rw [hall]
          rw [hdel, List.length_take] at hlen
          rw [hb] at hlt
          omega
        · have hge : w.app.playback_buffer.length ≤ w.app.playback_offset := not_lt.mp hlt
          have hd : (playback_step w (.write nbytes)).delivered = w.delivered := by
            simp [playback_step, on_playback_write_of_ge _ _ hge, written_samples]
          rw [hd, hdel]
          rw [hb] at hge
          exact List.take_of_length_le hge
    | false =>
      obtain ⟨hb, hoff, hs, hidx, hdel, hfin⟩ := hstop hp
      have hge : w.app.playback_buffer.length ≤ w.app.playback_offset := by simp [hb]
      simp only [playback_step, on_playback_write_of_ge _ _ hge, written_samples, List.append_nil]
      exact ⟨fun h' => (by rw [hp] at h'; cases h'), fun _ => ⟨hb, hoff, hs, hidx, hdel, hfin⟩,
        fun _ => hdel⟩
  | drain_complete =>
    by_cases h0 : w.drains_pending = 0
    · simp only [playback_step, h0, if_true]
      exact ⟨hplay, hstop, hpend⟩
    · have hall : w.delivered = buffer := hpend (Nat.pos_of_ne_zero h0)
      obtain ⟨hst, hcount, _⟩ := stop_playback_state w.app
      simp only [playback_step, h0, if_false, on_playback_drain_complete, hst, hcount]
      refine ⟨fun h' => (by cases h'), fun _ => ⟨rfl, rfl, rfl, rfl, hall, ?_⟩, fun _ => hall⟩
      cases hp : w.app.playing with
      | true => simp [(hplay hp).2.2.2]
      | false => simp [(hstop hp).2.2.2.2.2]

/-- Every sequence of events of the output stream keeps `PlaybackInv`. -/
theorem playbackInv_run (buffer : List Int) (events : List PlaybackEvent) :
    ∀ w : PlaybackWorld, PlaybackInv buffer w → PlaybackInv buffer (playback_run w events) := by
  induction events with
  | nil => intro w h; exact h
  | cons e rest ih => intro w h; exact ih _ (playbackInv_step buffer w e h)

/-- C14 (playback completion). Take a playback that has just started on a
buffer (`playing`, offset 0) and any sequence of write opportunities and drain
confirmations, the device confirming only drains that were requested. In the
state reached: a write opportunity requests a drain exactly when the offset
has reached the buffer length, it then writes no data, and every sample of the
buffer has been delivered by then; a drain is pending only after all samples
were delivered; a drain confirmation leaves the session stopped (`playing`
false, buffer empty, offset 0, no output stream, no note index); and the end of
the playback has been signalled at most once, exactly once when the session is
stopped, also when further confirmations arrive. -/
theorem playback_completion (s : AppState) (events : List PlaybackEvent) (nbytes : Nat)
    (hplaying : s.playing = true) (hoffset : s.playback_offset = 0) :
    (.pa_stream_drain ∈ (on_playback_write (playback_run { app := s } events).app nbytes).2 ↔
      (playback_run { app := s } events).app.playback_buffer.length ≤
        (playback_run { app := s } events).app.playback_offset) ∧
    (.pa_stream_drain ∈ (on_playback_write (playback_run { app := s } events).app nbytes).2 →
      written_samples (on_playback_write (playback_run { app := s } events).app nbytes).2 = [] ∧
      (playback_run { app := s } events).delivered = s.playback_buffer) ∧
    (0 < (playback_run { app := s } events).drains_pending →
      (playback_run { app := s } events).delivered = s.playback_buffer) ∧
    (0 < (playback_run { app := s } events).drains_pending →
      (playback_step (playback_run { app := s } events) .drain_complete).app =
        { (playback_run { app := s } events).app with
            playback_stream := none, playing := false, playing_note_index := -1,
            playback_buffer := [], playback_offset := 0 }) ∧
    (playback_run { app := s } events).finished ≤ 1 ∧
    ((playback_run { app := s } events).finished = 1 ↔
      (playback_run { app := s } events).app.playing = false) := by
  have hinit : PlaybackInv s.playback_buffer { app := s } := by
    refine ⟨fun _ => ⟨rfl, by simp [hoffset], by simp [hoffset], rfl⟩, fun h => ?_, fun h => ?_⟩
    · simp only [hplaying] at h; cases h
    · exact absurd h (lt_irrefl 0)
  obtain ⟨hplay, hstop, hpend⟩ := playbackInv_run s.playback_buffer events _ hinit
  generalize playback_run { app := s } events = w at hplay hstop hpend ⊢
  have hdrain_iff : .pa_stream_drain ∈ (on_playback_write w.app nbytes).2 ↔
      w.app.playback_buffer.length ≤ w.app.playback_offset := by
    by_cases hlt : w.app.playback_offset < w.app.playback_buffer.length
    · simp [on_playback_write_of_lt _ _ hlt, not_le.mpr hlt]
    · simp [on_playback_write_of_ge _ _ (not_lt.mp hlt), not_lt.mp hlt]
  refine ⟨hdrain_iff, fun hd => ?_, hpend, fun hpos => ?_, ?_, ?_⟩
  · have hge := hdrain_iff.mp hd
    refine ⟨by simp [on_playback_write_of_ge _ _ hge, written_samples], ?_⟩
    cases hp : w.app.playing with
    | true =>
      obtain ⟨hb, _, hdel, _⟩ := hplay hp
      rw [hdel]
      rw [hb] at hge
      exact List.take_of_length_le hge
    | false => exact (hstop hp).2.2.2.2.1
  · have h0 : w.drains_pending ≠ 0 := Nat.pos_iff_ne_zero.mp hpos
    simp only [playback_step, h0, if_false, on_playback_drain_complete,
      (stop_playback_state w.app).1]
  · cases hp : w.app.playing with
    | true => rw [(hplay hp).2.2.2]; exact Nat.zero_le 1
    | false => rw [(hstop hp).2.2.2.2.2]
  · cases hp : w.app.playing with
    | true => simp [(hplay hp).2.2.2]
    | false => simp [(hstop hp).2.2.2.2.2]

/-- Witness of `playback_completion`: a playback of three samples. The third
write opportunity finds the buffer exhausted and requests a drain; a second
one is requested by the fourth; after both confirmations the session is
stopped and its end was signalled once. -/
theorem playback_completion_witness :
    (playback_run
      { app := { playing := true, playback_stream := some 1, playback_buffer := [7, 8, 9] } }
      [.write 4, .write 4, .write 4, .write 4, .drain_complete, .drain_complete]) =
      { app := {}, delivered := [7, 8, 9], drains_pending := 0, finished := 1 } ∧
    (playback_run
      { app := { playing := true, playback_stream := some 1, playback_buffer := [7, 8, 9] } }
      [.write 4, .write 4, .write 4, .write 4, .drain_complete, .drain_complete]).finished ≤ 1 :=
  ⟨by decide,
    (playback_completion { playing := true, playback_stream := some 1, playback_buffer := [7, 8, 9] }
      [.write 4, .write 4, .write 4, .write 4, .drain_complete, .drain_complete] 0 rfl rfl).2.2.2.2.1⟩

/-! ## Close and protocol error -/

/-- C20 (close and protocol error). `ws_disconnect` leaves the readiness flag
false whatever the state of the socket, changes nothing else except that an
open connection becomes closing, and sends the normal-closure frame if and only
if a connection exists and is open; an inbound `error` message leaves the same
state as `ws_disconnect` and makes the same calls after a warning. -/
theorem ws_disconnect_close (s : AppState) (obj : JsonObject) (idle_id : ℕ+) :
    (ws_disconnect s).1.ws_ready = false ∧
    (.ws_close ∈ (ws_disconnect s).2 ↔ s.ws_conn = some .OPEN) ∧
    (s.ws_conn = some .OPEN →
      ws_disconnect s = ({ s with ws_ready := false, ws_conn := some .CLOSING }, [.ws_close])) ∧
    (s.ws_conn ≠ some .OPEN → ws_disconnect s = ({ s with ws_ready := false }, [])) ∧
    (obj.msg_type = some "error" →
      (on_ws_message s (some obj) idle_id).1 = (ws_disconnect s).1 ∧
      ∃ text : String,
        (on_ws_message s (some obj) idle_id).2 = .g_warning text :: (ws_disconnect s).2) := by
  refine ⟨?_, ?_, ?_, ?_, ?_⟩
  · unfold ws_disconnect
    simp only
    split <;> rfl
  · unfold ws_disconnect
    simp only
    split
    · rename_i h
      simp [h]
    · rename_i h
      simp
      exact h
  · intro h
    simp [ws_disconnect, h]
  · intro h
    cases hc : s.ws_conn with
    | none => simp [ws_disconnect, hc]
    | some c => cases c <;> simp_all [ws_disconnect]
  · intro h
    simp [on_ws_message, h]

/-- Witness of `ws_disconnect_close`: an open and ready session is closed with
one closure frame; a session whose socket is already closing gets none. -/
theorem ws_disconnect_close_witness :
    ws_disconnect { ws_ready := true, ws_conn := some .OPEN } =
      ({ ws_ready := false, ws_conn := some .CLOSING }, [.ws_close]) ∧
    ws_disconnect { ws_ready := true, ws_conn := some .CLOSING } =
      ({ ws_ready := false, ws_conn := some .CLOSING }, []) ∧
    (on_ws_message { ws_ready := true, ws_conn := some .OPEN }
      (some { msg_type := some "error", message := some (some "bad") }) 1).1 =
      { ws_ready := false, ws_conn := some .CLOSING } :=
  ⟨(ws_disconnect_close { ws_ready := true, ws_conn := some .OPEN } {} 1).2.2.1 rfl,
    (ws_disconnect_close { ws_ready := true, ws_conn := some .CLOSING } {} 1).2.2.2.1 (by decide),
    ((ws_disconnect_close { ws_ready := true, ws_conn := some .OPEN }
      { msg_type := some "error", message := some (some "bad") } 1).2.2.2.2 rfl).1⟩

/-! ## Dictation queue and the main loop -/

theorem idle_sources_after_append (fx gx : List Effect) :
    ∀ sources : List Nat,
      idle_sources_after sources (fx ++ gx) = idle_sources_after (idle_sources_after sources fx) gx := by
  induction fx with
  | nil => intro sources; rfl
  | cons e rest ih => intro sources; cases e <;> simp [idle_sources_after, ih]

theorem ws_disconnect_idle (s : AppState) (sources : List Nat) :
    idle_sources_after sources (ws_disconnect s).2 = sources := by
  unfold ws_disconnect
  simp only
  split <;> rfl

theorem ws_connect_idle (s : AppState) (sources : List Nat) :
    idle_sources_after sources (ws_connect s).2 = sources := by
  unfold ws_connect
  split
  · rfl
  · split <;> rfl

theorem ws_connect_queue_fields (s : AppState) :
    (ws_connect s).1.dictation_buffer = s.dictation_buffer ∧
    (ws_connect s).1.dictation_flush_id = s.dictation_flush_id := by
  unfold ws_connect
  split
  · exact ⟨rfl, rfl⟩
  · split <;> exact ⟨rfl, rfl⟩

/-- Outside a dictation `stop_dictation` does nothing. -/
theorem stop_dictation_of_not_dictating (s : AppState) (h : s.dictating = false) :
    stop_dictation s = (s, []) := by
  simp [stop_dictation, h]

/-- What `stop_dictation` does to the queue. -/
theorem stop_dictation_queue (s : AppState) (sources : List Nat) :
    (stop_dictation s).1.dictation_buffer = (if s.dictating then "" else s.dictation_buffer) ∧
    (stop_dictation s).1.dictation_flush_id = (if s.dictating then 0 else s.dictation_flush_id) ∧
    idle_sources_after sources (stop_dictation s).2 =
      (if s.dictating then
        (if s.dictation_flush_id = 0 then sources else sources.erase s.dictation_flush_id)
      else sources) := by
  cases h : s.dictating with
  | false => simp [stop_dictation_of_not_dictating s h, idle_sources_after]
  | true =>
    unfold stop_dictation
    simp only [h, Bool.true_eq_false, if_false, if_true]
    refine ⟨?_, ?_, ?_⟩
    · rw [(ws_disconnect_dictation_fields _).2.2.2]
    · unfold ws_disconnect
      simp only
      split <;> rfl
    · simp only [idle_sources_after_append, ws_disconnect_idle]
      generalize (ws_disconnect _).1.xdo = x
      by_cases h0 : s.dictation_flush_id = 0
      · cases x <;> cases s.stream <;> simp [h0, idle_sources_after]
      · cases x <;> cases s.stream <;> simp [h0, idle_sources_after]

/-- What `start_dictation` does to the queue when nothing is pending outside a
dictation: it leaves the buffer and the flush id as they are and registers or
removes no idle source. -/
theorem start_dictation_queue (s : AppState) (env : DictationEnv) (sources : List Nat)
    (h : s.dictating = false → s.dictation_buffer = "" ∧ s.dictation_flush_id = 0) :
    (start_dictation s env).1.dictation_buffer = s.dictation_buffer ∧
    (start_dictation s env).1.dictation_flush_id = s.dictation_flush_id ∧
    ((start_dictation s env).1.dictating = false → s.dictating = false) ∧
    idle_sources_after sources (start_dictation s env).2 = sources := by
  unfold start_dictation
  split
  · exact ⟨rfl, rfl, fun h' => h', rfl⟩
  rename_i h1
  have hnd : s.dictating = false := by
    cases hd : s.dictating with
    | false => rfl
    | true => exact absurd (Or.inr hd) h1
  obtain ⟨hbuf, hid⟩ := h hnd
  split
  · exact ⟨rfl, rfl, fun h' => h', rfl⟩
  split
  · exact ⟨rfl, rfl, fun h' => h', rfl⟩
  simp only
  split
  · exact ⟨rfl, rfl, fun _ => hnd, rfl⟩
  split
  · exact ⟨rfl, rfl, fun _ => hnd, rfl⟩
  split
  · -- the stream could not be created
    simp only [List.cons_append, List.nil_append, idle_sources_after, List.append_eq,
      (stop_dictation_queue _ sources).1, (stop_dictation_queue _ sources).2.1,
      (stop_dictation_queue _ sources).2.2]
    refine ⟨?_, ?_, fun _ => hnd, ?_⟩
    · simp [hbuf]
    · simp [hid]
    · by_cases hx : detect_typing_tool env = TypingTool.XDO <;> simp [hx, hid]
  · split
    · simp only [List.cons_append, List.nil_append, idle_sources_after, List.append_eq,
        (stop_dictation_queue _ sources).1, (stop_dictation_queue _ sources).2.1,
      (stop_dictation_queue _ sources).2.2]
      refine ⟨?_, ?_, fun _ => hnd, ?_⟩
      · simp [hbuf]
      · simp [hid]
      · by_cases hx : detect_typing_tool env = TypingTool.XDO <;> simp [hx, hid]
    · simp only [List.cons_append, List.nil_append, idle_sources_after, List.append_eq, ws_connect_idle]
      refine ⟨?_, ?_, ?_, trivial⟩
      · rw [(ws_connect_queue_fields _).1]
        by_cases hx : detect_typing_tool env = TypingTool.XDO <;> simp [hx]
      · rw [(ws_connect_queue_fields _).2]
        by_cases hx : detect_typing_tool env = TypingTool.XDO <;> simp [hx]
      · intro hd
        rw [(ws_connect_dictation_fields _).1] at hd
        simp at hd

/-- What `type_text` does: with a flush already scheduled, or no text, it only
appends; otherwise it appends and schedules one flush. -/
theorem type_text_cases (s : AppState) (text : Option String) (idle_id : ℕ+) :
    (text.getD "" = "" → type_text s text idle_id = (s, [])) ∧
    (text.getD "" ≠ "" → s.dictation_flush_id ≠ 0 →
      type_text s text idle_id =
        ({ s with dictation_buffer := s.dictation_buffer ++ text.getD "" }, [])) ∧
    (text.getD "" ≠ "" → s.dictation_flush_id = 0 →
      type_text s text idle_id =
        ({ s with dictation_buffer := s.dictation_buffer ++ text.getD "",
                  dictation_flush_id := idle_id }, [.g_idle_add idle_id])) := by
  cases text with
  | none => simp [type_text]
  | some t =>
    by_cases ht : t = ""
    · simp [type_text, ht]
    · refine ⟨fun h => absurd h (by simpa using ht), fun _ h0 => ?_, fun _ h0 => ?_⟩
      · simp [type_text, ht, h0]
      · simp [type_text, ht, h0]

/-- The handler of a `transcription.text.delta` message with a text. -/
theorem on_ws_message_delta (s : AppState) (text : String) (idle_id : ℕ+) :
    on_ws_message s (some { msg_type := some "transcription.text.delta", text := some (some text) })
        idle_id =
      if s.dictating then type_text s (some text) idle_id
      else
        ({ s with live_transcription := s.live_transcription ++ text },
          match s.live_transcription_label with
          | some _ => [.set_live_transcription_label (s.live_transcription ++ text)]
          | none => []) := by
  unfold on_ws_message
  simp only
  cases s.dictating <;> cases s.live_transcription_label <;> simp

theorem flush_dictation_buffer_idle (s : AppState) (sources : List Nat) :
    idle_sources_after sources (flush_dictation_buffer s).2 = sources := by
  unfold flush_dictation_buffer
  simp only
  split
  · rfl
  · split
    · split <;> rfl
    all_goals rfl

theorem flush_dictation_buffer_queue (s : AppState) :
    (flush_dictation_buffer s).1.dictation_flush_id = 0 ∧
    (flush_dictation_buffer s).1.dictating = s.dictating ∧
    (s.dictating = true → (flush_dictation_buffer s).1.dictation_buffer = "") ∧
    (s.dictation_buffer = "" → (flush_dictation_buffer s).1.dictation_buffer = "") ∧
    (s.dictation_buffer = "" ∨ s.dictating = false → (flush_dictation_buffer s).2 = []) := by
  unfold flush_dictation_buffer
  simp only
  split
  · rename_i h
    refine ⟨rfl, rfl, fun hd => ?_, fun hb => hb, fun _ => rfl⟩
    rcases h with h | h
    · exact h
    · rw [hd] at h; cases h
  · rename_i h
    refine ⟨?_, ?_, ?_, ?_, fun h' => absurd h' h⟩
    all_goals (split <;> [split; skip; skip; skip; skip]) <;> simp

/-- Every event of the dictation queue keeps `QueueInv`. -/
theorem queueInv_step (w : DictationWorld) (e : QueueEvent) (h : QueueInv w) :
    QueueInv (queue_step w e).1 := by
  obtain ⟨hsrc, hbuf, hidle⟩ := h
  cases e with
  | start_dictation env =>
    obtain ⟨q1, q2, q3, q4⟩ := start_dictation_queue w.app env w.idle_sources hidle
    simp only [queue_step, QueueInv, q1, q2, q4]
    exact ⟨hsrc, hbuf, fun hd => hidle (q3 hd)⟩
  | text_delta text idle_id =>
    simp only [queue_step, on_ws_message_delta]
    cases hd : w.app.dictating with
    | false =>
      have hi : ∀ label : Option Nat, idle_sources_after w.idle_sources
          (match label with
            | some _ => [Effect.set_live_transcription_label (w.app.live_transcription ++ text)]
            | none => []) = w.idle_sources := by
        intro label; cases label <;> rfl
      simp only [Bool.false_eq_true, if_false, QueueInv]
      refine ⟨?_, hbuf, fun _ => hidle hd⟩
      generalize w.app.live_transcription_label = label
      cases label <;> exact hsrc
    | true =>
      simp only [if_true]
      obtain ⟨c1, c2, c3⟩ := type_text_cases w.app (some text) idle_id
      by_cases ht : (some text).getD "" = ""
      · rw [c1 ht]
        exact ⟨hsrc, hbuf, hidle⟩
      · by_cases h0 : w.app.dictation_flush_id = 0
        · rw [c3 ht h0]
          simp only [QueueInv, idle_sources_after, hsrc, h0, if_true, List.nil_append]
          refine ⟨by simp, fun _ => by simp, fun hnd => ?_⟩
          rw [hd] at hnd; cases hnd
        · rw [c2 ht h0]
          simp only [QueueInv, idle_sources_after]
          exact ⟨hsrc, fun _ => h0, fun hnd => by rw [hd] at hnd; cases hnd⟩
  | idle id =>
    by_cases hmem : id ∈ w.idle_sources
    · obtain ⟨f1, f2, f3, f4, _⟩ := flush_dictation_buffer_queue w.app
      simp only [queue_step, hmem, if_true, QueueInv, flush_dictation_buffer_idle, f1, f2]
      have hne : w.app.dictation_flush_id ≠ 0 := by
        intro h0
        rw [hsrc, h0] at hmem
        simp at hmem
      have hid : id = w.app.dictation_flush_id := by
        rw [hsrc] at hmem
        simpa [hne] using hmem
      have hdict : w.app.dictating = true := by
        cases hd : w.app.dictating with
        | true => rfl
        | false => exact absurd (hidle hd).2 hne
      refine ⟨by rw [hsrc, hid]; simp [hne], fun hb => absurd (f3 hdict) hb, fun _ => ⟨f3 hdict, trivial⟩⟩
    · simp only [queue_step, hmem, if_false]
      exact ⟨hsrc, hbuf, hidle⟩
  | stop_dictation =>
    obtain ⟨q1, q2, q3⟩ := stop_dictation_queue w.app w.idle_sources
    simp only [queue_step, QueueInv, q1, q2, q3, stop_dictation_not_dictating]
    cases hd : w.app.dictating with
    | false =>
      simp only [Bool.false_eq_true, if_false]
      exact ⟨hsrc, hbuf, fun _ => hidle hd⟩
    | true =>
      simp only [if_true]
      refine ⟨?_, by simp, by simp⟩
      by_cases h0 : w.app.dictation_flush_id = 0
      · simp [h0, hsrc]
      · simp [h0, hsrc]

/-- Every sequence of events of the dictation queue keeps `QueueInv`. -/
theorem queueInv_run (events : List QueueEvent) :
    ∀ w : DictationWorld, QueueInv w → QueueInv (queue_run w events).1 := by
  induction events with
  | nil => intro w h; exact h
  | cons e rest ih => intro w h; exact ih _ (queueInv_step w e h)

/-- A world that starts idle, with no idle source, satisfies `QueueInv`. -/
theorem queueInv_init (init : AppState) (h : QueueIdle init) : QueueInv { app := init } := by
  obtain ⟨_, hb, hid⟩ := h
  refine ⟨by simp [hid], fun hne => absurd hb hne, fun _ => ⟨hb, hid⟩⟩

theorem injections_ws_disconnect (s : AppState) : injections (ws_disconnect s).2 = [] := by
  unfold ws_disconnect
  simp only
  split <;> rfl

theorem injections_ws_connect (s : AppState) : injections (ws_connect s).2 = [] := by
  unfold ws_connect
  split
  · rfl
  · split <;> rfl

theorem injections_stop_dictation (s : AppState) : injections (stop_dictation s).2 = [] := by
  unfold stop_dictation
  split
  · rfl
  · simp only [injections_append, injections_ws_disconnect]
    generalize (ws_disconnect _).1.xdo = x
    cases x <;> cases s.stream <;> by_cases h0 : s.dictation_flush_id = 0 <;>
      simp [h0, injections, injected_text]

theorem injections_start_dictation (s : AppState) (env : DictationEnv) :
    injections (start_dictation s env).2 = [] := by
  unfold start_dictation
  split
  · rfl
  split
  · rfl
  split
  · rfl
  simp only
  split
  · rfl
  split
  · rfl
  split
  · simp only [injections_append, injections_stop_dictation]
    rfl
  · split
    · simp only [injections_append, injections_stop_dictation]
      rfl
    · simp only [injections_append, injections_ws_connect]
      rfl

/-- With nothing pending, events that bring no new text inject nothing and
leave nothing pending. -/
theorem queue_run_without_text (later : List QueueEvent) :
    ∀ w : DictationWorld, QueueInv w → w.app.dictation_buffer = "" →
      (∀ e ∈ later, brings_text e = false) →
      injections (queue_run w later).2 = [] ∧
      (queue_run w later).1.app.dictation_buffer = "" := by
  induction later with
  | nil => intro w _ hb _; exact ⟨rfl, hb⟩
  | cons e rest ih =>
    intro w hinv hb hno
    have hstep : injections (queue_step w e).2 = [] ∧
        (queue_step w e).1.app.dictation_buffer = "" := by
      cases e with
      | start_dictation env =>
        obtain ⟨q1, _, _, _⟩ := start_dictation_queue w.app env w.idle_sources hinv.2.2
        exact ⟨injections_start_dictation _ _, by simp only [queue_step, q1, hb]⟩
      | text_delta t id => exact absurd (hno _ (List.mem_cons_self _ _)) (by simp [brings_text])
      | idle id =>
        obtain ⟨_, _, _, f4, f5⟩ := flush_dictation_buffer_queue w.app
        by_cases hmem : id ∈ w.idle_sources
        · simp only [queue_step, hmem, if_true, f5 (Or.inl hb), f4 hb]
          exact ⟨rfl, trivial⟩
        · simp only [queue_step, hmem, if_false]
          exact ⟨rfl, hb⟩
      | stop_dictation =>
        obtain ⟨q1, _, _⟩ := stop_dictation_queue w.app w.idle_sources
        refine ⟨injections_stop_dictation _, ?_⟩
        simp only [queue_step, q1, hb]
        split <;> rfl
    obtain ⟨i1, i2⟩ := ih (queue_step w e).1 (queueInv_step w e hinv) hstep.2
      (fun e' he' => hno e' (List.mem_cons_of_mem _ he'))
    simp only [queue_run, injections_append, hstep.1, i1, i2]
    exact ⟨rfl, trivial⟩

/-- C11 (single pending flush). Start from any state in which no dictation
is active and nothing is queued. In every state reached through
`start_dictation`, inbound text (the call site of `type_text`), runs of the
idle callback `flush_dictation_buffer` and `stop_dictation`: at most one flush
callback is registered with the main loop, the one named by
`dictation_flush_id`; and a non-empty `dictation_buffer` has a flush
scheduled. In every state whatsoever `type_text` registers a flush only when
`dictation_flush_id` is 0, at most one, and otherwise only appends the text to
`dictation_buffer`. -/
theorem single_pending_flush (init : AppState) (events : List QueueEvent) (s : AppState)
    (text : Option String) (idle_id : ℕ+) (hinit : QueueIdle init) :
    (queue_run { app := init } events).1.idle_sources.length ≤ 1 ∧
    (queue_run { app := init } events).1.idle_sources =
      (if (queue_run { app := init } events).1.app.dictation_flush_id = 0 then []
        else [(queue_run { app := init } events).1.app.dictation_flush_id]) ∧
    ((queue_run { app := init } events).1.app.dictation_buffer ≠ "" →
      (queue_run { app := init } events).1.app.dictation_flush_id ≠ 0 ∧
      (queue_run { app := init } events).1.app.dictation_flush_id ∈
        (queue_run { app := init } events).1.idle_sources) ∧
    (.g_idle_add idle_id ∈ (type_text s text idle_id).2 → s.dictation_flush_id = 0) ∧
    ((type_text s text idle_id).2 = [] ∨ (type_text s text idle_id).2 = [.g_idle_add idle_id]) ∧
    (s.dictation_flush_id ≠ 0 →
      type_text s text idle_id =
        ({ s with dictation_buffer := s.dictation_buffer ++ text.getD "" }, [])) := by
  obtain ⟨hsrc, hbuf, _⟩ := queueInv_run events _ (queueInv_init init hinit)
  obtain ⟨c1, c2, c3⟩ := type_text_cases s text idle_id
  refine ⟨?_, hsrc, fun hb => ⟨hbuf hb, ?_⟩, ?_, ?_, ?_⟩
  · rw [hsrc]; split <;> simp
  · rw [hsrc]; simp [hbuf hb]
  · intro hmem
    by_cases ht : text.getD "" = ""
    · rw [c1 ht] at hmem; cases hmem
    · by_cases h0 : s.dictation_flush_id = 0
      · exact h0
      · rw [c2 ht h0] at hmem; cases hmem
  · by_cases ht : text.getD "" = ""
    · left; rw [c1 ht]
    · by_cases h0 : s.dictation_flush_id = 0
      · right; rw [c3 ht h0]
      · left; rw [c2 ht h0]
  · intro h0
    by_cases ht : text.getD "" = ""
    · rw [c1 ht, ht, String.append_empty]
    · exact c2 ht h0

/-- Witness of `single_pending_flush`: a dictation is started on an X11 session;
two texts arrive before the main loop is idle. One source, 5, is
registered, and the second call only appends. -/
theorem single_pending_flush_witness :
    QueueIdle { transcription_available := true, pa_ready := true } ∧
    (queue_run { app := { transcription_available := true, pa_ready := true } }
      [.start_dictation ⟨false, false, false, false, some 1, some 2, true⟩,
        .text_delta "a" 5, .text_delta "b" 6]).1.idle_sources = [5] ∧
    (queue_run { app := { transcription_available := true, pa_ready := true } }
      [.start_dictation ⟨false, false, false, false, some 1, some 2, true⟩,
        .text_delta "a" 5, .text_delta "b" 6]).1.app.dictation_buffer = "ab" ∧
    (queue_run { app := { transcription_available := true, pa_ready := true } }
      [.start_dictation ⟨false, false, false, false, some 1, some 2, true⟩,
        .text_delta "a" 5, .text_delta "b" 6]).1.idle_sources.length ≤ 1 ∧
    type_text { dictation_buffer := "a", dictation_flush_id := 5 } (some "b") 6 =
      ({ dictation_buffer := "ab", dictation_flush_id := 5 }, []) :=
  ⟨by decide, by decide, by decide,
    (single_pending_flush { transcription_available := true, pa_ready := true }
      [.start_dictation ⟨false, false, false, false, some 1, some 2, true⟩,
        .text_delta "a" 5, .text_delta "b" 6] {} none 1 (by decide)).1,
    (single_pending_flush {} [] { dictation_buffer := "a", dictation_flush_id := 5 } (some "b")
      6 (by decide)).2.2.2.2.2 (by decide)⟩

/-- C12 (flush after the activity ended). `flush_dictation_buffer` makes no
call at all when the buffer is empty or `dictating` is false, so a flush that
runs after `stop_dictation` injects nothing. In every state reached as in
`single_pending_flush`, after `stop_dictation` the buffer is empty, no flush
is scheduled (`dictation_flush_id` is 0 and no idle source is registered) and
`dictating` is false; later events that bring no new text inject nothing; and
the stop of a dictation leaves the same state and makes the same calls whatever
text was pending, so no text enqueued before the stop can be injected later. -/
theorem flush_after_stop (init : AppState) (events later : List QueueEvent) (s : AppState)
    (pending : String) (hinit : QueueIdle init) :
    (s.dictation_buffer = "" ∨ s.dictating = false → (flush_dictation_buffer s).2 = []) ∧
    (flush_dictation_buffer (stop_dictation s).1).2 = [] ∧
    (queue_step (queue_run { app := init } events).1 .stop_dictation).1.app.dictation_buffer = "" ∧
    (queue_step (queue_run { app := init } events).1 .stop_dictation).1.app.dictation_flush_id = 0 ∧
    (queue_step (queue_run { app := init } events).1 .stop_dictation).1.idle_sources = [] ∧
    (queue_step (queue_run { app := init } events).1 .stop_dictation).1.app.dictating = false ∧
    ((∀ e ∈ later, brings_text e = false) →
      injections (queue_run (queue_step (queue_run { app := init } events).1 .stop_dictation).1
        later).2 = []) ∧
    (s.dictating = true →
      stop_dictation { s with dictation_buffer := pending } = stop_dictation s) := by
  have hinv := queueInv_run events _ (queueInv_init init hinit)
  have hinv' := queueInv_step _ .stop_dictation hinv
  have hnd : (queue_step (queue_run { app := init } events).1 .stop_dictation).1.app.dictating
      = false := stop_dictation_not_dictating _
  obtain ⟨hb, hid⟩ := hinv'.2.2 hnd
  refine ⟨(flush_dictation_buffer_queue s).2.2.2.2, ?_, hb, hid, ?_, hnd, ?_, ?_⟩
  · exact (flush_dictation_buffer_queue _).2.2.2.2 (Or.inr (stop_dictation_not_dictating s))
  · rw [hinv'.1, hid]; rfl
  · intro hno
    exact (queue_run_without_text later _ hinv' hb hno).1
  · intro hd
    simp [stop_dictation, hd, ws_disconnect]

/-- Witness of `flush_after_stop`: a dictation with the text `"a"` pending and
the flush source 5 registered is stopped. Nothing is pending afterwards, and
neither a flush nor a new dictation followed by a flush types anything. -/
theorem flush_after_stop_witness :
    QueueIdle { transcription_available := true, pa_ready := true } ∧
    (queue_run { app := { transcription_available := true, pa_ready := true } }
      [.start_dictation ⟨false, false, false, false, some 1, some 2, true⟩,
        .text_delta "a" 5]).1.idle_sources = [5] ∧
    (queue_step (queue_run { app := { transcription_available := true, pa_ready := true } }
      [.start_dictation ⟨false, false, false, false, some 1, some 2, true⟩,
        .text_delta "a" 5]).1 .stop_dictation).1.idle_sources = [] ∧
    injections (queue_run
      (queue_step (queue_run { app := { transcription_available := true, pa_ready := true } }
        [.start_dictation ⟨false, false, false, false, some 1, some 2, true⟩,
          .text_delta "a" 5]).1 .stop_dictation).1
      [.idle 5, .start_dictation ⟨false, false, false, false, some 3, some 4, true⟩,
        .idle 5]).2 = [] :=
  ⟨by decide, by decide,
    (flush_after_stop { transcription_available := true, pa_ready := true }
      [.start_dictation ⟨false, false, false, false, some 1, some 2, true⟩, .text_delta "a" 5]
      [] {} "" (by decide)).2.2.2.2.1,
    (flush_after_stop { transcription_available := true, pa_ready := true }
      [.start_dictation ⟨false, false, false, false, some 1, some 2, true⟩, .text_delta "a" 5]
      [.idle 5, .start_dictation ⟨false, false, false, false, some 3, some 4, true⟩, .idle 5]
      {} "" (by decide)).2.2.2.2.2.2.1 (by decide)⟩

/-! ## WAV files -/

theorem le_uint_u32_bytes (v : Nat) (h : v < 2 ^ 32) : le_uint (u32_bytes v) = v := by
  simp only [u32_bytes, le_uint]
  omega

theorem le_uint_u16_bytes (v : Nat) (h : v < 2 ^ 16) : le_uint (u16_bytes v) = v := by
  simp only [u16_bytes, le_uint]
  omega

theorem pcm_bytes_cons (x : Int) (rest : List Int) :
    pcm_bytes (x :: rest) =
      (x % 65536).toNat % 256 :: (x % 65536).toNat / 256 :: pcm_bytes rest := by
  simp [pcm_bytes, int16_bytes]

theorem pcm_bytes_length (samples : List Int) : (pcm_bytes samples).length = 2 * samples.length := by
  induction samples with
  | nil => rfl
  | cons x rest ih => rw [pcm_bytes_cons]; simp [ih]; omega

/-- Sample bytes written from 16-bit samples decode to the same samples. -/
theorem decode_samples_pcm_bytes (samples : List Int) (h : Int16Block samples) :
    decode_samples (pcm_bytes samples) = samples := by
  induction samples with
  | nil => rfl
  | cons x rest ih =>
    have hx : is_int16 x := h x (List.mem_cons_self _ _)
    have hrest : Int16Block rest := fun y hy => h y (List.mem_cons_of_mem _ hy)
    obtain ⟨h1, h2⟩ := hx
    rw [pcm_bytes_cons, decode_samples, ih hrest]
    congr 1
    have hu : (((x % 65536).toNat : Nat) : Int) = x % 65536 :=
      Int.toNat_of_nonneg (Int.emod_nonneg _ (by norm_num))
    have hsum : (x % 65536).toNat % 256 + 256 * ((x % 65536).toNat / 256) = (x % 65536).toNat :=
      Nat.mod_add_div _ _
    rw [hsum]
    split
    · rename_i hge
      have : (32768 : Int) ≤ (((x % 65536).toNat : Nat) : Int) := by exact_mod_cast hge
      omega
    · rename_i hlt
      have : (((x % 65536).toNat : Nat) : Int) < 32768 := by
        have := not_le.mp hlt
        exact_mod_cast this
      omega

/-- A read of exactly the bytes at the front of a good stream. -/
theorem ifstream_read_append (chunk tail old : List Nat) (n : Nat) (h : chunk.length = n) :
    ifstream_read { rest := chunk ++ tail, good := true } n old =
      (chunk, { rest := tail, good := true }) := by
  subst h
  simp [ifstream_read]

theorem ifstream_seekg_cur_append (chunk tail : List Nat) (n : Nat) (h : chunk.length = n) :
    ifstream_seekg_cur { rest := chunk ++ tail, good := true } n = { rest := tail, good := true } := by
  subst h
  simp [ifstream_seekg_cur]

/-- A PCM WAV file whose `fmt ` chunk declares the size `16 + extra.length` and
carries `extra` after its 16 bytes is read as the samples of its data chunk:
`read_wav_file` skips the extra bytes. -/
theorem read_wav_file_layout (file_size audio_format channels sample_rate byte_rate block_align
    bits : Nat) (extra data trailing : List Nat) (locals : WavLocals)
    (hextra : 16 + extra.length < 2 ^ 32) (hdata : data.length < 2 ^ 32)
    (heven : data.length % 2 = 0) :
    read_wav_file
      (some (tag_bytes "RIFF" ++ (u32_bytes file_size ++ (tag_bytes "WAVE" ++
        (tag_bytes "fmt " ++ (u32_bytes (16 + extra.length) ++ (u16_bytes audio_format ++
        (u16_bytes channels ++ (u32_bytes sample_rate ++ (u32_bytes byte_rate ++
        (u16_bytes block_align ++ (u16_bytes bits ++ (extra ++ (tag_bytes "data" ++
        (u32_bytes data.length ++ (data ++ trailing))))))))))))))))
      locals = .ok (some (decode_samples data)) := by
  unfold read_wav_file
  simp only [ifstream_read_append _ _ _ 4 (rfl : (tag_bytes "RIFF").length = 4),
    ifstream_read_append _ _ _ 4 (rfl : (tag_bytes "WAVE").length = 4),
    ifstream_read_append _ _ _ 4 (rfl : (tag_bytes "fmt ").length = 4),
    ifstream_read_append _ _ _ 4 (rfl : (tag_bytes "data").length = 4),
    ifstream_read_append _ _ _ 4 (rfl : (u32_bytes _).length = 4),
    ifstream_read_append _ _ _ 2 (rfl : (u16_bytes _).length = 2),
    le_uint_u32_bytes _ hextra, le_uint_u32_bytes _ hdata,
    ne_eq, not_true_eq_false, or_self, if_false]
  by_cases hk : extra.length = 0
  · have he : extra = [] := List.length_eq_zero.mp hk
    subst he
    simp only [List.length_nil, Nat.add_zero, gt_iff_lt, lt_irrefl, if_false, List.nil_append,
      ifstream_read_append _ _ _ 4 (rfl : (tag_bytes "data").length = 4),
      ifstream_read_append _ _ _ 4 (rfl : (u32_bytes _).length = 4),
      le_uint_u32_bytes _ hdata, ne_eq, not_true_eq_false, if_false,
      ifstream_read_append data trailing _ data.length rfl, if_true]
    simp [heven]
  · have hgt : 16 + extra.length > 16 := by omega
    simp only [hgt, if_true, Nat.add_sub_cancel_left,
      ifstream_seekg_cur_append extra _ extra.length rfl,
      ifstream_read_append _ _ _ 4 (rfl : (tag_bytes "data").length = 4),
      ifstream_read_append _ _ _ 4 (rfl : (u32_bytes _).length = 4),
      le_uint_u32_bytes _ hdata, ne_eq, not_true_eq_false, if_false,
      ifstream_read_append data trailing _ data.length rfl]
    simp [heven]

/-- The file that `write_wav_file` writes for fewer than 2^31 samples: the
canonical 44-byte header and the sample bytes. -/
theorem write_wav_file_eq (samples : List Int) (hlen : samples.length < 2 ^ 31) :
    write_wav_file samples =
      tag_bytes "RIFF" ++ (u32_bytes ((36 + 2 * samples.length) % 2 ^ 32) ++ (tag_bytes "WAVE" ++
        (tag_bytes "fmt " ++ (u32_bytes 16 ++ (u16_bytes 1 ++
        (u16_bytes 1 ++ (u32_bytes 44100 ++ (u32_bytes 88200 ++
        (u16_bytes 2 ++ (u16_bytes 16 ++ (tag_bytes "data" ++
        (u32_bytes (2 * samples.length) ++ pcm_bytes samples)))))))))))) := by
  have hmod : samples.length * 2 % 2 ^ 32 = 2 * samples.length := by omega
  have htake : (pcm_bytes samples).take (2 * samples.length) = pcm_bytes samples :=
    List.take_of_length_le (by rw [pcm_bytes_length])
  simp only [write_wav_file, hmod, htake, List.append_assoc, NUM_CHANNELS, BITS_PER_SAMPLE,
    SAMPLE_RATE]
  rfl

/-- C15 (WAV round trip). For fewer than 2^31 signed 16-bit samples,
`read_wav_file` on the bytes written by `write_wav_file` returns true with
exactly the samples written, whatever its locals held before. The written
file is the 44-byte header `RIFF`, file size, `WAVE`, `fmt `, 16, format 1
(PCM), 1 channel, 44100 Hz, byte rate 88200, block align 2, 16 bits, `data`,
data size, followed by the `2 * |s|` sample bytes, low byte first. -/
theorem wav_round_trip (samples : List Int) (locals : WavLocals) (h16 : Int16Block samples)
    (hlen : samples.length < 2 ^ 31) :
    read_wav_file (some (write_wav_file samples)) locals = .ok (some samples) ∧
    write_wav_file samples =
      canonical_wav_header ((36 + 2 * samples.length) % 2 ^ 32) (2 * samples.length) ++
        pcm_bytes samples ∧
    (canonical_wav_header ((36 + 2 * samples.length) % 2 ^ 32) (2 * samples.length)).length = 44 ∧
    (pcm_bytes samples).length = 2 * samples.length ∧
    pcm_bytes samples =
      samples.flatMap (fun x => [(x % 65536).toNat % 256, (x % 65536).toNat / 256]) := by
  have hw := write_wav_file_eq samples hlen
  have hpl := pcm_bytes_length samples
  refine ⟨?_, ?_, rfl, hpl, rfl⟩
  · rw [hw]
    have hl := read_wav_file_layout ((36 + 2 * samples.length) % 2 ^ 32) 1 1 44100 88200 2 16 []
      (pcm_bytes samples) [] locals (by norm_num) (by rw [hpl]; omega) (by rw [hpl]; omega)
    rw [decode_samples_pcm_bytes samples h16] at hl
    simpa [hpl] using hl
  · rw [hw]
    simp only [canonical_wav_header, List.append_assoc]

/-- Witness of `wav_round_trip`: the four samples `1, -2, 32767, -32768`. -/
theorem wav_round_trip_witness :
    Int16Block [1, -2, 32767, -32768] ∧
    write_wav_file [1, -2, 32767, -32768] =
      [82, 73, 70, 70, 44, 0, 0, 0, 87, 65, 86, 69, 102, 109, 116, 32, 16, 0, 0, 0, 1, 0, 1, 0,
        68, 172, 0, 0, 136, 88, 1, 0, 2, 0, 16, 0, 100, 97, 116, 97, 8, 0, 0, 0,
        1, 0, 254, 255, 255, 127, 0, 128] ∧
    read_wav_file (some (write_wav_file [1, -2, 32767, -32768])) {} =
      .ok (some [1, -2, 32767, -32768]) :=
  ⟨by decide, by decide, (wav_round_trip [1, -2, 32767, -32768] {} (by decide) (by decide)).1⟩

theorem canonical_wav_header_fields (file_size data_size : Nat) :
    (canonical_wav_header file_size data_size).length = 44 ∧
    le_uint (((canonical_wav_header file_size data_size).drop 24).take 4) = 44100 ∧
    le_uint (((canonical_wav_header file_size data_size).drop 22).take 2) = 1 ∧
    le_uint (((canonical_wav_header file_size data_size).drop 34).take 2) = 16 ∧
    ((canonical_wav_header file_size data_size).drop 40).take 4 = u32_bytes data_size := by
  refine ⟨rfl, ?_, ?_, ?_, ?_⟩ <;>
    simp [canonical_wav_header, tag_bytes, u32_bytes, u16_bytes, le_uint]

/-- C16 (WAV duration). For fewer than 2^31 samples, `get_wav_duration` on the
file written by `write_wav_file` returns the number of samples divided by
44100: 1 for 44100 samples, 0 for an empty recording. -/
theorem wav_duration_written (samples : List Int) (hlen : samples.length < 2 ^ 31) :
    get_wav_duration (some (write_wav_file samples)) = .ok ((samples.length : ℚ) / 44100) ∧
    (samples.length = 44100 → get_wav_duration (some (write_wav_file samples)) = .ok 1) ∧
    (samples = [] → get_wav_duration (some (write_wav_file samples)) = .ok 0) := by
  have hmain : get_wav_duration (some (write_wav_file samples)) =
      .ok ((samples.length : ℚ) / 44100) := by
    have hw : write_wav_file samples =
        canonical_wav_header ((36 + 2 * samples.length) % 2 ^ 32) (2 * samples.length) ++
          pcm_bytes samples := by
      rw [write_wav_file_eq samples hlen]
      simp only [canonical_wav_header, List.append_assoc]
    obtain ⟨h44, hsr, hch, hbits, hds⟩ :=
      canonical_wav_header_fields ((36 + 2 * samples.length) % 2 ^ 32) (2 * samples.length)
    have hd : le_uint (u32_bytes (2 * samples.length)) = 2 * samples.length :=
      le_uint_u32_bytes _ (by omega)
    unfold get_wav_duration
    rw [hw]
    simp only [ifstream_read_append _ (pcm_bytes samples) [] 44 h44, hsr, hch, hbits, hds, hd]
    norm_num
  refine ⟨hmain, fun h => ?_, fun h => ?_⟩
  · rw [hmain, h]; norm_num
  · rw [hmain, h]; simp

/-- Witness of `wav_duration_written`: three samples last 3/44100 of a second. -/
theorem wav_duration_written_witness :
    ([5, 6, 7] : List Int).length < 2 ^ 31 ∧
    get_wav_duration (some (write_wav_file [5, 6, 7])) = .ok (3 / 44100) :=
  ⟨by decide, (wav_duration_written [5, 6, 7] (by decide)).1.trans (by norm_num)⟩

theorem ifstream_read_good_before (st : IfStream) (n : Nat) (old : List Nat)
    (h : (ifstream_read st n old).2.good = true) : st.good = true := by
  unfold ifstream_read at h
  split at h
  · rename_i hb
    simp only at h
    rw [hb] at h
    cases h
  · cases hg : st.good with
    | true => rfl
    | false => rename_i hb; exact absurd hg hb

/-- A read that leaves the stream good delivered exactly the next `n` bytes. -/
theorem ifstream_read_good_inv (rest : List Nat) (n : Nat) (old : List Nat)
    (h : (ifstream_read { rest := rest, good := true } n old).2.good = true) :
    n ≤ rest.length ∧
    ifstream_read { rest := rest, good := true } n old =
      (rest.take n, { rest := rest.drop n, good := true }) := by
  unfold ifstream_read at h ⊢
  by_cases hn : n ≤ rest.length
  · simp [hn]
  · simp [hn] at h

/-- The conditional seek over the extra bytes of the fmt chunk is a seek by the
truncated difference. -/
theorem ifstream_skip_if (st : IfStream) (fmt_size : Nat) :
    (if fmt_size > 16 then ifstream_seekg_cur st (fmt_size - 16) else st) =
      ifstream_seekg_cur st (fmt_size - 16) := by
  by_cases h : fmt_size > 16
  · simp [h]
  · have h0 : fmt_size - 16 = 0 := by omega
    cases st with
    | mk rest good => cases good <;> simp [h, h0, ifstream_seekg_cur]

theorem ifstream_seekg_cur_good (rest : List Nat) (off : Nat) :
    ifstream_seekg_cur { rest := rest, good := true } off =
      { rest := rest.drop off, good := true } := by
  simp [ifstream_seekg_cur]

theorem ifstream_seekg_cur_good_before (st : IfStream) (off : Nat)
    (h : (ifstream_seekg_cur st off).good = true) : st.good = true := by
  cases st with
  | mk rest good =>
    cases good with
    | true => rfl
    | false => simp [ifstream_seekg_cur] at h

/-- What a file must look like for `read_wav_file` not to return false: the four
tags in place, the data tag after the declared size of the `fmt ` chunk, and
the declared data present. -/
theorem read_wav_file_not_false (bytes : List Nat) (locals : WavLocals)
    (h : read_wav_file (some bytes) locals ≠ .ok none) :
    bytes.take 4 = tag_bytes "RIFF" ∧
    (bytes.drop 8).take 4 = tag_bytes "WAVE" ∧
    (bytes.drop 12).take 4 = tag_bytes "fmt " ∧
    (bytes.drop (36 + (le_uint ((bytes.drop 16).take 4) - 16))).take 4 = tag_bytes "data" ∧
    36 + (le_uint ((bytes.drop 16).take 4) - 16) + 8 +
        le_uint ((bytes.drop (36 + (le_uint ((bytes.drop 16).take 4) - 16) + 4)).take 4) ≤
      bytes.length := by
  unfold read_wav_file at h
  simp only [ifstream_skip_if] at h
  split_ifs at h with c1 c2 c3 hgood hodd
  all_goals first
    | exact absurd rfl h
    | skip
  all_goals
    have g13 := ifstream_read_good_before _ _ _ hgood
    have g12 := ifstream_read_good_before _ _ _ g13
    have gs := ifstream_read_good_before _ _ _ g12
    have g11 := ifstream_seekg_cur_good_before _ _ gs
    have g10 := ifstream_read_good_before _ _ _ g11
    have g9 := ifstream_read_good_before _ _ _ g10
    have g8 := ifstream_read_good_before _ _ _ g9
    have g7 := ifstream_read_good_before _ _ _ g8
    have g6 := ifstream_read_good_before _ _ _ g7
    have g5 := ifstream_read_good_before _ _ _ g6
    have g4 := ifstream_read_good_before _ _ _ g5
    have g3 := ifstream_read_good_before _ _ _ g4
    have g2 := ifstream_read_good_before _ _ _ g3
    have g1 := ifstream_read_good_before _ _ _ g2
    obtain ⟨l1, e1⟩ := ifstream_read_good_inv _ _ _ g1
    simp only [e1] at g2
    obtain ⟨l2, e2⟩ := ifstream_read_good_inv _ _ _ g2
    simp only [e1, e2] at g3
    obtain ⟨l3, e3⟩ := ifstream_read_good_inv _ _ _ g3
    simp only [e1, e2, e3] at g4
    obtain ⟨l4, e4⟩ := ifstream_read_good_inv _ _ _ g4
    simp only [e1, e2, e3, e4] at g5
    obtain ⟨l5, e5⟩ := ifstream_read_good_inv _ _ _ g5
    simp only [e1, e2, e3, e4, e5] at g6
    obtain ⟨l6, e6⟩ := ifstream_read_good_inv _ _ _ g6
    simp only [e1, e2, e3, e4, e5, e6] at g7
    obtain ⟨l7, e7⟩ := ifstream_read_good_inv _ _ _ g7
    simp only [e1, e2, e3, e4, e5, e6, e7] at g8
    obtain ⟨l8, e8⟩ := ifstream_read_good_inv _ _ _ g8
    simp only [e1, e2, e3, e4, e5, e6, e7, e8] at g9
    obtain ⟨l9, e9⟩ := ifstream_read_good_inv _ _ _ g9
    simp only [e1, e2, e3, e4, e5, e6, e7, e8, e9] at g10
    obtain ⟨l10, e10⟩ := ifstream_read_good_inv _ _ _ g10
    simp only [e1, e2, e3, e4, e5, e6, e7, e8, e9, e10] at g11
    obtain ⟨l11, e11⟩ := ifstream_read_good_inv _ _ _ g11
    simp only [e1, e2, e3, e4, e5, e6, e7, e8, e9, e10, e11, ifstream_seekg_cur_good] at g12
    obtain ⟨l12, e12⟩ := ifstream_read_good_inv _ _ _ g12
    simp only [e1, e2, e3, e4, e5, e6, e7, e8, e9, e10, e11, ifstream_seekg_cur_good, e12]
      at g13
    obtain ⟨l13, e13⟩ := ifstream_read_good_inv _ _ _ g13
    simp only [e1, e2, e3, e4, e5, e6, e7, e8, e9, e10, e11, ifstream_seekg_cur_good, e12, e13]
      at hgood c1 c2 c3
    obtain ⟨l14, _⟩ := ifstream_read_good_inv _ _ _ hgood
    clear hodd h g1 g2 g3 g4 g5 g6 g7 g8 g9 g10 g11 g12 g13 gs e1 e2 e3 e4 e5 e6 e7 e8 e9 e10 e11 e12 e13
    simp only [List.drop_drop, List.length_drop, ne_eq, not_or, not_not] at *
    norm_num at *
    refine ⟨c1.1, c1.2, c2, c3, ?_⟩
    omega

/-! ## Readers on foreign files (main.cpp 168-241) -/

/-- Evaluation of the fixed offsets of `get_wav_duration`: a well-formed PCM file
(mono, 16 bits, 44100 Hz) whose `fmt ` chunk declares 18 bytes, two more than
the 16 that are read, followed by a data chunk of the two samples 1 and 2.
`read_wav_file` skips the two bytes and returns the samples; `get_wav_duration`
takes the bytes at 40..43, which here are the end of the tag `data` and the
start of the data size, and returns 143546/44100 for a data chunk that lasts
2/44100 (claim C17). -/
theorem wav_duration_ignores_fmt_size :
    read_wav_file
      (some (tag_bytes "RIFF" ++ u32_bytes 42 ++ tag_bytes "WAVE" ++ tag_bytes "fmt " ++
        u32_bytes 18 ++ u16_bytes 1 ++ u16_bytes 1 ++ u32_bytes 44100 ++ u32_bytes 88200 ++
        u16_bytes 2 ++ u16_bytes 16 ++ [0, 0] ++ tag_bytes "data" ++ u32_bytes 4 ++
        [1, 0, 2, 0])) {} = .ok (some [1, 2]) ∧
    get_wav_duration
      (some (tag_bytes "RIFF" ++ u32_bytes 42 ++ tag_bytes "WAVE" ++ tag_bytes "fmt " ++
        u32_bytes 18 ++ u16_bytes 1 ++ u16_bytes 1 ++ u32_bytes 44100 ++ u32_bytes 88200 ++
        u16_bytes 2 ++ u16_bytes 16 ++ [0, 0] ++ tag_bytes "data" ++ u32_bytes 4 ++
        [1, 0, 2, 0])) = .ok (143546 / 44100) ∧
    ((4 / 2 : Nat) : ℚ) / 44100 ≠ 143546 / 44100 := by
  refine ⟨by decide, by decide!, by norm_num⟩

/-- The cases in which `get_wav_duration` does return zero: a file that cannot
be opened, a content shorter than 44 bytes, and a zero in the sample rate, the
channel count or the bits per sample. -/
theorem get_wav_duration_zero (bytes : List Nat) :
    get_wav_duration none = .ok 0 ∧
    (bytes.length < 44 → get_wav_duration (some bytes) = .ok 0) ∧
    (le_uint ((bytes.drop 24).take 4) = 0 ∨ le_uint ((bytes.drop 22).take 2) = 0 ∨
        le_uint ((bytes.drop 34).take 2) = 0 → get_wav_duration (some bytes) = .ok 0) := by
  refine ⟨rfl, fun h => ?_, fun h => ?_⟩
  · have hn : ¬ 44 ≤ bytes.length := by omega
    simp [get_wav_duration, ifstream_read, hn]
  · by_cases hn : 44 ≤ bytes.length
    · have e24 : ((bytes.take 44).drop 24).take 4 = (bytes.drop 24).take 4 := by
        rw [List.drop_take, List.take_take]; rfl
      have e22 : ((bytes.take 44).drop 22).take 2 = (bytes.drop 22).take 2 := by
        rw [List.drop_take, List.take_take]; rfl
      have e34 : ((bytes.take 44).drop 34).take 2 = (bytes.drop 34).take 2 := by
        rw [List.drop_take, List.take_take]; rfl
      rw [← e24, ← e22, ← e34] at h
      simp only [get_wav_duration, ifstream_read, hn]
      simp [h]
    · simp [get_wav_duration, ifstream_read, hn]

/-- Evaluation of `get_wav_duration` on headers that the claim C18 calls malformed.
The 44 bytes that `write_wav_file` puts before 44100 samples, with `S` for the
first letter of `RIFF`: `read_wav_file` returns false, `get_wav_duration`
returns 1 where the claim has 0. Moreover a header with 65535 channels of 65535
bits overflows the `int` product `channels * bits_per_sample`. -/
theorem wav_duration_ignores_tags :
    read_wav_file (some (83 :: (canonical_wav_header 88236 88200).tail)) {} = .ok none ∧
    (83 :: (canonical_wav_header 88236 88200).tail).take 4 ≠ tag_bytes "RIFF" ∧
    get_wav_duration (some (83 :: (canonical_wav_header 88236 88200).tail)) = .ok 1 ∧
    get_wav_duration
      (some (tag_bytes "RIFF" ++ u32_bytes 36 ++ tag_bytes "WAVE" ++ tag_bytes "fmt " ++
        u32_bytes 16 ++ u16_bytes 1 ++ u16_bytes 65535 ++ u32_bytes 44100 ++ u32_bytes 88200 ++
        u16_bytes 2 ++ u16_bytes 65535 ++ tag_bytes "data" ++ u32_bytes 0)) =
      .error .undefined_behaviour := by
  refine ⟨by decide, by decide, by decide!, by decide!⟩
/-! ## Decode errors (main.cpp 168-213, 352-367) -/

/-- After a `read_wav_file` that returned false, `start_playback` has set the
status label and returned: the state is that of the stop of the previous
playback, if there was one, with whatever the failed read left in the buffer. -/
theorem start_playback_read_failed (s : AppState) (note_index : Int) (env : PlaybackEnv)
    (hidx : ¬ (note_index < 0 ∨ note_index ≥ to_int s.notes.length))
    (hready : s.pa_ready = true)
    (hread : read_wav_file env.file env.locals = .ok none) :
    start_playback s note_index env =
      .ok ({ (if s.playing then stop_playback s else (s, [])).1 with
              playback_buffer := env.failed_read_buffer },
        (if s.playing then stop_playback s else (s, [])).2 ++
          [.gtk_label_set_text "Failed to read WAV file"]) := by
  unfold start_playback
  rw [if_neg hidx]
  simp only [hready, Bool.true_eq_false, if_false, hread]

/-- C19 (decode errors). `read_wav_file` returns false for every content in
which the tag `RIFF`, `WAVE`, `fmt ` or `data` is wrong (the last looked for
after the declared size of the fmt chunk) or which holds fewer bytes after the
data size than that size declares. Whenever `read_wav_file` returns false in
`start_playback`, playback is not started: `playing` is false, neither
`pa_stream_new` nor `pa_stream_connect_playback` is called, the stream slot is
empty if it was, and `playing_note_index` is -1 if it was. -/
theorem decode_errors (bytes : List Nat) (locals : WavLocals)
    (hbad : bytes.take 4 ≠ tag_bytes "RIFF" ∨
      (bytes.drop 8).take 4 ≠ tag_bytes "WAVE" ∨
      (bytes.drop 12).take 4 ≠ tag_bytes "fmt " ∨
      (bytes.drop (36 + (le_uint ((bytes.drop 16).take 4) - 16))).take 4 ≠ tag_bytes "data" ∨
      bytes.length <
        36 + (le_uint ((bytes.drop 16).take 4) - 16) + 8 +
          le_uint ((bytes.drop (36 + (le_uint ((bytes.drop 16).take 4) - 16) + 4)).take 4)) :
    read_wav_file (some bytes) locals = .ok none ∧
    ∀ (s : AppState) (note_index : Int) (env : PlaybackEnv),
      ¬ (note_index < 0 ∨ note_index ≥ to_int s.notes.length) → s.pa_ready = true →
      read_wav_file env.file env.locals = .ok none →
      ∃ r, start_playback s note_index env = .ok r ∧
        r.1.playing = false ∧
        (∀ name, Effect.pa_stream_new name ∉ r.2) ∧
        (∀ handle, Effect.pa_stream_connect_playback handle ∉ r.2) ∧
        (s.playback_stream = none → r.1.playback_stream = none) ∧
        (s.playing = true → r.1.playback_stream = none ∧ r.1.playing_note_index = -1) ∧
        (s.playing = false → r.1.playback_stream = s.playback_stream ∧
          r.1.playing_note_index = s.playing_note_index) ∧
        (s.playing_note_index = -1 → r.1.playing_note_index = -1) := by
  constructor
  · by_contra h
    obtain ⟨h1, h2, h3, h4, h5⟩ := read_wav_file_not_false bytes locals h
    rcases hbad with hb | hb | hb | hb | hb
    · exact hb h1
    · exact hb h2
    · exact hb h3
    · exact hb h4
    · omega
  · intro s note_index env hidx hready hread
    refine ⟨_, start_playback_read_failed s note_index env hidx hready hread, ?_⟩
    cases hp : s.playing <;> cases hs : s.playback_stream <;>
      simp [stop_playback, hp, hs]

/-- Witness of `decode_errors`: the file written for the samples 1 and 2, cut
two bytes short, is refused, and a click on the only note leaves the idle state
as it was, with the label set. -/
theorem decode_errors_witness :
    (write_wav_file [1, 2]).take 46 =
      [82, 73, 70, 70, 40, 0, 0, 0, 87, 65, 86, 69, 102, 109, 116, 32, 16, 0, 0, 0, 1, 0, 1, 0,
        68, 172, 0, 0, 136, 88, 1, 0, 2, 0, 16, 0, 100, 97, 116, 97, 4, 0, 0, 0, 1, 0] ∧
    read_wav_file (some ((write_wav_file [1, 2]).take 46)) {} = .ok none ∧
    ∃ r, start_playback
        { notes := [{ filepath := "a.wav", display_name := "a" }], pa_ready := true } 0
        { file := some ((write_wav_file [1, 2]).take 46), locals := {},
          failed_read_buffer := [1, 0], new_stream := some 7, connect_playback_ok := true } =
          .ok r ∧
      r.1.playing = false ∧ r.1.playback_stream = none ∧ r.1.playing_note_index = -1 ∧
      r.2 = [.gtk_label_set_text "Failed to read WAV file"] := by
  have h := decode_errors ((write_wav_file [1, 2]).take 46) {} (by decide)
  refine ⟨by decide, h.1, ?_⟩
  obtain ⟨r, hr, hplay, _, _, hstream, _, hidle, hindex⟩ :=
    h.2 { notes := [{ filepath := "a.wav", display_name := "a" }], pa_ready := true } 0
      { file := some ((write_wav_file [1, 2]).take 46), locals := {},
        failed_read_buffer := [1, 0], new_stream := some 7, connect_playback_ok := true }
      (by decide) rfl h.1
  refine ⟨r, hr, hplay, hstream rfl, hindex rfl, ?_⟩
  rw [start_playback_read_failed _ _ _ (by decide) rfl h.1] at hr
  cases hr
  rfl

/-! ## Socket closure (main.cpp 513-526) -/

/-- C21 (socket closure). `on_ws_closed` releases the session: afterwards
`ws_conn` is null and `ws_ready` is false. If `dictating` was true the
dictation is ended: `dictating` is false, the dictation buffer is empty, no
flush is scheduled (a scheduled one is removed) and the capture stream is
released (disconnected, unreferenced, slot emptied). If `dictating` was false,
as during a note recording, nothing but `ws_conn` and `ws_ready` changes; in
every case `recording`, the capture buffer and the live transcript are left
as they were. -/
theorem on_ws_closed_releases (s : AppState) :
    (on_ws_closed s).1.ws_conn = none ∧ (on_ws_closed s).1.ws_ready = false ∧
    (s.dictating = true →
      (on_ws_closed s).1.dictating = false ∧ (on_ws_closed s).1.dictation_buffer = "" ∧
      (on_ws_closed s).1.dictation_flush_id = 0 ∧ (on_ws_closed s).1.stream = none ∧
      (s.dictation_flush_id ≠ 0 → Effect.g_source_remove s.dictation_flush_id ∈ (on_ws_closed s).2) ∧
      (∀ handle, s.stream = some handle →
        List.Sublist [Effect.pa_stream_disconnect handle, Effect.pa_stream_unref handle]
          (on_ws_closed s).2)) ∧
    (s.dictating = false →
      (on_ws_closed s).1 = { s with ws_conn := none, ws_ready := false }) ∧
    (on_ws_closed s).1.recording = s.recording ∧
    (on_ws_closed s).1.audio_buffer = s.audio_buffer ∧
    (on_ws_closed s).1.live_transcription = s.live_transcription := by
  cases hd : s.dictating <;> cases hs : s.stream <;> cases hc : s.ws_conn <;>
    by_cases hf : s.dictation_flush_id = 0 <;>
    simp [on_ws_closed, stop_dictation, ws_disconnect, hd, hs, hc, hf]
/-! ## Dictation start (main.cpp 1323-1382, 1475-1494) -/

/-- C22 (no injection backend). If `detect_typing_tool` returns `NONE`, or it
returns `XDO` and `xdo_new` gives no handle, `start_dictation` returns before a
stream or a socket is opened: `dictating`, the capture stream slot and the
session fields are as before, and neither `pa_stream_new`,
`pa_stream_connect_record` nor the connect call of `ws_connect` is made. In
particular from an idle state `dictating` stays false and the slot stays
empty. `detect_typing_tool` returns `NONE` exactly when the session is Wayland
and the three probes failed; in general it returns the first usable backend in
the order XDO (used whenever the session is not Wayland), wtype, ydotool,
xdotool. -/
theorem start_dictation_without_backend (s : AppState) (env : DictationEnv)
    (h : detect_typing_tool env = .NONE ∨ (detect_typing_tool env = .XDO ∧ env.xdo_new = none)) :
    (start_dictation s env).1.dictating = s.dictating ∧
    (start_dictation s env).1.stream = s.stream ∧
    (start_dictation s env).1.ws_conn = s.ws_conn ∧
    (start_dictation s env).1.ws_ready = s.ws_ready ∧
    (start_dictation s env).1.resample_phase = s.resample_phase ∧
    (∀ name, Effect.pa_stream_new name ∉ (start_dictation s env).2) ∧
    (∀ handle, Effect.pa_stream_connect_record handle ∉ (start_dictation s env).2) ∧
    Effect.soup_session_websocket_connect_async ∉ (start_dictation s env).2 ∧
    (s.dictating = false → (start_dictation s env).1.dictating = false) ∧
    (s.stream = none → (start_dictation s env).1.stream = none) ∧
    (detect_typing_tool env = .NONE ↔
      env.wayland = true ∧ env.wtype_ok = false ∧ env.ydotool_ok = false ∧
        env.xdotool_ok = false) ∧
    detect_typing_tool env =
      first_usable [(.XDO, !env.wayland), (.WTYPE, env.wtype_ok), (.YDOTOOL, env.ydotool_ok),
        (.XDOTOOL, env.xdotool_ok)] := by
  have hdet : (detect_typing_tool env = .NONE ↔
      env.wayland = true ∧ env.wtype_ok = false ∧ env.ydotool_ok = false ∧
        env.xdotool_ok = false) ∧
    detect_typing_tool env =
      first_usable [(.XDO, !env.wayland), (.WTYPE, env.wtype_ok), (.YDOTOOL, env.ydotool_ok),
        (.XDOTOOL, env.xdotool_ok)] := by
    cases hw : env.wayland <;> cases h1 : env.wtype_ok <;> cases h2 : env.ydotool_ok <;>
      cases h3 : env.xdotool_ok <;> simp [detect_typing_tool, first_usable, hw, h1, h2, h3]
  have hstate : start_dictation s env = (s, []) ∨
      start_dictation s env =
        ({ s with typing_tool := .NONE },
          [.g_warning "No working typing tool found — cannot start dictation"]) ∨
      start_dictation s env =
        ({ s with typing_tool := .NONE, xdo := none }, [.g_warning "Failed to create xdo handle"]) := by
    unfold start_dictation
    by_cases g1 : s.transcription_available = false ∨ s.dictating = true
    · left; rw [if_pos g1]
    · rw [if_neg g1]
      by_cases g2 : s.pa_ready = false
      · left; rw [if_pos g2]
      · rw [if_neg g2]
        by_cases g3 : s.recording = true
        · left; rw [if_pos g3]
        · rw [if_neg g3]
          right
          rcases h with h | ⟨h, hx⟩
          · left; simp [h]
          · right; simp [h, hx]
  refine ⟨?_, ?_, ?_, ?_, ?_, ?_, ?_, ?_, ?_, ?_, hdet.1, hdet.2⟩ <;>
    rcases hstate with e | e | e <;> simp [e]

/-- Witness of `start_dictation_without_backend`: a Wayland session in which
the probes of wtype, ydotool and xdotool all fail. -/
theorem start_dictation_without_backend_witness :
    detect_typing_tool ⟨true, false, false, false, some 1, some 2, true⟩ = .NONE ∧
    (start_dictation { transcription_available := true, pa_ready := true }
      ⟨true, false, false, false, some 1, some 2, true⟩).1.dictating = false ∧
    (start_dictation { transcription_available := true, pa_ready := true }
      ⟨true, false, false, false, some 1, some 2, true⟩).1.stream = none ∧
    Effect.soup_session_websocket_connect_async ∉
      (start_dictation { transcription_available := true, pa_ready := true }
        ⟨true, false, false, false, some 1, some 2, true⟩).2 :=
  ⟨by decide,
    (start_dictation_without_backend { transcription_available := true, pa_ready := true }
      ⟨true, false, false, false, some 1, some 2, true⟩ (Or.inl (by decide))).1,
    (start_dictation_without_backend { transcription_available := true, pa_ready := true }
      ⟨true, false, false, false, some 1, some 2, true⟩ (Or.inl (by decide))).2.1,
    (start_dictation_without_backend { transcription_available := true, pa_ready := true }
      ⟨true, false, false, false, some 1, some 2, true⟩ (Or.inl (by decide))).2.2.2.2.2.2.2.1⟩

/-- C23 (dictation start guards). `start_dictation` called while a note
recording is active, or while already dictating, makes no call and leaves the
whole state as it was: no probe of the backends, no stream, no socket, and the
resampler phase untouched. -/
theorem start_dictation_guards (s : AppState) (env : DictationEnv)
    (h : s.recording = true ∨ s.dictating = true) :
    start_dictation s env = (s, []) := by
  unfold start_dictation
  by_cases g1 : s.transcription_available = false ∨ s.dictating = true
  · rw [if_pos g1]
  · rw [if_neg g1]
    by_cases g2 : s.pa_ready = false
    · rw [if_pos g2]
    · rw [if_neg g2]
      have g3 : s.recording = true := by
        rcases h with h | h
        · exact h
        · exact absurd (Or.inr h) g1
      rw [if_pos g3]

/-- Witness of `start_dictation_guards`: a recording in progress, in a state in
which every other condition of a dictation start is met. -/
theorem start_dictation_guards_witness :
    start_dictation
      { transcription_available := true, pa_ready := true, recording := true, stream := some 1 }
      ⟨false, false, false, false, some 1, some 2, true⟩ =
      ({ transcription_available := true, pa_ready := true, recording := true, stream := some 1 },
        []) :=
  start_dictation_guards
    { transcription_available := true, pa_ready := true, recording := true, stream := some 1 }
    ⟨false, false, false, false, some 1, some 2, true⟩ (Or.inl rfl)
/-! ## Capture and playback exclusivity (main.cpp 352-407, 786-801, 1110-1132) -/

theorem ws_disconnect_flags (s : AppState) :
    (ws_disconnect s).1.recording = s.recording ∧ (ws_disconnect s).1.playing = s.playing ∧
    (ws_disconnect s).1.dictating = s.dictating ∧ (ws_disconnect s).1.stream = s.stream := by
  unfold ws_disconnect
  cases hc : s.ws_conn with
  | none => simp
  | some c => cases c <;> simp

theorem ws_connect_flags (s : AppState) :
    (ws_connect s).1.recording = s.recording ∧ (ws_connect s).1.playing = s.playing ∧
    (ws_connect s).1.dictating = s.dictating ∧ (ws_connect s).1.stream = s.stream := by
  unfold ws_connect
  split_ifs <;> simp

theorem stop_dictation_flags (s : AppState) :
    (stop_dictation s).1.recording = s.recording ∧ (stop_dictation s).1.playing = s.playing := by
  unfold stop_dictation
  split_ifs
  · simp
  · simp only
    exact ⟨(ws_disconnect_flags _).1, (ws_disconnect_flags _).2.1⟩

theorem start_dictation_flags (s : AppState) (env : DictationEnv) :
    (start_dictation s env).1.recording = s.recording ∧
    (start_dictation s env).1.playing = s.playing := by
  unfold start_dictation
  split
  · exact ⟨rfl, rfl⟩
  split
  · exact ⟨rfl, rfl⟩
  split
  · exact ⟨rfl, rfl⟩
  simp only
  split
  · exact ⟨rfl, rfl⟩
  split
  · exact ⟨rfl, rfl⟩
  split
  · refine ⟨(stop_dictation_flags _).1.trans ?_, (stop_dictation_flags _).2.trans ?_⟩ <;>
      split_ifs <;> rfl
  · split
    · refine ⟨(stop_dictation_flags _).1.trans ?_, (stop_dictation_flags _).2.trans ?_⟩ <;>
        split_ifs <;> rfl
    · refine ⟨(ws_connect_flags _).1.trans ?_, (ws_connect_flags _).2.1.trans ?_⟩ <;>
        split_ifs <;> rfl

theorem type_text_flags (s : AppState) (text : Option String) (idle_id : ℕ+) :
    (type_text s text idle_id).1.recording = s.recording ∧
    (type_text s text idle_id).1.playing = s.playing := by
  unfold type_text
  cases text with
  | none => exact ⟨rfl, rfl⟩
  | some t => simp only; split_ifs <;> exact ⟨rfl, rfl⟩

theorem on_ws_message_flags (s : AppState) (message : Option JsonObject) (idle_id : ℕ+) :
    (on_ws_message s message idle_id).1.recording = s.recording ∧
    (on_ws_message s message idle_id).1.playing = s.playing := by
  unfold on_ws_message
  cases message with
  | none => exact ⟨rfl, rfl⟩
  | some obj =>
    simp only
    split
    · exact ⟨rfl, rfl⟩
    split
    · exact ⟨rfl, rfl⟩
    split
    · split
      · split
        · exact type_text_flags _ _ _
        · split <;> exact ⟨rfl, rfl⟩
      · exact ⟨rfl, rfl⟩
    split
    · exact ⟨(ws_disconnect_flags _).1, (ws_disconnect_flags _).2.1⟩
    · exact ⟨rfl, rfl⟩

theorem flush_dictation_buffer_flags (s : AppState) :
    (flush_dictation_buffer s).1.recording = s.recording ∧
    (flush_dictation_buffer s).1.playing = s.playing := by
  unfold flush_dictation_buffer
  simp only
  split_ifs
  · exact ⟨rfl, rfl⟩
  · cases s.typing_tool <;> cases s.xdo <;> exact ⟨rfl, rfl⟩

theorem on_ws_closed_flags (s : AppState) :
    (on_ws_closed s).1.recording = s.recording ∧ (on_ws_closed s).1.playing = s.playing := by
  unfold on_ws_closed
  simp only
  split_ifs
  · simp only [(stop_dictation_flags _).1, (stop_dictation_flags _).2]; simp
  · exact ⟨rfl, rfl⟩

theorem on_ws_connect_complete_flags (s : AppState) (error : Option String) :
    (on_ws_connect_complete s error).1.recording = s.recording ∧
    (on_ws_connect_complete s error).1.playing = s.playing := by
  unfold on_ws_connect_complete
  cases error with
  | none => exact ⟨rfl, rfl⟩
  | some m =>
    simp only
    split_ifs
    · exact stop_dictation_flags s
    · exact ⟨rfl, rfl⟩

theorem ws_send_audio_flags (s : AppState) (samples : List Int) (r : AppState × List Effect)
    (h : ws_send_audio s samples = .ok r) :
    r.1.recording = s.recording ∧ r.1.playing = s.playing ∧
    r.1.audio_buffer = s.audio_buffer := by
  have hf := ws_send_audio_frame_condition s r.1 samples r.2 h
  rw [hf]
  exact ⟨rfl, rfl, rfl⟩

theorem on_stream_read_fragment_flags (s : AppState) (data : Option (List Int))
    (r : AppState × List Effect) (h : on_stream_read_fragment s data = .ok r) :
    r.1.recording = s.recording ∧ r.1.playing = s.playing ∧
    r.1.audio_buffer = s.audio_buffer ++ (data.getD []) := by
  unfold on_stream_read_fragment at h
  cases data with
  | none =>
    simp only [Except.ok.injEq] at h
    subst h
    simp
  | some samples =>
    simp only at h
    split at h
    · cases h
    · rename_i s2 sent hsend
      obtain ⟨h1, h2, h3⟩ := ws_send_audio_flags _ _ _ hsend
      simp only [Except.ok.injEq] at h
      subst h
      simp only at h1 h2 h3
      split_ifs <;> simp [h1, h2, h3]

theorem on_stream_read_flags (fragments : List (Option (List Int))) :
    ∀ (s : AppState) (r : AppState × List Effect), on_stream_read s fragments = .ok r →
      r.1.recording = s.recording ∧ r.1.playing = s.playing ∧
      r.1.audio_buffer = s.audio_buffer ++ delivered_samples fragments := by
  induction fragments with
  | nil =>
    intro s r h
    simp only [on_stream_read, Except.ok.injEq] at h
    subst h
    simp [delivered_samples]
  | cons data rest ih =>
    intro s r h
    rw [on_stream_read] at h
    split at h
    · cases h
    · rename_i s1 fx h1
      split at h
      · cases h
      · rename_i s2 fx2 h2
        simp only [Except.ok.injEq] at h
        subst h
        obtain ⟨a1, a2, a3⟩ := on_stream_read_fragment_flags _ _ _ h1
        obtain ⟨b1, b2, b3⟩ := ih _ _ h2
        simp only at a1 a2 a3 b1 b2 b3 ⊢
        refine ⟨b1.trans a1, b2.trans a2, ?_⟩
        rw [b3, a3]
        cases data <;> simp [delivered_samples]

theorem on_dictation_stream_read_flags (fragments : List (Option (List Int))) :
    ∀ (s : AppState) (r : AppState × List Effect), on_dictation_stream_read s fragments = .ok r →
      r.1.recording = s.recording ∧ r.1.playing = s.playing := by
  induction fragments with
  | nil =>
    intro s r h
    simp only [on_dictation_stream_read, Except.ok.injEq] at h
    subst h
    exact ⟨rfl, rfl⟩
  | cons data rest ih =>
    intro s r h
    cases data with
    | none =>
      rw [on_dictation_stream_read] at h
      exact ih _ _ h
    | some samples =>
      rw [on_dictation_stream_read] at h
      split at h
      · cases h
      · rename_i s1 fx h1
        split at h
        · cases h
        · rename_i s2 fx2 h2
          simp only [Except.ok.injEq] at h
          subst h
          obtain ⟨a1, a2, _⟩ := ws_send_audio_flags _ _ _ h1
          obtain ⟨b1, b2⟩ := ih _ _ h2
          exact ⟨b1.trans a1, b2.trans a2⟩

theorem stop_playback_flags (s : AppState) :
    (stop_playback s).1.recording = s.recording ∧ (stop_playback s).1.playing = false := by
  simp [stop_playback]

theorem stopped_recording (s : AppState) :
    (if s.playing = true then stop_playback s else (s, [])).1.recording = s.recording := by
  split
  · exact (stop_playback_flags s).1
  · rfl

theorem start_playback_flags (s : AppState) (note_index : Int) (env : PlaybackEnv)
    (r : AppState × List Effect) (h : start_playback s note_index env = .ok r) :
    r.1.recording = s.recording := by
  unfold start_playback at h
  split at h
  · cases h; rfl
  split at h
  · cases h; rfl
  simp only at h
  split at h
  · cases h
  · cases h
    exact stopped_recording s
  · split at h
    · cases h
      exact stopped_recording s
    · split at h
      · cases h
        exact stopped_recording s
      · cases h
        exact stopped_recording s

theorem stop_recording_flags (s : AppState) :
    (stop_recording s).1.recording = false ∧ (stop_recording s).1.playing = s.playing ∧
    (stop_recording s).1.stream = none ∧ (stop_recording s).1.current_level = 0 ∧
    (stop_recording s).1.audio_buffer = s.audio_buffer := by
  unfold stop_recording ws_disconnect
  cases hc : s.ws_conn with
  | none => simp
  | some c => cases c <;> simp

theorem start_recording_playing (s : AppState) (env : RecordEnv) :
    (start_recording s env).1.playing = s.playing := by
  unfold start_recording
  split
  · rfl
  · split_ifs
    · rfl
    · simp only [(ws_connect_flags _).2.1]

/-- A record toggle leaves no playback active next to a recording. -/
theorem on_record_toggled_exclusive (s : AppState) (env : RecordEnv) :
    ((on_record_toggled s env).1.recording = true → (on_record_toggled s env).1.playing = false) ∧
    (s.recording = false → (on_record_toggled s env).1.playing = false) := by
  unfold on_record_toggled
  cases hr : s.recording with
  | true =>
    simp only [if_true]
    refine ⟨fun h => ?_, fun h => by cases h⟩
    rw [(stop_recording_flags s).1] at h
    cases h
  | false =>
    simp only [Bool.false_eq_true, if_false, start_recording_playing]
    have hp : (if env.save_discard_visible = true then
          (({ (if s.playing = true then stop_playback s else (s, [])).1 with
              audio_buffer := [], live_transcription := "" } : AppState),
            (match (if s.playing = true then stop_playback s else (s, [])).1.live_transcription_label with
              | some _ =>
                [Effect.gtk_widget_hide "live_transcription_label",
                  Effect.gtk_widget_set_no_show_all "live_transcription_label" true]
              | none => []) ++
            [Effect.gtk_widget_hide "save_discard_box",
              Effect.gtk_widget_set_no_show_all "save_discard_box" true])
        else ((if s.playing = true then stop_playback s else (s, [])).1, [])).1.playing = false := by
      cases hq : s.playing <;> cases env.save_discard_visible <;> simp [stop_playback, hq]
    exact ⟨fun _ => hp, fun _ => hp⟩
theorem on_playback_write_flags (s : AppState) (nbytes : Nat) :
    (on_playback_write s nbytes).1.recording = s.recording ∧
    (on_playback_write s nbytes).1.playing = s.playing := by
  unfold on_playback_write
  split <;> exact ⟨rfl, rfl⟩

theorem on_play_clicked_exclusive (s : AppState) (note_index : Int) (env : PlaybackEnv)
    (r : AppState × List Effect) (h : on_play_clicked s note_index env = .ok r)
    (hs : ¬ (s.recording = true ∧ s.playing = true)) :
    ¬ (r.1.recording = true ∧ r.1.playing = true) := by
  unfold on_play_clicked at h
  split at h
  · cases h; exact hs
  · rename_i hrec
    split at h
    · cases h
      rw [(stop_playback_flags s).2]
      simp
    · rw [start_playback_flags s note_index env r h]
      exact fun hh => hrec hh.1

/-- Every handler keeps recording and playing from being true together. -/
theorem app_step_exclusive (s : AppState) (e : AppEvent) (r : AppState × List Effect)
    (h : app_step s e = .ok r) (hs : ¬ (s.recording = true ∧ s.playing = true)) :
    ¬ (r.1.recording = true ∧ r.1.playing = true) := by
  cases e with
  | record_toggled env =>
    simp only [app_step, Except.ok.injEq] at h
    subst h
    intro hh
    have := (on_record_toggled_exclusive s env).1 hh.1
    rw [this] at hh
    exact absurd hh.2 (by simp)
  | play_clicked note_index env => exact on_play_clicked_exclusive s note_index env r h hs
  | playback_write nbytes =>
    simp only [app_step, Except.ok.injEq] at h
    subst h
    rw [(on_playback_write_flags s nbytes).1, (on_playback_write_flags s nbytes).2]
    exact hs
  | playback_drain_complete =>
    simp only [app_step, Except.ok.injEq] at h
    subst h
    simp [on_playback_drain_complete, (stop_playback_flags s).2]
  | playback_stream_state failed error =>
    simp only [app_step, Except.ok.injEq] at h
    subst h
    cases failed
    · simpa [on_playback_stream_state] using hs
    · simp [on_playback_stream_state, (stop_playback_flags s).2]
  | stream_read fragments =>
    obtain ⟨h1, h2, _⟩ := on_stream_read_flags fragments s r h
    rw [h1, h2]; exact hs
  | stream_state failed error =>
    simp only [app_step, Except.ok.injEq] at h
    subst h
    cases failed
    · simpa [on_stream_state] using hs
    · simp [on_stream_state]
  | hotkey_pressed env =>
    simp only [app_step, Except.ok.injEq] at h
    subst h
    unfold on_hotkey_pressed
    split
    · rw [(stop_dictation_flags s).1, (stop_dictation_flags s).2]; exact hs
    · rw [(start_dictation_flags s env).1, (start_dictation_flags s env).2]; exact hs
  | dictation_stream_read fragments =>
    obtain ⟨h1, h2⟩ := on_dictation_stream_read_flags fragments s r h
    rw [h1, h2]; exact hs
  | dictation_stream_state failed error =>
    simp only [app_step, Except.ok.injEq] at h
    subst h
    cases failed
    · simpa [on_dictation_stream_state] using hs
    · simp only [on_dictation_stream_state, if_true, (stop_dictation_flags s).1,
        (stop_dictation_flags s).2]
      exact hs
  | ws_connect_complete error =>
    simp only [app_step, Except.ok.injEq] at h
    subst h
    rw [(on_ws_connect_complete_flags s error).1, (on_ws_connect_complete_flags s error).2]
    exact hs
  | ws_message message idle_id =>
    simp only [app_step, Except.ok.injEq] at h
    subst h
    rw [(on_ws_message_flags s message idle_id).1, (on_ws_message_flags s message idle_id).2]
    exact hs
  | ws_closed =>
    simp only [app_step, Except.ok.injEq] at h
    subst h
    rw [(on_ws_closed_flags s).1, (on_ws_closed_flags s).2]
    exact hs
  | idle_flush =>
    simp only [app_step, Except.ok.injEq] at h
    subst h
    rw [(flush_dictation_buffer_flags s).1, (flush_dictation_buffer_flags s).2]
    exact hs

theorem app_run_exclusive (events : List AppEvent) :
    ∀ (s : AppState) (r : AppState × List Effect), app_run s events = .ok r →
      ¬ (s.recording = true ∧ s.playing = true) → ¬ (r.1.recording = true ∧ r.1.playing = true) := by
  induction events with
  | nil =>
    intro s r h hs
    simp only [app_run, Except.ok.injEq] at h
    subst h
    exact hs
  | cons e rest ih =>
    intro s r h hs
    rw [app_run] at h
    split at h
    · cases h
    · rename_i s1 fx h1
      split at h
      · cases h
      · rename_i s2 fx2 h2
        simp only [Except.ok.injEq] at h
        subst h
        exact ih s1 (s2, fx2) h2 (app_step_exclusive s e (s1, fx) h1 hs)

/-- C24 (capture and playback exclusivity). From a state in which recording and
playing are not both true, as the initial state, every state that a sequence of
handlers returns (record toggle, play click, the callbacks of the playback and
of the capture stream, device failures, and the dictation and socket handlers
besides) has recording and playing not both true. A record toggle in a state
that is playing and not recording runs `stop_playback` before
`start_recording`: the calls of `stop_playback` come first, and
`start_recording` runs in a state in which `playing` is false and the playback
stream is released. -/
theorem capture_playback_exclusive (init : AppState) (events : List AppEvent)
    (s : AppState) (fx : List Effect)
    (hinit : ¬ (init.recording = true ∧ init.playing = true))
    (hrun : app_run init events = .ok (s, fx)) :
    ¬ (s.recording = true ∧ s.playing = true) ∧
    ∀ (t : AppState) (env : RecordEnv), t.recording = false → t.playing = true →
      ∃ (t1 : AppState) (mid : List Effect),
        on_record_toggled t env =
          ((start_recording t1 env).1, (stop_playback t).2 ++ mid ++ (start_recording t1 env).2) ∧
        t1.playing = false ∧ t1.playback_stream = none ∧
        (on_record_toggled t env).1.playing = false ∧
        (on_record_toggled t env).1.playback_stream = none := by
  refine ⟨app_run_exclusive events init (s, fx) hrun hinit, ?_⟩
  intro t env hr hp
  have hps : ∀ u : AppState, (start_recording u env).1.playback_stream = u.playback_stream := by
    intro u
    have hws : ∀ v : AppState, (ws_connect v).1.playback_stream = v.playback_stream := by
      intro v
      unfold ws_connect
      split_ifs <;> rfl
    unfold start_recording
    split
    · rfl
    · split
      · rfl
      · simp only [hws]
  unfold on_record_toggled
  simp only [hr, hp, Bool.false_eq_true, if_false, if_true]
  refine ⟨_, _, rfl, ?_, ?_, ?_, ?_⟩
  · cases env.save_discard_visible <;> simp [stop_playback]
  · cases env.save_discard_visible <;> simp [stop_playback]
  · rw [start_recording_playing]
    cases env.save_discard_visible <;> simp [stop_playback]
  · rw [hps]
    cases env.save_discard_visible <;> simp [stop_playback]
/-- Witness of `capture_playback_exclusive`: the only note is played, then the
record button is pressed; the playback is stopped and the recording runs. -/
theorem capture_playback_exclusive_witness :
    app_run { pa_ready := true, notes := [{ filepath := "a.wav", display_name := "a" }] }
        [.play_clicked 0
            { file := some (write_wav_file [1, 2]), locals := {}, failed_read_buffer := [],
              new_stream := some 7, connect_playback_ok := true },
          .record_toggled ⟨false, some 3, true⟩] =
      .ok ({ pa_ready := true, notes := [{ filepath := "a.wav", display_name := "a" }],
             stream := some 3, recording := true },
        [.pa_stream_new "linscribe-playback", .pa_stream_connect_playback 7,
          .gtk_label_set_c_string (playing_label "a"), .refresh_notes_list,
          .pa_stream_disconnect 7, .pa_stream_unref 7, .gtk_label_set_text "Ready",
          .refresh_notes_list,
          .pa_stream_new "linscribe-record", .pa_stream_connect_record 3,
          .gtk_button_set_label "Stop", .gtk_label_set_text "Recording..."]) ∧
    ¬ (({ pa_ready := true, notes := [{ filepath := "a.wav", display_name := "a" }],
          stream := some 3, recording := true } : AppState).recording = true ∧
      ({ pa_ready := true, notes := [{ filepath := "a.wav", display_name := "a" }],
          stream := some 3, recording := true } : AppState).playing = true) :=
  have hrun : app_run { pa_ready := true, notes := [{ filepath := "a.wav", display_name := "a" }] }
        [.play_clicked 0
            { file := some (write_wav_file [1, 2]), locals := {}, failed_read_buffer := [],
              new_stream := some 7, connect_playback_ok := true },
          .record_toggled ⟨false, some 3, true⟩] =
      .ok ({ pa_ready := true, notes := [{ filepath := "a.wav", display_name := "a" }],
             stream := some 3, recording := true },
        [.pa_stream_new "linscribe-playback", .pa_stream_connect_playback 7,
          .gtk_label_set_c_string (playing_label "a"), .refresh_notes_list,
          .pa_stream_disconnect 7, .pa_stream_unref 7, .gtk_label_set_text "Ready",
          .refresh_notes_list,
          .pa_stream_new "linscribe-record", .pa_stream_connect_record 3,
          .gtk_button_set_label "Stop", .gtk_label_set_text "Recording..."]) := by decide!
  ⟨hrun, (capture_playback_exclusive _ _ _ _ (by decide) hrun).1⟩

/-! ## Input slot (main.cpp 652-702, 1110-1132, 1475-1548) -/

/-- C25 (input slot exclusivity), evaluated on the code. With a key configured
and PulseAudio ready, the dictation hotkey starts a dictation on an X11
session: `dictating` is true and the slot holds the stream 2. A press on the
record button then runs `start_recording`, which stores the new stream 3 in
the same slot: recording and dictating are both true, and the stream 2 is
neither disconnected nor unreferenced. Nothing stopped the dictation. -/
theorem record_toggle_overwrites_dictation_stream :
    app_run { transcription_available := true, pa_ready := true }
        [.hotkey_pressed ⟨false, false, false, false, some 1, some 2, true⟩] =
      .ok ({ transcription_available := true, pa_ready := true, typing_tool := .XDO,
             xdo := some 1, dictating := true, stream := some 2 },
        [.pa_stream_new "linscribe-dictation", .pa_stream_connect_record 2,
          .soup_session_websocket_connect_async]) ∧
    app_run { transcription_available := true, pa_ready := true }
        [.hotkey_pressed ⟨false, false, false, false, some 1, some 2, true⟩,
          .record_toggled ⟨false, some 3, true⟩] =
      .ok ({ transcription_available := true, pa_ready := true, typing_tool := .XDO,
             xdo := some 1, dictating := true, stream := some 3, recording := true },
        [.pa_stream_new "linscribe-dictation", .pa_stream_connect_record 2,
          .soup_session_websocket_connect_async,
          .pa_stream_new "linscribe-record", .pa_stream_connect_record 3,
          .gtk_button_set_label "Stop", .gtk_label_set_text "Recording...",
          .soup_session_websocket_connect_async]) ∧
    (on_record_toggled
      { transcription_available := true, pa_ready := true, typing_tool := .XDO,
        xdo := some 1, dictating := true, stream := some 2 } ⟨false, some 3, true⟩).1.dictating =
      true ∧
    Effect.pa_stream_unref 2 ∉
      (on_record_toggled
        { transcription_available := true, pa_ready := true, typing_tool := .XDO,
          xdo := some 1, dictating := true, stream := some 2 } ⟨false, some 3, true⟩).2 := by
  decide!

/-! ## Device failure during capture (main.cpp 636-648, 704-715) -/

/-- C26 (device failure during capture), evaluated on the code. In a recording
that holds the stream 3, a failure reported to `on_stream_state` sets
`recording` to false and the level to 0, and leaves `state.stream` holding the
stream 3, which it neither disconnects nor unreferences; `stop_recording` in
the same state disconnects and unreferences the stream and empties the slot. -/
theorem on_stream_state_keeps_stream :
    on_stream_state
        { pa_ready := true, recording := true, stream := some 3, current_level := 1 / 2,
          audio_buffer := [1, 2] } true "Connection terminated" =
      ({ pa_ready := true, recording := false, stream := some 3, current_level := 0,
         audio_buffer := [1, 2] },
        [.g_warning "PulseAudio stream failed: Connection terminated",
          .gtk_button_set_label "Record", .gtk_label_set_text "Stream error",
          .gtk_level_bar_set_value 0]) ∧
    (on_stream_state
        { pa_ready := true, recording := true, stream := some 3, current_level := 1 / 2,
          audio_buffer := [1, 2] } true "Connection terminated").1.stream ≠ none ∧
    (stop_recording
        { pa_ready := true, recording := true, stream := some 3, current_level := 1 / 2,
          audio_buffer := [1, 2] }).1 =
      { pa_ready := true, recording := false, stream := none, current_level := 0,
        audio_buffer := [1, 2] } ∧
    (stop_recording
        { pa_ready := true, recording := true, stream := some 3, current_level := 1 / 2,
          audio_buffer := [1, 2] }).2.take 2 =
      [.pa_stream_disconnect 3, .pa_stream_unref 3] := by
  decide!

/-- What `on_stream_state` does establish on a failure, in every state:
`recording` is false and the level is 0; the stream slot is left as it was. -/
theorem on_stream_state_failed (s : AppState) (error : String) :
    (on_stream_state s true error).1.recording = false ∧
    (on_stream_state s true error).1.current_level = 0 ∧
    (on_stream_state s true error).1.stream = s.stream := by
  simp [on_stream_state]

/-! ## Frames after a close (main.cpp 481-482, 550-581) -/

/-- C28 (no frames after close), evaluated on the code. A recording streams on
an open, ready socket. `ws_disconnect` clears `ws_ready` and leaves `ws_conn`
set while the socket closes; `ws_connect` called now returns at its guard
`ws_conn != nullptr` and starts no session. A `session.updated` message that
arrives on the closing socket sets `ws_ready` again, and the next
`ws_send_audio` sends an audio frame. -/
theorem frame_sent_after_disconnect :
    ws_disconnect
        { pa_ready := true, transcription_available := true, recording := true, stream := some 3,
          ws_conn := some .OPEN, ws_ready := true } =
      ({ pa_ready := true, transcription_available := true, recording := true, stream := some 3,
         ws_conn := some .CLOSING, ws_ready := false }, [.ws_close]) ∧
    ws_send_audio
        { pa_ready := true, transcription_available := true, recording := true, stream := some 3,
          ws_conn := some .CLOSING, ws_ready := false } [0, 0, 0, 100, 0] =
      .ok ({ pa_ready := true, transcription_available := true, recording := true,
             stream := some 3, ws_conn := some .CLOSING, ws_ready := false }, []) ∧
    ws_connect
        { pa_ready := true, transcription_available := true, recording := true, stream := some 3,
          ws_conn := some .CLOSING, ws_ready := false } =
      ({ pa_ready := true, transcription_available := true, recording := true, stream := some 3,
         ws_conn := some .CLOSING, ws_ready := false }, []) ∧
    on_ws_message
        { pa_ready := true, transcription_available := true, recording := true, stream := some 3,
          ws_conn := some .CLOSING, ws_ready := false }
        (some { msg_type := some "session.updated" }) 1 =
      ({ pa_ready := true, transcription_available := true, recording := true, stream := some 3,
         ws_conn := some .CLOSING, ws_ready := true }, []) ∧
    ws_send_audio
        { pa_ready := true, transcription_available := true, recording := true, stream := some 3,
          ws_conn := some .CLOSING, ws_ready := true } [0, 0, 0, 100, 0] =
      .ok ({ pa_ready := true, transcription_available := true, recording := true,
             stream := some 3, ws_conn := some .CLOSING, ws_ready := true,
             resample_phase := 41 / 80 },
        [.ws_send_text "\x7b\"type\":\"input_audio.append\",\"audio\":\"AABLAA==\"\x7d"]) := by
  decide!

/-! ## Resampler from a carried phase (main.cpp 430-450) -/

/-- C29 (resampler safety), evaluated on the code. The phase `-39/160` is
reached from 0 by one call on `[0, 0, 0]`. From it the first iteration has
index 0 and the weight `pos - idx = -39/160`, which is negative. On
`[100, 0]` the interpolated value is `124.375`, outside the two samples read;
on `[32767, -32768]` it is `48741.15625`, outside the 16-bit range, so that the
narrowing to `int16_t` is undefined; on the one-sample block `[5]` the
iteration reads index 1, which is past the end. -/
theorem resample_negative_phase_unsafe :
    resample_44100_to_16000 [0, 0, 0] 0 = .ok ([0], -39 / 160) ∧
    to_size_t (-39 / 160) = some 0 ∧
    (-39 / 160 : ℚ) - ((0 : Nat) : ℚ) < 0 ∧
    (100 : ℚ) * (1 - (-39 / 160 - ((0 : Nat) : ℚ))) + (0 : ℚ) * (-39 / 160 - ((0 : Nat) : ℚ)) =
      124.375 ∧
    resample_44100_to_16000 [100, 0] (-39 / 160) = .ok ([124], 41 / 80) ∧
    (32767 : ℚ) * (1 - (-39 / 160 - ((0 : Nat) : ℚ))) +
        (-32768 : ℚ) * (-39 / 160 - ((0 : Nat) : ℚ)) = 48741.15625 ∧
    to_int16 48741.15625 = none ∧
    resample_44100_to_16000 [32767, -32768] (-39 / 160) = .error .undefined_behaviour ∧
    ([5] : List Int)[0 + 1]? = none ∧
    resample_44100_to_16000 [5] (-39 / 160) = .error .undefined_behaviour := by
  refine ⟨by decide!, by decide!, by norm_num, by norm_num, by decide!, by norm_num, by decide!,
    by decide!, by decide, by decide!⟩
/-! ## Capture buffer (main.cpp 607-634, 704-727) -/

theorem ws_connect_audio_buffer (s : AppState) :
    (ws_connect s).1.audio_buffer = s.audio_buffer ∧ (ws_connect s).1.ws_conn = s.ws_conn := by
  unfold ws_connect
  split_ifs <;> exact ⟨rfl, rfl⟩

theorem start_recording_started (s : AppState) (env : RecordEnv) (handle : Nat)
    (hnew : env.pa_stream_new = some handle) (hconn : env.connect_record_ok = true) :
    (start_recording s env).1.audio_buffer = [] ∧
    (start_recording s env).1.recording = true ∧
    (start_recording s env).1.stream = some handle ∧
    (start_recording s env).1.ws_conn = s.ws_conn := by
  unfold start_recording
  simp only [hnew, hconn, Bool.true_eq_false, if_false]
  refine ⟨(ws_connect_audio_buffer _).1, (ws_connect_flags _).1, (ws_connect_flags _).2.2.2,
    (ws_connect_audio_buffer _).2⟩

theorem capture_run_audio_buffer (calls : List (List (Option (List Int)))) :
    ∀ (s : AppState) (r : AppState × List Effect), capture_run s calls = .ok r →
      r.1.audio_buffer = s.audio_buffer ++ (calls.map delivered_samples).flatten := by
  induction calls with
  | nil =>
    intro s r h
    simp only [capture_run, Except.ok.injEq] at h
    subst h
    simp
  | cons fragments rest ih =>
    intro s r h
    rw [capture_run] at h
    split at h
    · cases h
    · rename_i s1 fx h1
      split at h
      · cases h
      · rename_i s2 fx2 h2
        simp only [Except.ok.injEq] at h
        subst h
        obtain ⟨_, _, a3⟩ := on_stream_read_flags fragments s _ h1
        have b3 := ih _ _ h2
        simp only at a3 b3 ⊢
        rw [b3, a3]
        simp

theorem on_stream_read_fragment_ws_conn (s : AppState) (data : Option (List Int))
    (r : AppState × List Effect) (h : on_stream_read_fragment s data = .ok r) :
    r.1.ws_conn = s.ws_conn := by
  unfold on_stream_read_fragment at h
  cases data with
  | none => cases h; rfl
  | some samples =>
    simp only at h
    split at h
    · cases h
    · rename_i s2 sent hsend
      have hf := ws_send_audio_frame_condition _ _ _ _ hsend
      have h3 : s2.ws_conn = s.ws_conn := by rw [hf]
      simp only [Except.ok.injEq] at h
      subst h
      simp only
      split_ifs <;> exact h3

/-- The capture callback returns for a fragment when the transcription session
is not ready, or the carried phase is not negative and the samples are 16-bit. -/
theorem on_stream_read_fragment_returns (s : AppState) (samples : List Int)
    (h : s.ws_ready = false ∨ s.ws_conn = none ∨ (0 ≤ s.resample_phase ∧ Int16Block samples)) :
    ∃ (s' : AppState) (fx : List Effect),
      on_stream_read_fragment s (some samples) = .ok (s', fx) := by
  unfold on_stream_read_fragment
  simp only
  have hok : ∃ s2 sent, ws_send_audio { s with audio_buffer := s.audio_buffer ++ samples }
      samples = .ok (s2, sent) := by
    unfold ws_send_audio
    rcases h with h | h | ⟨hp, hb⟩
    · simp [h]
    · simp [h]
    · obtain ⟨n, hrun, _, _⟩ := resample_of_nonneg samples s.resample_phase hb hp
      simp only [hrun]
      split
      · exact ⟨_, _, rfl⟩
      · split <;> exact ⟨_, _, rfl⟩
  obtain ⟨s2, sent, hsend⟩ := hok
  rw [hsend]
  exact ⟨_, _, rfl⟩

/-- Without a connection the capture callback returns for every fragment. -/
theorem on_stream_read_fragment_total (s : AppState) (data : Option (List Int))
    (h : s.ws_conn = none) : ∃ r, on_stream_read_fragment s data = .ok r := by
  cases data with
  | none => exact ⟨_, rfl⟩
  | some samples =>
    obtain ⟨s', fx, hr⟩ := on_stream_read_fragment_returns s samples (Or.inr (Or.inl h))
    exact ⟨_, hr⟩

theorem on_stream_read_total (fragments : List (Option (List Int))) :
    ∀ s : AppState, s.ws_conn = none →
      ∃ r, on_stream_read s fragments = .ok r ∧ r.1.ws_conn = none := by
  induction fragments with
  | nil => intro s h; exact ⟨_, rfl, h⟩
  | cons data rest ih =>
    intro s h
    obtain ⟨r1, h1⟩ := on_stream_read_fragment_total s data h
    have hc := on_stream_read_fragment_ws_conn s data r1 h1
    obtain ⟨r2, h2, hc2⟩ := ih r1.1 (hc.trans h)
    refine ⟨(r2.1, r1.2 ++ r2.2), ?_, hc2⟩
    rw [on_stream_read, h1]
    simp only [h2]

theorem capture_run_total (calls : List (List (Option (List Int)))) :
    ∀ s : AppState, s.ws_conn = none → ∃ r, capture_run s calls = .ok r := by
  induction calls with
  | nil => intro s _; exact ⟨_, rfl⟩
  | cons fragments rest ih =>
    intro s h
    obtain ⟨r1, h1, hc⟩ := on_stream_read_total fragments s h
    obtain ⟨r2, h2⟩ := ih r1.1 hc
    refine ⟨(r2.1, r1.2 ++ r2.2), ?_⟩
    rw [capture_run, h1]
    simp only [h2]

/-- C27 (capture buffer growth). For a block delivered to `on_stream_read`:
whenever `ws_send_audio` returns on it, the callback returns, the block it
handed to `ws_send_audio` is the delivered block itself, and `audio_buffer`
afterwards is the buffer before followed by the block; the callback does
return when there is no ready session, or the carried phase is not negative
and the samples are 16-bit. `stop_recording` leaves `audio_buffer` unchanged.
Hence a capture session, from a `start_recording` that succeeded through any
callbacks that returned to `stop_recording`, ends with `audio_buffer` equal to
the delivered blocks in delivery order; without a connection every callback
returns. -/
theorem capture_buffer_growth (s : AppState) (env : RecordEnv) (handle : Nat)
    (calls : List (List (Option (List Int)))) (r : AppState × List Effect)
    (hnew : env.pa_stream_new = some handle) (hconn : env.connect_record_ok = true)
    (hrun : capture_run (start_recording s env).1 calls = .ok r) :
    (∀ (t : AppState) (samples : List Int) (t2 : AppState) (sent : List Effect),
      ws_send_audio { t with audio_buffer := t.audio_buffer ++ samples } samples = .ok (t2, sent) →
      ∃ t3, on_stream_read_fragment t (some samples) =
          .ok (t3, sent ++ [.gtk_level_bar_set_value t3.current_level]) ∧
        t3.audio_buffer = t.audio_buffer ++ samples) ∧
    (∀ (t : AppState) (samples : List Int),
      t.ws_ready = false ∨ t.ws_conn = none ∨ (0 ≤ t.resample_phase ∧ Int16Block samples) →
      ∃ t3 fx, on_stream_read_fragment t (some samples) = .ok (t3, fx) ∧
        t3.audio_buffer = t.audio_buffer ++ samples) ∧
    (∀ (t : AppState) (fragments : List (Option (List Int))) (t3 : AppState) (fx : List Effect),
      on_stream_read t fragments = .ok (t3, fx) →
      t3.audio_buffer = t.audio_buffer ++ delivered_samples fragments) ∧
    (∀ t : AppState, (stop_recording t).1.audio_buffer = t.audio_buffer) ∧
    (stop_recording r.1).1.audio_buffer = (calls.map delivered_samples).flatten ∧
    (s.ws_conn = none → ∀ more : List (List (Option (List Int))),
      ∃ r2, capture_run (start_recording s env).1 more = .ok r2) := by
  obtain ⟨hbuf, _, _, hws⟩ := start_recording_started s env handle hnew hconn
  refine ⟨?_, ?_, ?_, ?_, ?_, ?_⟩
  · intro t samples t2 sent hsend
    have hf := ws_send_audio_frame_condition _ _ _ _ hsend
    have hb : t2.audio_buffer = t.audio_buffer ++ samples := by rw [hf]
    unfold on_stream_read_fragment
    simp only [hsend]
    refine ⟨_, rfl, ?_⟩
    split_ifs <;> exact hb
  · intro t samples h
    obtain ⟨t3, fx, hr⟩ := on_stream_read_fragment_returns t samples h
    refine ⟨t3, fx, hr, ?_⟩
    have := (on_stream_read_fragment_flags t (some samples) (t3, fx) hr).2.2
    simpa using this
  · intro t fragments t3 fx h
    exact (on_stream_read_flags fragments t (t3, fx) h).2.2
  · intro t
    exact (stop_recording_flags t).2.2.2.2
  · rw [(stop_recording_flags r.1).2.2.2.2, capture_run_audio_buffer calls _ r hrun, hbuf]
    simp
  · intro hnone more
    exact capture_run_total more _ (hws.trans hnone)

/-- Witness of `capture_buffer_growth`: a recording without transcription
service, two callbacks with the blocks `[1, 2]`, a hole, and `[3]`. -/
theorem capture_buffer_growth_witness :
    ∃ r, capture_run (start_recording { pa_ready := true } ⟨false, some 3, true⟩).1
        [[some [1, 2], none], [some [3]]] = .ok r ∧
      r.1.audio_buffer = [1, 2, 3] ∧
      (stop_recording r.1).1.audio_buffer = [1, 2, 3] := by
  obtain ⟨r, hr⟩ := capture_run_total [[some [1, 2], none], [some [3]]]
    (start_recording { pa_ready := true } ⟨false, some 3, true⟩).1 (by decide)
  have h := capture_buffer_growth { pa_ready := true } ⟨false, some 3, true⟩ 3
    [[some [1, 2], none], [some [3]]] r rfl rfl hr
  have h5 := h.2.2.2.2.1
  refine ⟨r, hr, ?_, h5⟩
  rw [h.2.2.2.1] at h5
  exact h5
/-! ## Resampler count and phase (main.cpp 430-450) -/

/-- When the loop returns it has run some number `n` of iterations, each from a
position below `count - 1`, appended one sample in each, and stopped at the
first position `pos + n * STEP` that is not below `count - 1`. -/
theorem resample_loop_ok_inv (input : List Int) :
    ∀ (fuel : Nat) (pos : ℚ) (output out : List Int) (phase : ℚ),
      resample_loop input fuel pos output = .ok (out, phase) →
      ∃ n : Nat, out.length = output.length + n ∧
        phase = pos + n * STEP - input.length ∧
        (input.length : ℚ) - 1 ≤ pos + n * STEP ∧
        ∀ j : Nat, j < n → pos + j * STEP < (input.length : ℚ) - 1 := by
  intro fuel
  induction fuel with
  | zero =>
    intro pos output out phase h
    rw [resample_loop] at h
    split at h
    · cases h
    · rename_i hge
      cases h
      exact ⟨0, by simp, by simp, by simpa using not_lt.mp hge, by intro j hj; omega⟩
  | succ fuel ih =>
    intro pos output out phase h
    rw [resample_loop] at h
    split at h
    · rename_i hlt
      simp only at h
      split at h
      · cases h
      · rename_i idx hidx
        split at h
        · rename_i a b ha hb
          split at h
          · cases h
          · rename_i v hv
            obtain ⟨n, hlen, hph, hend, hbelow⟩ := ih _ _ _ _ h
            refine ⟨n + 1, ?_, ?_, ?_, ?_⟩
            · rw [hlen]; simp; omega
            · rw [hph]; push_cast; ring
            · push_cast; linarith
            · intro j hj
              cases j with
              | zero => simpa using hlt
              | succ j =>
                have := hbelow j (by omega)
                push_cast; linarith
        · cases h
    · rename_i hge
      cases h
      exact ⟨0, by simp, by simp, by simpa using not_lt.mp hge, by intro j hj; omega⟩

/-- The arithmetic of the count and of the phase, for calls that return: two
calls on `A` and `B` with the phase carried give as many samples in total as
one call on `A ++ B`, and end with the same phase; a phase that starts in
`[-1, STEP - 1)` stays there. -/
theorem resample_split_of_ok (A B : List Int) (phase : ℚ) (o1 o2 o : List Int) (p1 p2 p : ℚ)
    (h1 : resample_44100_to_16000 A phase = .ok (o1, p1))
    (h2 : resample_44100_to_16000 B p1 = .ok (o2, p2))
    (h : resample_44100_to_16000 (A ++ B) phase = .ok (o, p)) :
    o.length = o1.length + o2.length ∧ p = p2 ∧
    (-1 ≤ phase → phase < STEP - 1 → -1 ≤ p1 ∧ p1 < STEP - 1 ∧ -1 ≤ p2 ∧ p2 < STEP - 1) := by
  obtain ⟨n1, l1, e1, end1, below1⟩ := resample_loop_ok_inv A _ _ _ _ _ h1
  obtain ⟨n2, l2, e2, end2, below2⟩ := resample_loop_ok_inv B _ _ _ _ _ h2
  obtain ⟨n, l, e, end0, below0⟩ := resample_loop_ok_inv (A ++ B) _ _ _ _ _ h
  simp only [List.length_nil, zero_add] at l1 l2 l
  have hlen : (((A ++ B).length : ℕ) : ℚ) = (A.length : ℚ) + (B.length : ℚ) := by
    simp
  rw [hlen] at e end0 below0
  have hS := STEP_eq
  have hb0 : (0 : ℚ) ≤ (B.length : ℚ) := Nat.cast_nonneg _
  have ha0 : (0 : ℚ) ≤ (A.length : ℚ) := Nat.cast_nonneg _
  have hn : n = n1 + n2 := by
    rcases Nat.lt_trichotomy n (n1 + n2) with hlt | heq | hgt
    · exfalso
      by_cases hc : n < n1
      · have := below1 n hc
        linarith
      · have hj : n - n1 < n2 := by omega
        have := below2 (n - n1) hj
        have hcast : ((n - n1 : ℕ) : ℚ) = (n : ℚ) - (n1 : ℚ) := by
          rw [Nat.cast_sub (by omega)]
        rw [hcast, e1] at this
        linarith
    · exact heq
    · exfalso
      have := below0 (n1 + n2) hgt
      rw [e1] at end2
      push_cast at this
      linarith
  refine ⟨by rw [l, l1, l2, hn], ?_, ?_⟩
  · rw [e, e2, e1, hn]; push_cast; ring
  · intro hlo hhi
    have r1 : -1 ≤ p1 ∧ p1 < STEP - 1 := by
      refine ⟨by rw [e1]; linarith, ?_⟩
      rw [e1]
      cases n1 with
      | zero => simp only [Nat.cast_zero, zero_mul, add_zero]; linarith
      | succ k =>
        have := below1 k (by omega)
        push_cast; linarith
    refine ⟨r1.1, r1.2, by rw [e2]; linarith, ?_⟩
    rw [e2]
    cases n2 with
    | zero => simp only [Nat.cast_zero, zero_mul, add_zero]; linarith [r1.2]
    | succ k =>
      have := below2 k (by omega)
      push_cast; linarith

/-- C30 (resampler count and phase carry), evaluated on the code. From phase 0
the one-sample block `[5]` gives no output and leaves the phase `-1`, which is
at least -1. The call on the next block `[7]` then enters the loop, since
`-1 < 1 - 1`, and converts the position `-1` to `size_t`, which is undefined:
the two calls return no total, where one call on `[5, 7]` returns one sample
and the phase `121/160`. A phase of `-1/2` on the block `[5]` alone reads
`input[1]` past the end of the block. -/
theorem resample_split_second_call_undefined :
    resample_44100_to_16000 [5] 0 = .ok ([], -1) ∧
    resample_44100_to_16000 [7] (-1) = .error .undefined_behaviour ∧
    resample_44100_to_16000 ([5] ++ [7]) 0 = .ok ([5], 121 / 160) ∧
    to_size_t (-1) = none ∧
    resample_44100_to_16000 ([5] ++ []) (-1 / 2) = .error .undefined_behaviour := by
  decide!

end Linscribe
